import Mathlib

/-!
# Currency service: the wallet balance mutation core

A shallow embedding of `internal/service/wallet_service.go` together with the
repository methods it calls (`internal/repository/postgres_wallet_repository.go`,
`internal/repository/postgres_rate_repository.go`), the request / response
records of `internal/models`, `CreateRate` and `GetAverageRate` of
`internal/service/rate_service.go` and the handlers of `internal/handlers` that
sit in front of these methods.

Modelling conventions.

* Go's `error` is `Option GoError` (`none` is `nil`).  `GoError` keeps the
  identity of the package level sentinel errors, the text of errors built at a
  call site and the `%w` wrapping chain, so that `errors.Is` and `Error()` can
  be evaluated.
* `float64` is IEEE 754 binary64 with round to nearest, ties to even: a finite
  value is kept as its integer number of units of `2 ^ (-1074)`, next to the
  two infinities and NaN.  The two zeros are one value (the code tells them
  apart nowhere) and NaN is one value.
* A column of type `REAL` keeps the binary32 nearest to the float64 handed in
  and refuses a number outside its range; a value read from the column is the
  value kept (the decimal text the driver and the server exchange is taken to
  denote it exactly).  The `CHECK` constraints of the schema are not modelled:
  the service never hands in a value that violates one.
* The relational store is a record of the two tables plus the log of the calls
  made on it.  A transaction works on its own copy of the tables; `Commit`
  installs that copy, `Rollback` drops it.  Execution is sequential.
* Storage faults (a failing `BeginTx`, `Commit`, `Rollback` or driver call) are
  supplied by a `Faults` record, one optional driver error per call site.
* A handler receives the outcome of decoding the request body (the GET handler
  of the average: the parsed query of the URL) and yields the status code
  together with the body the JSON encoder writes: nothing when the encoder
  refuses the payload, which it does for an infinity or NaN.
* The members of a JSON body are computed from the `json` struct tags of the
  payload; a member tagged `omitempty` is left out when its value is the zero
  value of its type.
* Logging and timestamps have no influence on the results and are left out.
-/

namespace CurrencyService

/-! ## float64 and REAL -/

/-- The number of binary digits of `n`, found with at most `fuel` halvings. -/
def bitLengthAux : Nat → Nat → Nat
  | 0, _ => 0
  | fuel + 1, n => if n = 0 then 0 else bitLengthAux fuel (n / 2) + 1

/-- The number of binary digits of `n` (0 for 0). -/
def bitLength (n : Nat) : Nat :=
  bitLengthAux n n

/-- The integer nearest to `n / d`; when `n / d` lies half way between two
integers, the even one. -/
def roundHalfEven (n d : Nat) : Nat :=
  let q := n / d
  let r := n % d
  if 2 * r < d then q else if d < 2 * r then q + 1 else if q % 2 = 0 then q else q + 1

/-- Rounding of the magnitude `n / d` to a binary format with `p` significant
digits whose smallest step is `2 ^ emin`: the nearest multiple of the step at
`n / d`, ties to the even multiple.  The step at a magnitude of `b` binary digits is
`2 ^ (b - p)`, and `2 ^ emin` below the normal range. -/
def roundMagnitude (p emin n d : Nat) : Nat :=
  let s := max emin (bitLength (n / d) - p)
  roundHalfEven n (d * 2 ^ s) * 2 ^ s

/-- Go's type `float64` (IEEE 754 binary64).  A finite value is the integer
number `k` of its units of `2 ^ (-1074)`, the smallest positive float64; every
finite float64 is such a multiple.  The two zeros are one value. -/
inductive Float64 where
  | finite (k : Int)
  | inf (negative : Bool)
  | NaN
  deriving DecidableEq

/-- One, in units of `2 ^ (-1074)`. -/
@[irreducible] def Float64.unit : Nat := 2 ^ 1074

/-- The magnitude, in units, from which a float64 overflows: `2 ^ 1024`. -/
@[irreducible] def Float64.overflow : Nat := 2 ^ 2098

/-- The largest finite float64, `math.MaxFloat64`, in units. -/
@[irreducible] def Float64.maxUnits : Nat := 2 ^ 2098 - 2 ^ 2045

/-- The float64 nearest to the number of sign `negative` and magnitude `n / d`
units (round to nearest, ties to even; an infinity on overflow). -/
def Float64.nearest (negative : Bool) (n d : Nat) : Float64 :=
  let m := roundMagnitude 53 0 n d
  if Float64.overflow ≤ m then .inf negative
  else .finite (if negative then -(m : Int) else (m : Int))

/-- The float64 nearest to `k` units. -/
def Float64.ofUnits (k : Int) : Float64 :=
  Float64.nearest (decide (k < 0)) k.natAbs 1

/-- The conversion `float64(n)` of an integer. -/
def Float64.ofInt (n : Int) : Float64 :=
  Float64.nearest (decide (n < 0)) (n.natAbs * Float64.unit) 1

/-- The float64 a decimal literal `mantissa * 10 ^ (± decimalExponent)` denotes,
as `strconv.ParseFloat` and the JSON decoder read it. -/
def Float64.ofScientific (mantissa : Nat) (exponentSign : Bool) (decimalExponent : Nat) :
    Float64 :=
  if exponentSign then Float64.nearest false (mantissa * Float64.unit) (10 ^ decimalExponent)
  else Float64.nearest false (mantissa * 10 ^ decimalExponent * Float64.unit) 1

instance (n : Nat) : OfNat Float64 n := ⟨Float64.ofInt n⟩

instance : OfScientific Float64 := ⟨Float64.ofScientific⟩

/-- The operator `-x`. -/
def Float64.neg : Float64 → Float64
  | .finite a => .finite (-a)
  | .inf s => .inf (!s)
  | .NaN => .NaN

/-- The operator `x + y`. -/
def Float64.add : Float64 → Float64 → Float64
  | .finite a, .finite b => Float64.ofUnits (a + b)
  | .finite _, .inf t => .inf t
  | .inf s, .finite _ => .inf s
  | .inf s, .inf t => if s = t then .inf s else .NaN
  | .NaN, _ => .NaN
  | _, .NaN => .NaN

/-- The operator `x - y`. -/
def Float64.sub : Float64 → Float64 → Float64
  | .finite a, .finite b => Float64.ofUnits (a - b)
  | .finite _, .inf t => .inf (!t)
  | .inf s, .finite _ => .inf s
  | .inf s, .inf t => if s = t then .NaN else .inf s
  | .NaN, _ => .NaN
  | _, .NaN => .NaN

/-- The operator `x * y`. -/
def Float64.mul : Float64 → Float64 → Float64
  | .finite a, .finite b =>
    Float64.nearest (decide (a < 0) != decide (b < 0)) (a.natAbs * b.natAbs) Float64.unit
  | .finite a, .inf t => if a = 0 then .NaN else .inf (decide (a < 0) != t)
  | .inf s, .finite b => if b = 0 then .NaN else .inf (s != decide (b < 0))
  | .inf s, .inf t => .inf (s != t)
  | .NaN, _ => .NaN
  | _, .NaN => .NaN

/-- The operator `x / y` (a zero divisor counts as `+0`). -/
def Float64.div : Float64 → Float64 → Float64
  | .finite a, .finite b =>
    if b = 0 then (if a = 0 then .NaN else .inf (decide (a < 0)))
    else Float64.nearest (decide (a < 0) != decide (b < 0)) (a.natAbs * Float64.unit) b.natAbs
  | .finite _, .inf _ => .finite 0
  | .inf s, .finite b => .inf (s != decide (b < 0))
  | .inf _, .inf _ => .NaN
  | .NaN, _ => .NaN
  | _, .NaN => .NaN

/-- The operator `x < y`: false when an operand is NaN. -/
def Float64.lt : Float64 → Float64 → Bool
  | .finite a, .finite b => decide (a < b)
  | .finite _, .inf t => !t
  | .inf s, .finite _ => s
  | .inf s, .inf t => s && !t
  | .NaN, _ => false
  | _, .NaN => false

/-- The operator `x <= y`: false when an operand is NaN. -/
def Float64.le : Float64 → Float64 → Bool
  | .finite a, .finite b => decide (a ≤ b)
  | .finite _, .inf t => !t
  | .inf s, .finite _ => s
  | .inf s, .inf t => s || !t
  | .NaN, _ => false
  | _, .NaN => false

instance : Neg Float64 := ⟨Float64.neg⟩

instance : Add Float64 := ⟨Float64.add⟩

instance : Sub Float64 := ⟨Float64.sub⟩

instance : Mul Float64 := ⟨Float64.mul⟩

instance : Div Float64 := ⟨Float64.div⟩

instance : LT Float64 := ⟨fun x y => Float64.lt x y = true⟩

instance : LE Float64 := ⟨fun x y => Float64.le x y = true⟩

instance (x y : Float64) : Decidable (x < y) :=
  inferInstanceAs (Decidable (Float64.lt x y = true))

instance (x y : Float64) : Decidable (x ≤ y) :=
  inferInstanceAs (Decidable (Float64.le x y = true))

/-- A finite float64: neither an infinity nor NaN, and of a magnitude up to
`math.MaxFloat64`.  The numbers of a decoded JSON body are finite. -/
def Float64.IsFinite : Float64 → Prop
  | .finite k => k.natAbs ≤ Float64.maxUnits
  | _ => False

instance (x : Float64) : Decidable x.IsFinite := by
  cases x <;> unfold Float64.IsFinite <;> infer_instance

/-- The magnitude, in units of `2 ^ (-1074)`, from which a `REAL` overflows:
`2 ^ 128`. -/
@[irreducible] def REAL.overflow : Nat := 2 ^ 1202

/-! ## internal/models -/

/-- The record `models.Wallet` (timestamps left out). -/
structure Wallet where
  Number : String
  Balance : Float64
  deriving DecidableEq

/-- The record `models.Rate` (timestamp left out). -/
structure Rate where
  ID : Int
  Value : Float64
  deriving DecidableEq

/-- The record `models.UpdateBalanceRequest`. -/
structure UpdateBalanceRequest where
  WalletNumber : String
  Amount : Float64
  deriving DecidableEq

/-- The record `models.UpdateBalanceResponse`. -/
structure UpdateBalanceResponse where
  WalletNumber : String
  NewBalance : Float64
  Message : String
  deriving DecidableEq

/-- The record `models.ConvertRequest`. -/
structure ConvertRequest where
  FirstName : String
  LastName : String
  UserID : String
  AmountToConvert : Float64
  SourceWalletNumber : String
  deriving DecidableEq

/-- The record `models.ConvertResponse`. -/
structure ConvertResponse where
  SourceWalletNumber : String
  RemainingBalance : Float64
  ConvertedAmount : Float64
  RateUsed : Float64
  Message : String
  deriving DecidableEq

/-! ## Errors -/

/-- An error raised by the database driver: either a `*pq.Error` carrying an
SQLSTATE code, or any other driver or connection error. -/
inductive DriverError where
  | pq (Code : String) (Message : String)
  | other (Message : String)
  deriving DecidableEq

/-- Text of a driver error. -/
def DriverError.Error : DriverError → String
  | .pq _ m => "pq: " ++ m
  | .other m => m

/-- Go error values met by the service: the sentinels declared in
`wallet_service.go`, `sql.ErrNoRows`, driver errors, errors built from a text
alone (`errors.New`, `fmt.Errorf` without `%w`) and `fmt.Errorf` with a
trailing `%w`. -/
inductive GoError where
  | ErrWalletNotFound
  | ErrInsufficientFunds
  | ErrInvalidWalletNumber
  | ErrNegativeDeposit
  | ErrWithdrawNonExistent
  | ErrRateNotAvailable
  | sqlErrNoRows
  | driver (e : DriverError)
  | errorsNew (msg : String)
  | errorf (pre : String) (inner : GoError)
  deriving DecidableEq

/-- The method `Error()`. -/
def GoError.Error : GoError → String
  | .ErrWalletNotFound => "кошелек не найден"
  | .ErrInsufficientFunds => "недостаточно средств на счете"
  | .ErrInvalidWalletNumber => "некорректный формат номера кошелька (требуется 7 цифр)"
  | .ErrNegativeDeposit => "сумма для создания кошелька должна быть положительной"
  | .ErrWithdrawNonExistent => "нельзя списать средства с несуществующего кошелька"
  | .ErrRateNotAvailable => "не удалось получить актуальный курс валют"
  | .sqlErrNoRows => "sql: no rows in result set"
  | .driver e => e.Error
  | .errorsNew msg => msg
  | .errorf pre inner => pre ++ inner.Error

/-- The function `errors.Is`: `target` is met somewhere along the `%w` chain. -/
def errorsIs : GoError → GoError → Bool
  | .errorf pre inner, target =>
      decide (GoError.errorf pre inner = target) || errorsIs inner target
  | err, target => decide (err = target)

/-! ## The column type REAL -/

deriving instance DecidableEq for Except

/-- What a column of type `REAL` (IEEE 754 binary32) keeps of a float64 handed
to an `INSERT` or `UPDATE`: the binary32 nearest to it (ties to even), and for
a number that overflows binary32 or that is not zero and rounds to zero the
error `numeric_value_out_of_range` (SQLSTATE 22003) of the server.  The
decimal text in which driver and server exchange a number is taken to denote
it exactly, so a value read back from the column is the value kept. -/
def toREAL : Float64 → Except DriverError Float64
  | .finite k =>
    let m := roundMagnitude 24 925 k.natAbs 1
    if REAL.overflow ≤ m ∨ (m = 0 ∧ k ≠ 0) then
      .error (.pq "22003" "value out of range for type real")
    else .ok (.finite (if k < 0 then -(m : Int) else (m : Int)))
  | .inf s => .ok (.inf s)
  | .NaN => .ok .NaN

/-- A finite value within the range of a `REAL` column. -/
def Float64.InRangeREAL : Float64 → Prop
  | .finite k => k.natAbs < REAL.overflow
  | _ => False

instance (x : Float64) : Decidable x.InRangeREAL := by
  cases x <;> unfold Float64.InRangeREAL <;> infer_instance

/-! ## The store -/

/-- Calls made on the database handle and on the repositories. -/
inductive Call where
  | BeginTx
  | Commit
  | Rollback
  | GetWalletByNumberForUpdate (number : String)
  | GetAllWallets
  | CreateWallet (wallet : Wallet)
  | UpdateWalletBalance (number : String) (newBalance : Float64)
  | GetLatestRate
  | SaveRate (rate : Rate)
  | GetLatestRates (limit : Int)
  deriving DecidableEq

/-- What a database handle (`*sql.DB` or `*sql.Tx`) gives access to: table
`wallets` in creation order, table `rates` in timestamp order (oldest first),
and the log of calls made so far (oldest first). -/
structure DBState where
  wallets : List Wallet
  rates : List Rate
  calls : List Call
  deriving DecidableEq

/-- Append a call to the log. -/
def DBState.record (db : DBState) (c : Call) : DBState :=
  { db with calls := db.calls ++ [c] }

/-- The row of table `wallets` with the given primary key. -/
def DBState.findWallet (db : DBState) (number : String) : Option Wallet :=
  db.wallets.find? (fun w => w.Number == number)

/-- The stored balance of a wallet number, when it has a row. -/
def DBState.balanceOf (db : DBState) (number : String) : Option Float64 :=
  (db.findWallet number).map (fun w => w.Balance)

/-- The rows left by `UPDATE wallets SET balance = $1 WHERE wallet_number = $2`. -/
def setBalance (rows : List Wallet) (number : String) (newBalance : Float64) :
    List Wallet :=
  rows.map (fun w => if w.Number == number then ⟨w.Number, newBalance⟩ else w)

/-- How a query that returns several rows can fail: `QueryContext` itself, the
`Scan` of the row of a given index (counted from 0), or `rows.Err()` after the
iteration. -/
inductive QueryFault where
  | Query (e : DriverError)
  | Scan (row : Nat) (e : DriverError)
  | Err (e : DriverError)
  deriving DecidableEq

/-- Storage faults: the driver error each call site fails with, if any. -/
structure Faults where
  BeginTx : Option DriverError
  Commit : Option DriverError
  Rollback : Option DriverError
  GetWalletByNumberForUpdate : Option DriverError
  CreateWallet : Option DriverError
  UpdateWalletBalance : Option DriverError
  RowsAffected : Option DriverError
  GetLatestRate : Option DriverError
  SaveRate : Option DriverError
  GetLatestRates : Option QueryFault
  GetAllWallets : Option QueryFault
  deriving DecidableEq

/-- A storage that never fails. -/
def Faults.none : Faults :=
  ⟨Option.none, Option.none, Option.none, Option.none, Option.none, Option.none, Option.none,
    Option.none, Option.none, Option.none, Option.none⟩

/-! ## internal/repository -/

/-- The method `postgresWalletRepository.GetWalletByNumberForUpdate`:
`SELECT ... WHERE wallet_number = $1 FOR UPDATE`. -/
def GetWalletByNumberForUpdate (f : Faults) (tx : DBState) (number : String) :
    Except GoError Wallet × DBState :=
  let tx1 := tx.record (.GetWalletByNumberForUpdate number)
  match f.GetWalletByNumberForUpdate with
  | some e => (.error (.driver e), tx1)
  | Option.none =>
    match tx.findWallet number with
    | Option.none => (.error .sqlErrNoRows, tx1)
    | some wallet => (.ok wallet, tx1)

/-- The method `postgresWalletRepository.CreateWallet`: `INSERT INTO wallets`.
A unique violation (SQLSTATE 23505) is reported by its own text, any other
driver error is wrapped.  The server converts the balance to `REAL` when it
binds the parameters, before it looks at the rows. -/
def CreateWallet (f : Faults) (db : DBState) (wallet : Wallet) : Option GoError × DBState :=
  let db1 := db.record (.CreateWallet wallet)
  let exists_ : GoError := .errorsNew ("кошелек с номером " ++ wallet.Number ++ " уже существует")
  match f.CreateWallet with
  | some (.pq code m) =>
    if code = "23505" then (some exists_, db1)
    else (some (.errorf "ошибка выполнения запроса INSERT (wallet): " (.driver (.pq code m))), db1)
  | some (.other m) =>
    (some (.errorf "ошибка выполнения запроса INSERT (wallet): " (.driver (.other m))), db1)
  | Option.none =>
    match toREAL wallet.Balance with
    | .error e =>
      (some (.errorf "ошибка выполнения запроса INSERT (wallet): " (.driver e)), db1)
    | .ok balance =>
      match db.findWallet wallet.Number with
      | some _ => (some exists_, db1)
      | Option.none =>
        (Option.none, { db1 with wallets := db1.wallets ++ [⟨wallet.Number, balance⟩] })

/-- The method `postgresWalletRepository.UpdateWalletBalance`:
`UPDATE wallets SET balance = $1 WHERE wallet_number = $2`, failing with
`sql.ErrNoRows` when no row was affected.  The server converts the balance to
`REAL` when it binds the parameters, before it looks at the rows. -/
def UpdateWalletBalance (f : Faults) (db : DBState) (number : String) (newBalance : Float64) :
    Option GoError × DBState :=
  let db1 := db.record (.UpdateWalletBalance number newBalance)
  match f.UpdateWalletBalance with
  | some e =>
    (some (.errorf "ошибка выполнения запроса UPDATE (wallet balance): " (.driver e)), db1)
  | Option.none =>
    match toREAL newBalance with
    | .error e =>
      (some (.errorf "ошибка выполнения запроса UPDATE (wallet balance): " (.driver e)), db1)
    | .ok balance =>
      let db2 : DBState := { db1 with wallets := setBalance db1.wallets number balance }
      match f.RowsAffected with
      | some e => (some (.errorf "ошибка проверки результата UPDATE: " (.driver e)), db2)
      | Option.none =>
        if (db.wallets.filter (fun w => w.Number == number)).length = 0 then
          (some .sqlErrNoRows, db2)
        else (Option.none, db2)

/-- The method `postgresRateRepository.GetLatestRate`:
`SELECT ... FROM rates ORDER BY timestamp DESC LIMIT 1`. -/
def GetLatestRate (f : Faults) (db : DBState) : Except GoError Rate × DBState :=
  let db1 := db.record .GetLatestRate
  match f.GetLatestRate with
  | some e =>
    (.error (.errorf "ошибка выполнения запроса SELECT (latest rate): " (.driver e)), db1)
  | Option.none =>
    match db.rates.getLast? with
    | Option.none => (.error (.errorf "нет доступных курсов: " .sqlErrNoRows), db1)
    | some rate => (.ok rate, db1)

/-- The method `postgresRateRepository.SaveRate`: `INSERT INTO rates`.  The
new row gets the next serial id; its timestamp being the time of insertion, it
becomes the latest row.  The server converts the value to `REAL` when it binds
the parameter. -/
def SaveRate (f : Faults) (db : DBState) (rate : Rate) : Option GoError × DBState :=
  let db1 := db.record (.SaveRate rate)
  match f.SaveRate with
  | some e => (some (.errorf "ошибка выполнения запроса INSERT: " (.driver e)), db1)
  | Option.none =>
    match toREAL rate.Value with
    | .error e => (some (.errorf "ошибка выполнения запроса INSERT: " (.driver e)), db1)
    | .ok value =>
      (Option.none, ⟨db1.wallets, db1.rates ++ [⟨(db1.rates.length : Int) + 1, value⟩], db1.calls⟩)

/-- The rows a multi-row query hands back and the error it ends with: all the
rows and no error without a fault; no row when the query or `rows.Err()` fails;
the rows scanned so far when a `Scan` fails.  The three texts are those wrapped
around the driver error in the three cases. -/
def scanRows {α : Type} (fault : Option QueryFault) (rows : List α)
    (queryText scanText errText : String) : List α × Option GoError :=
  match fault with
  | some (.Query e) => ([], some (.errorf queryText (.driver e)))
  | some (.Scan row e) =>
    if row < rows.length then (rows.take row, some (.errorf scanText (.driver e)))
    else (rows, Option.none)
  | some (.Err e) => ([], some (.errorf errText (.driver e)))
  | Option.none => (rows, Option.none)

/-- The method `postgresWalletRepository.GetAllWallets`:
`SELECT ... FROM wallets ORDER BY created_at ASC`. -/
def GetAllWallets (f : Faults) (db : DBState) : (List Wallet × Option GoError) × DBState :=
  (scanRows f.GetAllWallets db.wallets "ошибка выполнения запроса SELECT (all wallets): "
      "ошибка сканирования строки wallets: " "ошибка после итерации по результатам wallets: ",
    db.record .GetAllWallets)

/-- The method `postgresRateRepository.GetLatestRates`:
`SELECT ... FROM rates ORDER BY timestamp DESC LIMIT $1`.  The engine refuses
a negative `LIMIT`. -/
def GetLatestRates (f : Faults) (db : DBState) (limit : Int) :
    (List Rate × Option GoError) × DBState :=
  let db1 := db.record (.GetLatestRates limit)
  if limit < 0 then
    (([], some (.errorf "ошибка выполнения запроса SELECT: "
      (.driver (.pq "2201W" "LIMIT must not be negative")))), db1)
  else
    (scanRows f.GetLatestRates (db.rates.reverse.take limit.toNat)
        "ошибка выполнения запроса SELECT: " "ошибка сканирования строки rates: "
        "ошибка после итерации по результатам rates: ",
      db1)

/-! ## internal/service/wallet_service.go -/

/-- The class `\d` of Go regular expressions: the ASCII digits. -/
def isDigit (c : Char) : Bool :=
  decide ('0' ≤ c) && decide (c ≤ '9')

/-- Match `\d{n}$` against the rest of the input. -/
def matchDigitsToEnd : Nat → List Char → Bool
  | 0, [] => true
  | 0, _ :: _ => false
  | _ + 1, [] => false
  | n + 1, c :: cs => isDigit c && matchDigitsToEnd n cs

/-- The compiled expression `walletNumberRegex`, as used through `MatchString`:
the pattern is `^\d{7}$`. -/
def walletNumberRegex (s : String) : Bool :=
  matchDigitsToEnd 7 s.data

/-- The method `walletService.executeTx`.  `vars` are the variables of the
caller that the closure `fn` assigns to. -/
def executeTx {σ : Type} (f : Faults) (db : DBState) (vars : σ)
    (fn : DBState → σ → Option GoError × σ × DBState) : Option GoError × σ × DBState :=
  let db1 := db.record .BeginTx
  match f.BeginTx with
  | some e => (some (.errorf "внутренняя ошибка сервера (tx begin): " (.driver e)), vars, db1)
  | Option.none =>
    match fn db1 vars with
    | (some err, vars1, tx) =>
      let db2 : DBState := { db1 with calls := tx.calls ++ [.Rollback] }
      match f.Rollback with
      | some _ =>
        (some (.errorf "внутренняя ошибка сервера (tx rollback after error): " err), vars1, db2)
      | Option.none => (some err, vars1, db2)
    | (Option.none, vars1, tx) =>
      match f.Commit with
      | some e =>
        (some (.errorf "внутренняя ошибка сервера (tx commit): " (.driver e)), vars1,
          { db1 with calls := tx.calls ++ [.Commit] })
      | Option.none => (Option.none, vars1, { tx with calls := tx.calls ++ [.Commit] })

/-- The closure passed to `executeTx` by `UpdateBalance`; `vars` holds the
captured variables `finalBalance` and `message`. -/
def updateBalanceTx (f : Faults) (req : UpdateBalanceRequest) (tx : DBState)
    (vars : Float64 × String) : Option GoError × (Float64 × String) × DBState :=
  match GetWalletByNumberForUpdate f tx req.WalletNumber with
  | (.error err, tx1) =>
    if errorsIs err .sqlErrNoRows then
      if req.Amount ≤ 0 then (some .ErrWithdrawNonExistent, vars, tx1)
      else
        let newWallet : Wallet := ⟨req.WalletNumber, req.Amount⟩
        match CreateWallet f tx1 newWallet with
        | (some createErr, tx2) =>
          if createErr.Error = "кошелек с номером " ++ req.WalletNumber ++ " уже существует" then
            (some (.errorsNew "конфликт при создании кошелька, попробуйте еще раз"), vars, tx2)
          else (some (.errorf "не удалось создать кошелек: " createErr), vars, tx2)
        | (Option.none, tx2) => (Option.none, (newWallet.Balance, "Кошелек успешно создан"), tx2)
    else (some (.errorf "ошибка получения кошелька: " err), vars, tx1)
  | (.ok wallet, tx1) =>
    let newBalance := wallet.Balance + req.Amount
    if newBalance < 0 then
      (some .ErrInsufficientFunds, (wallet.Balance, "Недостаточно средств для списания"), tx1)
    else
      match UpdateWalletBalance f tx1 req.WalletNumber newBalance with
      | (some updateErr, tx2) =>
        (some (.errorf "не удалось обновить баланс: " updateErr), vars, tx2)
      | (Option.none, tx2) =>
        (Option.none,
          (newBalance,
            if req.Amount ≥ 0 then "Баланс успешно пополнен" else "Списание успешно выполнено"),
          tx2)

/-- The method `walletService.UpdateBalance`. -/
def UpdateBalance (f : Faults) (db : DBState) (req : UpdateBalanceRequest) :
    (UpdateBalanceResponse × Option GoError) × DBState :=
  if !walletNumberRegex req.WalletNumber then
    ((⟨"", 0, ""⟩, some .ErrInvalidWalletNumber), db)
  else
    match executeTx f db ((0 : Float64), "") (updateBalanceTx f req) with
    | (some err, (finalBalance, _), db1) =>
      let userMessage :=
        if errorsIs err .ErrInsufficientFunds then GoError.ErrInsufficientFunds.Error
        else if errorsIs err .ErrWithdrawNonExistent then GoError.ErrWithdrawNonExistent.Error
        else "Не удалось обновить баланс"
      ((⟨req.WalletNumber, finalBalance, userMessage⟩, some err), db1)
    | (Option.none, (finalBalance, message), db1) =>
      ((⟨req.WalletNumber, finalBalance, message⟩, Option.none), db1)

/-- The closure passed to `executeTx` by `ConvertAndDeduct`; the captured
variable is `finalResponse`. -/
def convertAndDeductTx (f : Faults) (req : ConvertRequest) (amountToDeduct : Float64)
    (tx : DBState) (finalResponse : ConvertResponse) :
    Option GoError × ConvertResponse × DBState :=
  match GetWalletByNumberForUpdate f tx req.SourceWalletNumber with
  | (.error err, tx1) =>
    if errorsIs err .sqlErrNoRows then (some .ErrWalletNotFound, finalResponse, tx1)
    else (some (.errorf "ошибка получения кошелька для конвертации: " err), finalResponse, tx1)
  | (.ok wallet, tx1) =>
    if wallet.Balance < amountToDeduct then
      (some .ErrInsufficientFunds, { finalResponse with RemainingBalance := wallet.Balance }, tx1)
    else
      let newBalance := wallet.Balance - amountToDeduct
      match UpdateWalletBalance f tx1 req.SourceWalletNumber newBalance with
      | (some updateErr, tx2) =>
        (some (.errorf "не удалось списать средства для конвертации: " updateErr),
          finalResponse, tx2)
      | (Option.none, tx2) =>
        (Option.none,
          { finalResponse with
            RemainingBalance := newBalance
            Message := "Конвертация и списание прошли успешно" },
          tx2)

/-- The method `walletService.ConvertAndDeduct`. -/
def ConvertAndDeduct (f : Faults) (db : DBState) (req : ConvertRequest) :
    (ConvertResponse × Option GoError) × DBState :=
  if !walletNumberRegex req.SourceWalletNumber then
    ((⟨"", 0, 0, 0, GoError.ErrInvalidWalletNumber.Error⟩, some .ErrInvalidWalletNumber), db)
  else if req.AmountToConvert ≤ 0 then
    let err : GoError := .errorsNew "сумма для конвертации должна быть положительной"
    ((⟨"", 0, 0, 0, err.Error⟩, some err), db)
  else
    let finalResponse : ConvertResponse := ⟨req.SourceWalletNumber, 0, 0, 0, ""⟩
    match GetLatestRate f db with
    | (.error _, db1) =>
      (({ finalResponse with Message := GoError.ErrRateNotAvailable.Error },
          some .ErrRateNotAvailable), db1)
    | (.ok latestRate, db1) =>
      let amountToDeduct := req.AmountToConvert * latestRate.Value
      let finalResponse : ConvertResponse :=
        { finalResponse with RateUsed := latestRate.Value, ConvertedAmount := amountToDeduct }
      match executeTx f db1 finalResponse (convertAndDeductTx f req amountToDeduct) with
      | (some err, resp, db2) =>
        let message :=
          if errorsIs err .ErrWalletNotFound then GoError.ErrWalletNotFound.Error
          else if errorsIs err .ErrInsufficientFunds then GoError.ErrInsufficientFunds.Error
          else "Ошибка при выполнении конвертации"
        (({ resp with Message := message }, some err), db2)
      | (Option.none, resp, db2) => ((resp, Option.none), db2)

/-- The record `models.ListWalletsResponse`. -/
structure ListWalletsResponse where
  Wallets : List Wallet
  deriving DecidableEq

/-- The method `walletService.ListWallets`. -/
def ListWallets (f : Faults) (db : DBState) : (ListWalletsResponse × Option GoError) × DBState :=
  match GetAllWallets f db with
  | ((_, some err), db1) =>
    ((⟨[]⟩, some (.errorf "не удалось получить список кошельков: " err)), db1)
  | ((wallets, Option.none), db1) => ((⟨wallets⟩, Option.none), db1)

/-! ## internal/service/rate_service.go -/

/-- The record `models.AverageResponse`. -/
structure AverageResponse where
  Average : Float64
  Count : Int
  deriving DecidableEq

/-- The method `rateService.GetAverageRate`. -/
def GetAverageRate (f : Faults) (db : DBState) (limit : Int) :
    (AverageResponse × Option GoError) × DBState :=
  let limit1 : Int := if limit ≤ 0 then 10 else limit
  match GetLatestRates f db limit1 with
  | ((_, some err), db1) =>
    ((⟨0, 0⟩, some (.errorf "не удалось получить последние курсы: " err)), db1)
  | ((rates, Option.none), db1) =>
    if rates.length = 0 then ((⟨0, 0⟩, Option.none), db1)
    else
      let sum : Float64 := rates.foldl (fun acc rate => acc + rate.Value) 0
      let average : Float64 := sum / Float64.ofInt (rates.length : Int)
      ((⟨average, (rates.length : Int)⟩, Option.none), db1)

/-- The method `rateService.CreateRate`. -/
def CreateRate (f : Faults) (db : DBState) (value : Float64) : Option GoError × DBState :=
  if value ≤ 0 then (some (.errorsNew "курс валюты должен быть положительным числом"), db)
  else
    let rate : Rate := ⟨0, value⟩
    match SaveRate f db rate with
    | (some err, db1) => (some (.errorf "не удалось сохранить курс: " err), db1)
    | (Option.none, db1) => (Option.none, db1)

/-! ## internal/handlers -/

/-- The record `models.ErrorResponse`. -/
structure ErrorResponse where
  Error : String
  deriving DecidableEq

/-- The record `models.SuccessResponse`. -/
structure SuccessResponse where
  Message : String
  deriving DecidableEq

/-- The values handed to `writeJSONResponse` as payload. -/
inductive Payload where
  | ErrorResponse (r : ErrorResponse)
  | SuccessResponse (r : SuccessResponse)
  | UpdateBalanceResponse (r : UpdateBalanceResponse)
  | ConvertResponse (r : ConvertResponse)
  | AverageResponse (r : AverageResponse)
  deriving DecidableEq

/-- What a handler writes: the status code and the body, the payload that was
encoded as JSON, or nothing. -/
structure HTTPResponse where
  statusCode : Nat
  body : Option Payload
  deriving DecidableEq

/-- The constant `http.StatusOK`. -/
abbrev StatusOK : Nat := 200

/-- The constant `http.StatusCreated`. -/
abbrev StatusCreated : Nat := 201

/-- The constant `http.StatusBadRequest`. -/
abbrev StatusBadRequest : Nat := 400

/-- The constant `http.StatusNotFound`. -/
abbrev StatusNotFound : Nat := 404

/-- The constant `http.StatusConflict`. -/
abbrev StatusConflict : Nat := 409

/-- The constant `http.StatusInternalServerError`. -/
abbrev StatusInternalServerError : Nat := 500

/-- The constant `http.StatusServiceUnavailable`. -/
abbrev StatusServiceUnavailable : Nat := 503

/-- The test `math.IsInf(x, 0) || math.IsNaN(x)`. -/
def Float64.isInfOrNaN : Float64 → Bool
  | .finite _ => false
  | _ => true

/-- Whether `json.NewEncoder(w).Encode` accepts the payload: it refuses a
float64 that is an infinity or NaN (`json.UnsupportedValueError`).  A member
tagged `omitempty` is looked at only when it is not zero, and zero is finite. -/
def Payload.encodable : Payload → Bool
  | .ErrorResponse _ => true
  | .SuccessResponse _ => true
  | .UpdateBalanceResponse r => !r.NewBalance.isInfOrNaN
  | .ConvertResponse r =>
    !r.RemainingBalance.isInfOrNaN && !r.ConvertedAmount.isInfOrNaN && !r.RateUsed.isInfOrNaN
  | .AverageResponse r => !r.Average.isInfOrNaN

/-- The function `writeJSONResponse`: the header with the status code is
written first; the encoder writes the body only after it has encoded the whole
payload, and an encoding error is logged and nothing more. -/
def writeJSONResponse (statusCode : Nat) (payload : Payload) : HTTPResponse :=
  ⟨statusCode, if payload.encodable then some payload else Option.none⟩

/-- The method `WalletHandler.UpdateBalance`.  `body` is the outcome of
decoding the request body (the text of the decoding error, or the request). -/
def WalletHandler.UpdateBalance (f : Faults) (db : DBState)
    (body : Except String UpdateBalanceRequest) : HTTPResponse × DBState :=
  match body with
  | .error msg =>
    (writeJSONResponse StatusBadRequest (.ErrorResponse ⟨"Некорректный формат запроса: " ++ msg⟩),
      db)
  | .ok req =>
    match CurrencyService.UpdateBalance f db req with
    | ((resp, err), db1) =>
      let status : Nat × ErrorResponse :=
        match err with
        | Option.none => (StatusOK, ⟨""⟩)
        | some e =>
          if errorsIs e .ErrInvalidWalletNumber then (StatusBadRequest, ⟨e.Error⟩)
          else if errorsIs e .ErrWithdrawNonExistent then (StatusBadRequest, ⟨e.Error⟩)
          else if errorsIs e .ErrInsufficientFunds then (StatusConflict, ⟨""⟩)
          else if errorsIs e .ErrNegativeDeposit then (StatusBadRequest, ⟨e.Error⟩)
          else (StatusInternalServerError, ⟨"Внутренняя ошибка сервера"⟩)
      if status.1 = StatusOK ∨ status.1 = StatusConflict then
        (writeJSONResponse status.1 (.UpdateBalanceResponse resp), db1)
      else (writeJSONResponse status.1 (.ErrorResponse status.2), db1)

/-- The method `WalletHandler.ConvertAndDeduct`. -/
def WalletHandler.ConvertAndDeduct (f : Faults) (db : DBState)
    (body : Except String ConvertRequest) : HTTPResponse × DBState :=
  match body with
  | .error msg =>
    (writeJSONResponse StatusBadRequest (.ErrorResponse ⟨"Некорректный формат запроса: " ++ msg⟩),
      db)
  | .ok req =>
    match CurrencyService.ConvertAndDeduct f db req with
    | ((resp, err), db1) =>
      let status : Nat × ErrorResponse :=
        match err with
        | Option.none => (StatusOK, ⟨""⟩)
        | some e =>
          if errorsIs e .ErrInvalidWalletNumber then (StatusBadRequest, ⟨e.Error⟩)
          else if e.Error = "сумма для конвертации должна быть положительной" then
            (StatusBadRequest, ⟨e.Error⟩)
          else if errorsIs e .ErrWalletNotFound then (StatusNotFound, ⟨e.Error⟩)
          else if errorsIs e .ErrInsufficientFunds then (StatusConflict, ⟨""⟩)
          else if errorsIs e .ErrRateNotAvailable then (StatusServiceUnavailable, ⟨e.Error⟩)
          else (StatusInternalServerError, ⟨"Внутренняя ошибка сервера при конвертации"⟩)
      if status.1 = StatusOK ∨ status.1 = StatusConflict then
        (writeJSONResponse status.1 (.ConvertResponse resp), db1)
      else (writeJSONResponse status.1 (.ErrorResponse status.2), db1)

/-- The method `RateHandler.CreateRate`.  `body` is the outcome of decoding
the request body (the text of the decoding error, or the field `value`). -/
def RateHandler.CreateRate (f : Faults) (db : DBState) (body : Except String Float64) :
    HTTPResponse × DBState :=
  match body with
  | .error msg =>
    (writeJSONResponse StatusBadRequest (.ErrorResponse ⟨"Некорректный формат запроса: " ++ msg⟩),
      db)
  | .ok value =>
    match CurrencyService.CreateRate f db value with
    | (some err, db1) =>
      if err.Error = "курс валюты должен быть положительным числом" then
        (writeJSONResponse StatusBadRequest (.ErrorResponse ⟨err.Error⟩), db1)
      else
        (writeJSONResponse StatusInternalServerError (.ErrorResponse ⟨"Внутренняя ошибка сервера"⟩),
          db1)
    | (Option.none, db1) =>
      (writeJSONResponse StatusCreated (.SuccessResponse ⟨"Курс успешно добавлен"⟩), db1)

/-- Value of a run of ASCII digits read after the digits worth `acc`; nothing
when a character is not a digit. -/
def parseDigits : Nat → List Char → Option Nat
  | acc, [] => some acc
  | acc, c :: cs =>
    if isDigit c then parseDigits (acc * 10 + (c.toNat - '0'.toNat)) cs else Option.none

/-- The function `strconv.Atoi` for a 64 bit `int` (nothing stands for the
error): an optional sign, then at least one digit and digits only, and a value
that fits the type. -/
def Atoi (s : String) : Option Int :=
  let signed : Bool × List Char :=
    match s.data with
    | '-' :: rest => (true, rest)
    | '+' :: rest => (false, rest)
    | cs => (false, cs)
  match signed.2 with
  | [] => Option.none
  | c :: cs =>
    match parseDigits 0 (c :: cs) with
    | Option.none => Option.none
    | some n =>
      let v : Int := if signed.1 then -(n : Int) else (n : Int)
      if v < -(2 ^ 63) ∨ 2 ^ 63 - 1 < v then Option.none else some v

/-- The type `url.Values` of the standard library, the parsed query of a
request: for each key the list of its values in the order of the URL, the
empty list for a key the query does not carry. -/
abbrev Values := String → List String

/-- The method `Values.Get`: the first value of the key, the empty string when
the key has no value. -/
def Values.Get (v : Values) (key : String) : String :=
  match v key with
  | [] => ""
  | value :: _ => value

/-- The method `RateHandler.GetAverageRate`.  `query` is `r.URL.Query()`, the
only part of the request the handler reads. -/
def RateHandler.GetAverageRate (f : Faults) (db : DBState) (query : Values) :
    HTTPResponse × DBState :=
  let limitStr := Values.Get query "limit"
  let parsed : Option Int :=
    if limitStr ≠ "" then
      match Atoi limitStr with
      | Option.none => Option.none
      | some limit => if limit ≤ 0 then Option.none else some limit
    else some 10
  match parsed with
  | Option.none =>
    (writeJSONResponse StatusBadRequest
      (.ErrorResponse ⟨"Некорректное значение параметра 'limit'"⟩), db)
  | some limit =>
    match CurrencyService.GetAverageRate f db limit with
    | ((_, some _), db1) =>
      (writeJSONResponse StatusInternalServerError (.ErrorResponse ⟨"Внутренняя ошибка сервера"⟩),
        db1)
    | ((avgResponse, Option.none), db1) =>
      (writeJSONResponse StatusOK (.AverageResponse avgResponse), db1)

/-- A JSON value of the kinds the responses hold. -/
inductive JSONValue where
  | String (s : String)
  | Number (x : Float64)
  | Integer (n : Int)
  deriving DecidableEq

/-- A struct field of type `float64` tagged `omitempty`: left out when zero. -/
def omitemptyNumber (key : String) (x : Float64) : List (String × JSONValue) :=
  if x = 0 then [] else [(key, .Number x)]

/-- A struct field of type `string` tagged `omitempty`: left out when empty. -/
def omitemptyString (key : String) (s : String) : List (String × JSONValue) :=
  if s = "" then [] else [(key, .String s)]

/-- The members of the JSON object that `json.NewEncoder(w).Encode` writes for
a payload, by the `json` tags of the records in `internal/models`. -/
def Payload.jsonFields : Payload → List (String × JSONValue)
  | .ErrorResponse r => [("error", .String r.Error)]
  | .SuccessResponse r => [("message", .String r.Message)]
  | .UpdateBalanceResponse r =>
    [("wallet_number", .String r.WalletNumber), ("new_balance", .Number r.NewBalance)] ++
      omitemptyString "message" r.Message
  | .ConvertResponse r =>
    [("source_wallet_number", .String r.SourceWalletNumber)] ++
      omitemptyNumber "remaining_balance" r.RemainingBalance ++
      omitemptyNumber "converted_amount" r.ConvertedAmount ++
      omitemptyNumber "rate_used" r.RateUsed ++ [("message", .String r.Message)]
  | .AverageResponse r => [("average", .Number r.Average), ("count", .Integer r.Count)]

/-- The keys of the JSON body of a response (none for an empty body). -/
def HTTPResponse.jsonKeys (r : HTTPResponse) : List String :=
  match r.body with
  | some payload => payload.jsonFields.map (fun kv => kv.1)
  | Option.none => []

/-! ## Specification side -/

/-- The spec's identifier format: exactly 7 characters, each an ASCII digit. -/
def IsSevenAsciiDigits (s : String) : Prop :=
  s.length = 7 ∧ ∀ c ∈ s.data, '0' ≤ c ∧ c ≤ '9'

instance (s : String) : Decidable (IsSevenAsciiDigits s) := by
  unfold IsSevenAsciiDigits
  infer_instance

/-- Every row of table `wallets` has a balance that is not negative. -/
def NonNegative (db : DBState) : Prop :=
  ∀ w ∈ db.wallets, 0 ≤ w.Balance

instance (db : DBState) : Decidable (NonNegative db) := by
  unfold NonNegative
  infer_instance

/-- The numbers of both tables are numbers the columns can hold under the
schema: every balance is finite and within the range of `REAL`, every rate is
at least 0 (the schema has `CHECK (value > 0)`). -/
def DBState.InRange (db : DBState) : Prop :=
  (∀ w ∈ db.wallets, w.Balance.InRangeREAL) ∧ ∀ r ∈ db.rates, 0 ≤ r.Value

instance (db : DBState) : Decidable db.InRange := by
  unfold DBState.InRange
  infer_instance

/-- One event in the life of the store: a call of one of the two mutating
service methods (with the faults the storage shows during it), or a change of
the rate log between two such calls. -/
inductive Step where
  | UpdateBalance (f : Faults) (req : UpdateBalanceRequest)
  | ConvertAndDeduct (f : Faults) (req : ConvertRequest)
  | ratesChanged (rates : List Rate)

/-- An event as the service meets it: the amount of a decoded request is a
finite float64 (a JSON number is nothing else), and the rates put into the log
are at least 0. -/
def Step.Decoded : Step → Prop
  | .UpdateBalance _ req => req.Amount.IsFinite
  | .ConvertAndDeduct _ req => req.AmountToConvert.IsFinite
  | .ratesChanged rates => ∀ r ∈ rates, 0 ≤ r.Value

/-- The store after one event. -/
def Step.apply (db : DBState) : Step → DBState
  | .UpdateBalance f req => (CurrencyService.UpdateBalance f db req).2
  | .ConvertAndDeduct f req => (CurrencyService.ConvertAndDeduct f db req).2
  | .ratesChanged rates => { db with rates := rates }

/-- The store after a sequence of events. -/
def run (db : DBState) (steps : List Step) : DBState :=
  steps.foldl Step.apply db

/-- The `k` most recent observations of a rate log kept oldest first. -/
def mostRecent (k : Nat) (log : List Rate) : List Rate :=
  log.drop (log.length - k)

/-- A call of one of the two read-only service methods, with the faults the
storage shows during it. -/
inductive Query where
  | ListWallets (f : Faults)
  | GetAverageRate (f : Faults) (limit : Int)

/-- The store after one read-only call. -/
def Query.apply (db : DBState) : Query → DBState
  | .ListWallets f => (CurrencyService.ListWallets f db).2
  | .GetAverageRate f limit => (CurrencyService.GetAverageRate f db limit).2

/-- The store after a sequence of read-only calls. -/
def runQueries (db : DBState) (queries : List Query) : DBState :=
  queries.foldl Query.apply db

/-- The store after `UpdateBalance` calls on one wallet number made one after
the other with the given amounts, on a store without faults. -/
def runUpdates (db : DBState) (number : String) (amounts : List Float64) : DBState :=
  amounts.foldl (fun s a => (UpdateBalance Faults.none s ⟨number, a⟩).2) db

/-! ## Data of the handler tests -/

/-- The store prepared by `TestWalletHandler_ConvertAndDeduct_Success`: one
wallet with balance 200.0 and one rate 90.5. -/
def convertSuccessStore : DBState :=
  ⟨[⟨"2223344", 200⟩], [⟨1, 90.5⟩], []⟩

/-- The request of `TestWalletHandler_ConvertAndDeduct_Success`: convert 1.5. -/
def convertSuccessRequest : ConvertRequest :=
  ⟨"", "", "", 1.5, "2223344"⟩

/-- The store prepared by `TestWalletHandler_ConvertAndDeduct_InsufficientFunds`:
one wallet with balance 10.0 and one rate 90.0. -/
def convertInsufficientStore : DBState :=
  ⟨[⟨"5556677", 10⟩], [⟨1, 90⟩], []⟩

/-- The request of `TestWalletHandler_ConvertAndDeduct_InsufficientFunds`. -/
def convertInsufficientRequest : ConvertRequest :=
  ⟨"", "", "", 15, "5556677"⟩

/-- The store prepared by `TestWalletHandler_UpdateBalance_WithdrawExisting_Success`. -/
def withdrawStore : DBState :=
  ⟨[⟨"1112233", 100⟩], [], []⟩

/-- The store prepared by
`TestWalletHandler_UpdateBalance_WithdrawExisting_InsufficientFunds`. -/
def insufficientStore : DBState :=
  ⟨[⟨"4445566", 20⟩], [], []⟩

/-- The store after `cleanupTestDB`: both tables empty. -/
def emptyStore : DBState :=
  ⟨[], [], []⟩

/-- A storage whose `Rollback` fails and which works otherwise. -/
def rollbackFails : Faults :=
  ⟨none, none, some (.other "driver: bad connection"), none, none, none, none, none, none,
    none, none⟩

/-- A storage on which the `INSERT` of `CreateWallet` meets a row inserted by a
concurrent creator: the driver reports a unique violation. -/
def createRace : Faults :=
  ⟨none, none, none, none,
    some (.pq "23505" "duplicate key value violates unique constraint"), none, none, none, none,
    none, none⟩

/-- A storage on which the `INSERT` of `CreateWallet` fails for another
reason. -/
def createBroken : Faults :=
  ⟨none, none, none, none, some (.other "driver: bad connection"), none, none, none, none,
    none, none⟩

/-- A storage on which the read of the latest rate fails and which works
otherwise. -/
def rateReadFails : Faults :=
  ⟨none, none, none, none, none, none, none, some (.other "driver: bad connection"), none,
    none, none⟩

/-- The query that carries the parameter `limit` once, with the given value. -/
def limitQuery (value : String) : Values :=
  fun key => if key = "limit" then [value] else []

/-- The query of a request without parameters. -/
def noQuery : Values := fun _ => []

/-- The store prepared by `TestRateHandler_GetAverageRate`: the rates 90.0 to
94.0, recorded in this order. -/
def fiveRatesStore : DBState :=
  ⟨[], [⟨1, 90⟩, ⟨2, 91⟩, ⟨3, 92⟩, ⟨4, 93⟩, ⟨5, 94⟩], []⟩

/-- A store holding the rates 1.0, 1.0 and 2.0, recorded in this order. -/
def threeRatesStore : DBState :=
  ⟨[], [⟨1, 1⟩, ⟨2, 1⟩, ⟨3, 2⟩], []⟩

/-- The store prepared by `TestWalletHandler_ListWallets`. -/
def threeWalletsStore : DBState :=
  ⟨[⟨"1000001", 10⟩, ⟨"1000002", 20.5⟩, ⟨"1000003", 0⟩], [], []⟩

/-- A store whose one wallet holds exactly the price of 1.5 units at the rate
90.5, that is 135.75. -/
def exactStore : DBState :=
  ⟨[⟨"2223344", 135.75⟩], [⟨1, 90.5⟩], []⟩

/-- A store whose one wallet holds 1000000.0, with the rate 1.0. -/
def millionStore : DBState :=
  ⟨[⟨"1112233", 1000000⟩], [⟨1, 1⟩], []⟩

/-- A store whose one wallet holds 1.0, with the rate 10.0. -/
def overflowStore : DBState :=
  ⟨[⟨"2223344", 1⟩], [⟨1, 10⟩], []⟩

/-- A store whose one wallet holds 1.0, with the rate 2.5. -/
def unitStore : DBState :=
  ⟨[⟨"2223344", 1⟩], [⟨1, 2.5⟩], []⟩

/-- A store holding one rate 90.0 and no wallet. -/
def rateOnlyStore : DBState :=
  ⟨[], [⟨1, 90⟩], []⟩

/-! ## Lemmas on rounding -/

theorem bitLengthAux_lt (fuel n : Nat) (h : n ≤ fuel) : n < 2 ^ bitLengthAux fuel n := by
  induction fuel generalizing n with
  | zero =>
    have : n = 0 := by omega
    subst this
    simp [bitLengthAux]
  | succ fuel ih =>
    unfold bitLengthAux
    by_cases hn : n = 0
    · simp [hn]
    · simp only [hn, if_false]
      have h2 : n / 2 ≤ fuel := by omega
      have := ih (n / 2) h2
      rw [Nat.pow_succ]
      omega

theorem bitLengthAux_le (fuel n : Nat) (h : n ≤ fuel) (hn : n ≠ 0) :
    2 ^ (bitLengthAux fuel n - 1) ≤ n := by
  induction fuel generalizing n with
  | zero => omega
  | succ fuel ih =>
    unfold bitLengthAux
    simp only [hn, if_false, Nat.add_sub_cancel]
    by_cases h2 : n / 2 = 0
    · have : bitLengthAux fuel (n / 2) = 0 := by
        rw [h2]
        cases fuel <;> simp [bitLengthAux]
      rw [this]
      simp
      omega
    · have hle : n / 2 ≤ fuel := by omega
      have := ih (n / 2) hle h2
      have hpos : 0 < bitLengthAux fuel (n / 2) := by
        cases fuel with
        | zero => omega
        | succ f =>
          unfold bitLengthAux
          simp [h2]
      have hs : bitLengthAux fuel (n / 2) = (bitLengthAux fuel (n / 2) - 1) + 1 := by omega
      rw [hs, Nat.pow_succ]
      omega

theorem lt_two_pow_bitLength (n : Nat) : n < 2 ^ bitLength n :=
  bitLengthAux_lt n n (le_refl n)

theorem two_pow_bitLength_le (n : Nat) (hn : n ≠ 0) : 2 ^ (bitLength n - 1) ≤ n :=
  bitLengthAux_le n n (le_refl n) hn

theorem bitLength_zero : bitLength 0 = 0 := rfl

theorem bitLength_pos (n : Nat) (hn : n ≠ 0) : 0 < bitLength n := by
  have h := lt_two_pow_bitLength n
  by_contra h0
  have : bitLength n = 0 := by omega
  rw [this] at h
  simp at h
  exact hn h

theorem bitLength_le_of_lt (n k : Nat) (h : n < 2 ^ k) : bitLength n ≤ k := by
  by_cases hn : n = 0
  · subst hn
    simp [bitLength_zero]
  · by_contra hgt
    have h1 := two_pow_bitLength_le n hn
    have h2 : 2 ^ k ≤ 2 ^ (bitLength n - 1) := Nat.pow_le_pow_right (by decide) (by omega)
    omega

theorem roundHalfEven_ge (n d : Nat) : n / d ≤ roundHalfEven n d := by
  unfold roundHalfEven
  simp only []
  split
  · exact le_refl _
  · split
    · exact Nat.le_succ _
    · split
      · exact le_refl _
      · exact Nat.le_succ _

theorem roundHalfEven_le (n d : Nat) : roundHalfEven n d ≤ n / d + 1 := by
  unfold roundHalfEven
  simp only []
  split
  · exact Nat.le_succ _
  · split
    · exact le_refl _
    · split
      · exact Nat.le_succ _
      · exact le_refl _

theorem roundHalfEven_zero (d : Nat) : roundHalfEven 0 d = 0 := by
  unfold roundHalfEven
  simp

theorem roundMagnitude_zero (p emin d : Nat) : roundMagnitude p emin 0 d = 0 := by
  unfold roundMagnitude
  simp [roundHalfEven_zero]

/-- A non-zero number of units does not round to zero in float64. -/
theorem roundMagnitude_pos (n : Nat) (hn : n ≠ 0) : 0 < roundMagnitude 53 0 n 1 := by
  unfold roundMagnitude
  simp only [Nat.div_one, Nat.one_mul, Nat.zero_max]
  apply Nat.mul_pos _ (Nat.two_pow_pos _)
  have hge := roundHalfEven_ge n (2 ^ (bitLength n - 53))
  have h1 := two_pow_bitLength_le n hn
  have h2 : 2 ^ (bitLength n - 53) ≤ 2 ^ (bitLength n - 1) :=
    Nat.pow_le_pow_right (by decide) (by omega)
  have h3 : 0 < n / 2 ^ (bitLength n - 53) :=
    Nat.div_pos (le_trans h2 h1) (Nat.two_pow_pos _)
  omega

/-- Rounding never goes beyond the next power of two. -/
theorem roundMagnitude_le_two_pow (p emin n k : Nat) (hp : 0 < p) (hk : n < 2 ^ k)
    (hek : emin ≤ k) : roundMagnitude p emin n 1 ≤ 2 ^ k := by
  unfold roundMagnitude
  simp only [Nat.div_one, Nat.one_mul]
  have hb := bitLength_le_of_lt n k hk
  have hs : max emin (bitLength n - p) ≤ k := by omega
  generalize max emin (bitLength n - p) = s at hs
  have hle := roundHalfEven_le n (2 ^ s)
  have hsplit : 2 ^ k = 2 ^ (k - s) * 2 ^ s := by
    rw [← Nat.pow_add]
    congr 1
    omega
  have hdiv : n / 2 ^ s < 2 ^ (k - s) := by
    rw [Nat.div_lt_iff_lt_mul (Nat.two_pow_pos _)]
    rw [← hsplit]
    exact hk
  rw [hsplit]
  exact Nat.mul_le_mul_right _ (by omega)

/-! ## Lemmas on float64 -/

theorem Float64.zero_eq : (0 : Float64) = .finite 0 := by decide!

theorem Float64.lt_iff (x y : Float64) : x < y ↔ Float64.lt x y = true := Iff.rfl

theorem Float64.le_iff (x y : Float64) : x ≤ y ↔ Float64.le x y = true := Iff.rfl

theorem Float64.finite_lt_finite (a b : Int) : (Float64.finite a < Float64.finite b) ↔ a < b := by
  simp [Float64.lt_iff, Float64.lt]

theorem Float64.finite_le_finite (a b : Int) : (Float64.finite a ≤ Float64.finite b) ↔ a ≤ b := by
  simp [Float64.le_iff, Float64.le]

theorem Float64.finite_add (a b : Int) :
    Float64.finite a + Float64.finite b = Float64.ofUnits (a + b) := rfl

theorem Float64.finite_sub (a b : Int) :
    Float64.finite a - Float64.finite b = Float64.ofUnits (a - b) := rfl

theorem Float64.neg_finite (a : Int) : -Float64.finite a = Float64.finite (-a) := rfl

/-- For every pair of values, `x - y` is `x + (-y)`. -/
theorem Float64.sub_eq_add_neg (x y : Float64) : x - y = x + -y := by
  cases x <;> cases y <;>
    simp only [HSub.hSub, Sub.sub, HAdd.hAdd, Add.add, Neg.neg, Float64.sub, Float64.add,
      Float64.neg]
  · rw [show ∀ a b : Int, a.sub b = a + -b from fun a b => rfl]
    rfl
  · rename_i s t
    cases s <;> cases t <;> rfl

/-- A value is not below a value it is at most. -/
theorem Float64.not_lt_of_le (x y : Float64) (h : x ≤ y) : ¬ y < x := by
  rw [Float64.lt_iff]
  rw [Float64.le_iff] at h
  rcases x with a | s | _ <;> rcases y with b | t | _ <;>
    simp only [Float64.lt, Float64.le, decide_eq_true_eq, Bool.not_eq_true', Bool.and_eq_true,
      Bool.or_eq_true, Bool.false_eq_true, not_false_eq_true] at h ⊢
  · omega
  · cases t <;> simp_all
  · cases s <;> simp_all
  · cases s <;> cases t <;> simp_all

theorem Float64.le_of_not_lt (x y : Float64) (hx : x ≠ .NaN) (hy : y ≠ .NaN) (h : ¬ y < x) :
    x ≤ y := by
  rw [Float64.lt_iff] at h
  rw [Float64.le_iff]
  rcases x with a | s | _ <;> rcases y with b | t | _ <;>
    simp only [Float64.lt, Float64.le, decide_eq_true_eq, Bool.not_eq_true', Bool.and_eq_true,
      Bool.or_eq_true, Bool.false_eq_true, not_false_eq_true, ne_eq, not_true_eq_false] at h hx hy ⊢
  · omega
  · cases t <;> simp_all
  · cases s <;> simp_all
  · cases s <;> cases t <;> simp_all

theorem Float64.overflow_pos : 0 < Float64.overflow := by
  unfold Float64.overflow
  exact Nat.pos_of_ne_zero (pow_ne_zero _ (by decide))

theorem Float64.nearest_cases (negative : Bool) (n d : Nat) :
    Float64.nearest negative n d = .inf negative ∨
      Float64.nearest negative n d =
        .finite (if negative then -(roundMagnitude 53 0 n d : Int)
          else (roundMagnitude 53 0 n d : Int)) := by
  unfold Float64.nearest
  simp only []
  split
  · exact Or.inl rfl
  · exact Or.inr rfl

theorem Float64.ofUnits_zero : Float64.ofUnits 0 = .finite 0 := by
  have hp := Float64.overflow_pos
  unfold Float64.ofUnits Float64.nearest
  simp only [Int.natAbs_zero, roundMagnitude_zero]
  rw [if_neg (by omega)]
  simp

theorem Float64.inf_lt_zero (s : Bool) : Float64.inf s < 0 ↔ s = true := by
  rw [Float64.zero_eq, Float64.lt_iff]
  simp [Float64.lt]

theorem Float64.finite_lt_zero (k : Int) : Float64.finite k < 0 ↔ k < 0 := by
  rw [Float64.zero_eq, Float64.finite_lt_finite]

theorem Float64.zero_le_inf (s : Bool) : 0 ≤ Float64.inf s ↔ s = false := by
  rw [Float64.zero_eq, Float64.le_iff]
  simp [Float64.le]

theorem Float64.not_zero_le_NaN : ¬ (0 : Float64) ≤ .NaN := by decide!

theorem Float64.zero_le_finite (k : Int) : 0 ≤ Float64.finite k ↔ 0 ≤ k := by
  rw [Float64.zero_eq, Float64.finite_le_finite]

/-- A float64 sum or difference is negative exactly when the exact one is. -/
theorem Float64.ofUnits_lt_zero (k : Int) : Float64.ofUnits k < 0 ↔ k < 0 := by
  unfold Float64.ofUnits
  by_cases hk : k < 0
  · have hn : k.natAbs ≠ 0 := by omega
    have hpos := roundMagnitude_pos k.natAbs hn
    rcases Float64.nearest_cases (decide (k < 0)) k.natAbs 1 with h | h
    · rw [h, Float64.inf_lt_zero]
      simp [hk]
    · rw [h, Float64.finite_lt_zero]
      simp only [hk, decide_True, if_true, iff_true]
      omega
  · rcases Float64.nearest_cases (decide (k < 0)) k.natAbs 1 with h | h
    · rw [h, Float64.inf_lt_zero]
      simp [hk]
    · rw [h, Float64.finite_lt_zero]
      simp only [hk, decide_False, Bool.false_eq_true, if_false, iff_false]
      omega

theorem Float64.zero_le_ofUnits (k : Int) : 0 ≤ Float64.ofUnits k ↔ 0 ≤ k := by
  unfold Float64.ofUnits
  by_cases hk : k < 0
  · have hn : k.natAbs ≠ 0 := by omega
    have hpos := roundMagnitude_pos k.natAbs hn
    rcases Float64.nearest_cases (decide (k < 0)) k.natAbs 1 with h | h
    · rw [h, Float64.zero_le_inf]
      simp [hk]
    · rw [h, Float64.zero_le_finite]
      simp only [hk, decide_True, if_true]
      omega
  · rcases Float64.nearest_cases (decide (k < 0)) k.natAbs 1 with h | h
    · rw [h, Float64.zero_le_inf]
      simp only [hk, decide_False, true_iff]
      omega
    · rw [h, Float64.zero_le_finite]
      simp only [hk, decide_False, Bool.false_eq_true, if_false]
      omega

theorem Float64.finite_add_lt_zero (a b : Int) :
    Float64.finite a + Float64.finite b < 0 ↔ a + b < 0 := by
  rw [Float64.finite_add, Float64.ofUnits_lt_zero]

/-- For finite values, `x - y < 0` holds exactly when `x < y`. -/
theorem Float64.finite_sub_lt_zero (a b : Int) :
    Float64.finite a - Float64.finite b < 0 ↔ Float64.finite a < Float64.finite b := by
  rw [Float64.finite_sub, Float64.ofUnits_lt_zero, Float64.finite_lt_finite]
  omega

/-- For every pair of values, `x + (-y) < 0` holds exactly when `x < y`. -/
theorem Float64.add_neg_lt_zero (x y : Float64) : x + -y < 0 ↔ x < y := by
  cases x with
  | finite a =>
    cases y with
    | finite b =>
      rw [Float64.neg_finite, Float64.finite_add, Float64.ofUnits_lt_zero,
        Float64.finite_lt_finite]
      omega
    | inf t => cases t <;> simp [Float64.zero_eq, Float64.lt_iff, Float64.lt, Neg.neg,
        Float64.neg, HAdd.hAdd, Add.add, Float64.add]
    | NaN => simp [Float64.zero_eq, Float64.lt_iff, Float64.lt, Neg.neg,
        Float64.neg, HAdd.hAdd, Add.add, Float64.add]
  | inf s =>
    cases y with
    | finite b => cases s <;> simp [Float64.zero_eq, Float64.lt_iff, Float64.lt, Neg.neg,
        Float64.neg, HAdd.hAdd, Add.add, Float64.add]
    | inf t => cases s <;> cases t <;> simp [Float64.zero_eq, Float64.lt_iff, Float64.lt,
        Neg.neg, Float64.neg, HAdd.hAdd, Add.add, Float64.add]
    | NaN => simp [Float64.zero_eq, Float64.lt_iff, Float64.lt, Neg.neg,
        Float64.neg, HAdd.hAdd, Add.add, Float64.add]
  | NaN => simp [Float64.zero_eq, Float64.lt_iff, Float64.lt, Neg.neg,
        Float64.neg, HAdd.hAdd, Add.add, Float64.add]

/-- A value is not at most a value it is below. -/
theorem Float64.not_le_of_lt (x y : Float64) (h : x < y) : ¬ y ≤ x :=
  fun hle => Float64.not_lt_of_le y x hle h

theorem Float64.lt_of_not_le (x y : Float64) (hx : x ≠ .NaN) (hy : y ≠ .NaN) (h : ¬ y ≤ x) :
    x < y := by
  rw [Float64.le_iff] at h
  rw [Float64.lt_iff]
  rcases x with a | s | _ <;> rcases y with b | t | _ <;>
    simp only [Float64.lt, Float64.le, decide_eq_true_eq, Bool.not_eq_true', Bool.and_eq_true,
      Bool.or_eq_true, Bool.false_eq_true, not_false_eq_true, ne_eq, not_true_eq_false] at h hx hy ⊢
  · omega
  · cases t <;> simp_all
  · cases s <;> simp_all
  · cases s <;> cases t <;> simp_all

theorem Float64.ne_NaN_of_le_left (x y : Float64) (h : x ≤ y) : x ≠ .NaN := by
  intro hx
  subst hx
  rw [Float64.le_iff] at h
  cases y <;> simp [Float64.le] at h

theorem Float64.ne_NaN_of_le_right (x y : Float64) (h : x ≤ y) : y ≠ .NaN := by
  intro hy
  subst hy
  rw [Float64.le_iff] at h
  cases x <;> simp [Float64.le] at h

theorem Float64.overflow_eq : Float64.overflow = 2 ^ 2045 * 9007199254740992 := by decide!

theorem Float64.maxUnits_eq : Float64.maxUnits = 2 ^ 2045 * 9007199254740991 := by decide!

theorem Float64.two_pow_lt_overflow : 2 ^ 2097 < Float64.overflow := by decide!

theorem REAL.overflow_small : 2 * REAL.overflow < 2 ^ 2045 := by decide!

theorem REAL.overflow_two_pow : REAL.overflow = 2 ^ 1202 := by decide!

theorem bitLength_eq (n k : Nat) (hlo : 2 ^ k ≤ n) (hhi : n < 2 ^ (k + 1)) :
    bitLength n = k + 1 := by
  have h1 := bitLength_le_of_lt n (k + 1) hhi
  have h2 := lt_two_pow_bitLength n
  have h3 : 2 ^ k < 2 ^ bitLength n := lt_of_le_of_lt hlo h2
  have h4 : k < bitLength n := (Nat.pow_lt_pow_iff_right (by decide)).mp h3
  omega

/-- A magnitude up to `math.MaxFloat64` plus the range of `REAL` does not
overflow float64. -/
theorem roundMagnitude_sum_lt (n : Nat) (hn : n ≤ Float64.maxUnits + REAL.overflow) :
    roundMagnitude 53 0 n 1 < Float64.overflow := by
  by_cases hsmall : n < 2 ^ 2097
  · exact lt_of_le_of_lt (roundMagnitude_le_two_pow 53 0 n 2097 (by decide) hsmall (Nat.zero_le _))
      Float64.two_pow_lt_overflow
  · have hM := Float64.overflow_eq
    have hmax := Float64.maxUnits_eq
    have hR := REAL.overflow_small
    have hhi : n < 2 ^ (2097 + 1) := by
      have h98 : (2 : Nat) ^ (2097 + 1) = Float64.overflow := by decide!
      rw [h98]
      generalize (2 : Nat) ^ 2045 = U at hM hmax hR
      omega
    have hb := bitLength_eq n 2097 (by omega) hhi
    unfold roundMagnitude
    simp only [Nat.div_one, Nat.one_mul, hb, Nat.zero_max]
    have hs : 2097 + 1 - 53 = 2045 := by decide
    rw [hs]
    have hdm := Nat.div_add_mod n (2 ^ 2045)
    have hmod : n % 2 ^ 2045 < 2 ^ 2045 := Nat.mod_lt n (Nat.pos_of_ne_zero (pow_ne_zero _ (by decide)))
    unfold roundHalfEven
    simp only []
    generalize (2 : Nat) ^ 2045 = U at hM hmax hR hdm hmod ⊢
    generalize n / U = q at hdm ⊢
    generalize n % U = r at hdm hmod ⊢
    have hq : q ≤ 9007199254740991 := by
      by_contra hgt
      have : 9007199254740992 ≤ q := by omega
      have := Nat.mul_le_mul_left U this
      omega
    rw [hM]
    have hmul : ∀ x : Nat, x ≤ 9007199254740991 → x * U < U * 9007199254740992 := by
      intro x hx
      have := Nat.mul_le_mul_left U hx
      rw [Nat.mul_comm x U]
      omega
    split
    · exact hmul q hq
    · rename_i h1
      have hq2 : q + 1 ≤ 9007199254740991 := by
        by_contra hgt
        have hqe : q = 9007199254740991 := by omega
        subst hqe
        omega
      split
      · exact hmul (q + 1) hq2
      · split
        · exact hmul q hq
        · exact hmul (q + 1) hq2

theorem Float64.ofUnits_finite_of_lt (k : Int)
    (h : roundMagnitude 53 0 k.natAbs 1 < Float64.overflow) :
    Float64.ofUnits k =
      .finite (if k < 0 then -(roundMagnitude 53 0 k.natAbs 1 : Int)
        else (roundMagnitude 53 0 k.natAbs 1 : Int)) := by
  unfold Float64.ofUnits Float64.nearest
  simp only []
  rw [if_neg (by omega)]
  by_cases hk : k < 0 <;> simp [hk]

theorem toREAL_finite_ok (k : Int) (y : Float64) (h : toREAL (.finite k) = .ok y) :
    ∃ m : Int, y = .finite m ∧ m.natAbs < REAL.overflow ∧ (0 ≤ k → 0 ≤ m) ∧ (k ≤ 0 → m ≤ 0) := by
  unfold toREAL at h
  simp only [] at h
  split at h
  · cases h
  · rename_i hr
    injection h with h
    subst h
    by_cases hk : k < 0
    · refine ⟨_, rfl, ?_, ?_, ?_⟩
      · simp only [hk, if_true, Int.natAbs_neg, Int.natAbs_ofNat]
        omega
      · intro h0
        omega
      · intro _
        simp only [hk, if_true]
        omega
    · refine ⟨_, rfl, ?_, ?_, ?_⟩
      · simp only [hk, if_false, Int.natAbs_ofNat]
        omega
      · intro _
        simp only [hk, if_false]
        omega
      · intro h0
        have hk0 : k = 0 := by omega
        subst hk0
        simp [roundMagnitude_zero]

theorem toREAL_zero : toREAL 0 = .ok 0 := by decide!

/-- The column keeps the sign: of a value that is not negative it keeps a
value that is not negative. -/
theorem toREAL_nonneg (x y : Float64) (hx : 0 ≤ x) (h : toREAL x = .ok y) : 0 ≤ y := by
  cases x with
  | finite k =>
    obtain ⟨m, rfl, _, hm, _⟩ := toREAL_finite_ok k y h
    rw [Float64.zero_le_finite] at hx ⊢
    exact hm hx
  | inf s =>
    unfold toREAL at h
    injection h with h
    subst h
    exact hx
  | NaN =>
    unfold toREAL at h
    injection h with h
    subst h
    exact hx

/-! ## Lemmas on the identifier format -/

theorem matchDigitsToEnd_iff (n : Nat) (l : List Char) :
    matchDigitsToEnd n l = true ↔ l.length = n ∧ ∀ c ∈ l, '0' ≤ c ∧ c ≤ '9' := by
  induction n generalizing l with
  | zero => cases l <;> simp [matchDigitsToEnd]
  | succ k ih =>
    cases l with
    | nil => simp [matchDigitsToEnd]
    | cons c cs =>
      simp only [matchDigitsToEnd, isDigit, Bool.and_eq_true, decide_eq_true_eq, ih,
        List.length_cons, Nat.add_right_cancel_iff, List.mem_cons, forall_eq_or_imp]
      tauto

theorem walletNumberRegex_iff (s : String) :
    walletNumberRegex s = true ↔ IsSevenAsciiDigits s := by
  unfold walletNumberRegex IsSevenAsciiDigits
  rw [matchDigitsToEnd_iff]
  rfl

/-- The pattern on the shapes of input named by the spec: six digits, eight
digits, a letter, a digit outside ASCII and a trailing newline are refused,
seven ASCII digits are accepted. -/
theorem walletNumberRegex_examples :
    walletNumberRegex "123456" = false ∧ walletNumberRegex "12345678" = false ∧
    walletNumberRegex "12345a7" = false ∧ walletNumberRegex "123456٣" = false ∧
    walletNumberRegex "1234567\n" = false ∧ walletNumberRegex "invalid" = false ∧
    walletNumberRegex "1234567" = true ∧ walletNumberRegex "0000000" = true := by
  decide

/-! ## Lemmas on the rows of table wallets -/

theorem record_wallets (db : DBState) (c : Call) : (db.record c).wallets = db.wallets := rfl

theorem record_rates (db : DBState) (c : Call) : (db.record c).rates = db.rates := rfl

theorem record_calls (db : DBState) (c : Call) : (db.record c).calls = db.calls ++ [c] := rfl

theorem record_findWallet (db : DBState) (c : Call) (n : String) :
    (db.record c).findWallet n = db.findWallet n := rfl

theorem find_setBalance_same (rows : List Wallet) (n : String) (b : Float64) :
    (setBalance rows n b).find? (fun w => w.Number == n) =
      (rows.find? (fun w => w.Number == n)).map (fun w => ⟨w.Number, b⟩) := by
  induction rows with
  | nil => rfl
  | cons w ws ih =>
    unfold setBalance at ih ⊢
    rw [List.map_cons, List.find?_cons, List.find?_cons, ih]
    by_cases h : w.Number = n
    · simp [h]
    · have hne : (w.Number == n) = false := by simpa using h
      simp [hne]

theorem setBalance_forall (P : Float64 → Prop) (rows : List Wallet) (n : String) (b : Float64)
    (hb : P b) (h : ∀ w ∈ rows, P w.Balance) : ∀ w ∈ setBalance rows n b, P w.Balance := by
  intro w hw
  unfold setBalance at hw
  rw [List.mem_map] at hw
  obtain ⟨v, hv, rfl⟩ := hw
  by_cases hn : v.Number = n
  · simpa [hn] using hb
  · simpa [hn] using h v hv

theorem findWallet_mem (db : DBState) (n : String) (w : Wallet) (h : db.findWallet n = some w) :
    w ∈ db.wallets :=
  List.mem_of_find?_eq_some h

/-! ## The transaction executor and the closures keep balances non-negative -/

/-- The invariant of the store: balances are finite, within the range of `REAL`
and not negative; rates are not negative. -/
theorem invariant_record (db : DBState) (c : Call) (h : NonNegative db ∧ db.InRange) :
    NonNegative (db.record c) ∧ (db.record c).InRange := h

theorem Float64.good_of_toREAL (k : Int) (hk : 0 ≤ k) (y : Float64)
    (h : toREAL (.finite k) = .ok y) : 0 ≤ y ∧ y.InRangeREAL := by
  obtain ⟨m, rfl, hm, hpos, _⟩ := toREAL_finite_ok k y h
  exact ⟨(Float64.zero_le_finite m).mpr (hpos hk), hm⟩

theorem executeTx_invariant {σ : Type} (f : Faults) (db : DBState) (vars : σ)
    (fn : DBState → σ → Option GoError × σ × DBState)
    (hfn : ∀ tx v, NonNegative tx ∧ tx.InRange →
      NonNegative (fn tx v).2.2 ∧ (fn tx v).2.2.InRange)
    (h : NonNegative db ∧ db.InRange) :
    NonNegative (executeTx f db vars fn).2.2 ∧ (executeTx f db vars fn).2.2.InRange := by
  have h1 : NonNegative (db.record .BeginTx) ∧ (db.record .BeginTx).InRange := h
  have h2 := hfn (db.record .BeginTx) vars h1
  unfold executeTx
  cases hb : f.BeginTx with
  | some e => exact h
  | none =>
    simp only []
    rcases hr : fn (db.record .BeginTx) vars with ⟨err, v1, tx⟩
    rw [hr] at h2
    cases err with
    | some e =>
      cases f.Rollback <;> exact h
    | none =>
      cases f.Commit with
      | some e => exact h
      | none => exact h2

theorem UpdateWalletBalance_invariant (f : Faults) (db : DBState) (n : String) (k : Int)
    (hk : 0 ≤ k) (h : NonNegative db ∧ db.InRange) :
    NonNegative (UpdateWalletBalance f db n (.finite k)).2 ∧
      (UpdateWalletBalance f db n (.finite k)).2.InRange := by
  unfold UpdateWalletBalance
  cases f.UpdateWalletBalance with
  | some e => exact h
  | none =>
    simp only []
    cases hr : toREAL (.finite k) with
    | error e => exact h
    | ok y =>
      have hy := Float64.good_of_toREAL k hk y hr
      have hs : NonNegative ⟨setBalance db.wallets n y, db.rates,
          db.calls ++ [.UpdateWalletBalance n (.finite k)]⟩ ∧
          DBState.InRange ⟨setBalance db.wallets n y, db.rates,
            db.calls ++ [.UpdateWalletBalance n (.finite k)]⟩ :=
        ⟨setBalance_forall (fun b => 0 ≤ b) _ n y hy.1 h.1,
          setBalance_forall (fun b => b.InRangeREAL) _ n y hy.2 h.2.1, h.2.2⟩
      cases f.RowsAffected with
      | some e => exact hs
      | none =>
        simp only []
        split <;> exact hs

theorem CreateWallet_invariant (f : Faults) (db : DBState) (n : String) (k : Int)
    (hk : 0 ≤ k) (h : NonNegative db ∧ db.InRange) :
    NonNegative (CreateWallet f db ⟨n, .finite k⟩).2 ∧
      (CreateWallet f db ⟨n, .finite k⟩).2.InRange := by
  unfold CreateWallet
  simp only []
  split
  · split <;> exact h
  · exact h
  · cases hr : toREAL (.finite k) with
    | error e => exact h
    | ok y =>
      have hy := Float64.good_of_toREAL k hk y hr
      simp only []
      split
      · exact h
      · refine ⟨?_, ?_, h.2.2⟩
        · intro v hv
          simp only [record_wallets, List.mem_append, List.mem_singleton] at hv
          rcases hv with hv | rfl
          · exact h.1 v hv
          · exact hy.1
        · intro v hv
          simp only [record_wallets, List.mem_append, List.mem_singleton] at hv
          rcases hv with hv | rfl
          · exact h.2.1 v hv
          · exact hy.2

theorem GetWalletByNumberForUpdate_state (f : Faults) (tx : DBState) (n : String) :
    (GetWalletByNumberForUpdate f tx n).2 = tx.record (.GetWalletByNumberForUpdate n) := by
  unfold GetWalletByNumberForUpdate
  simp only []
  split
  · rfl
  · split <;> rfl

theorem GetWalletByNumberForUpdate_mem (f : Faults) (tx : DBState) (n : String) (w : Wallet)
    (h : (GetWalletByNumberForUpdate f tx n).1 = .ok w) : w ∈ tx.wallets := by
  unfold GetWalletByNumberForUpdate at h
  simp only [] at h
  split at h
  · cases h
  · split at h
    · cases h
    · rename_i hw
      injection h with h
      subst h
      exact findWallet_mem tx n _ hw

theorem Float64.inRangeREAL_cases (x : Float64) (h : x.InRangeREAL) :
    ∃ k : Int, x = .finite k ∧ k.natAbs < REAL.overflow := by
  cases x with
  | finite k => exact ⟨k, rfl, h⟩
  | inf s => exact absurd h (by unfold Float64.InRangeREAL; exact not_false)
  | NaN => exact absurd h (by unfold Float64.InRangeREAL; exact not_false)

theorem Float64.isFinite_cases (x : Float64) (h : x.IsFinite) :
    ∃ k : Int, x = .finite k ∧ k.natAbs ≤ Float64.maxUnits := by
  cases x with
  | finite k => exact ⟨k, rfl, h⟩
  | inf s => exact absurd h (by unfold Float64.IsFinite; exact not_false)
  | NaN => exact absurd h (by unfold Float64.IsFinite; exact not_false)

/-- The new balance of `UpdateBalance`: for a stored balance and a finite
amount it is negative, or a finite value that is not negative. -/
theorem Float64.add_inRange_isFinite (b a : Int) (hb0 : 0 ≤ b) (hb : b.natAbs < REAL.overflow)
    (ha : a.natAbs ≤ Float64.maxUnits)
    (hn : ¬ Float64.finite b + Float64.finite a < 0) :
    ∃ m : Int, Float64.finite b + Float64.finite a = .finite m ∧ 0 ≤ m := by
  rw [Float64.finite_add_lt_zero] at hn
  rw [Float64.finite_add]
  have hlt := roundMagnitude_sum_lt (b + a).natAbs (by omega)
  rw [Float64.ofUnits_finite_of_lt _ hlt]
  refine ⟨_, rfl, ?_⟩
  rw [if_neg hn]
  omega

/-- The new balance of `ConvertAndDeduct`: for a stored balance that is not
below the deduction it is a finite value that is not negative. -/
theorem Float64.sub_inRange_isFinite (b : Int) (d : Float64) (hb0 : 0 ≤ b)
    (hb : b.natAbs < REAL.overflow) (hd : 0 ≤ d) (hn : ¬ Float64.finite b < d) :
    ∃ m : Int, Float64.finite b - d = .finite m ∧ 0 ≤ m := by
  cases d with
  | finite kd =>
    rw [Float64.finite_lt_finite] at hn
    rw [Float64.zero_le_finite] at hd
    rw [Float64.finite_sub]
    have hR := REAL.overflow_two_pow
    have h1 : (b - kd).natAbs < 2 ^ 1202 := by omega
    have hle := roundMagnitude_le_two_pow 53 0 _ 1202 (by decide) h1 (Nat.zero_le _)
    have h2 : (2 : Nat) ^ 1202 < Float64.overflow := by decide!
    rw [Float64.ofUnits_finite_of_lt _ (lt_of_le_of_lt hle h2)]
    refine ⟨_, rfl, ?_⟩
    rw [if_neg (by omega)]
    omega
  | inf s =>
    rw [Float64.zero_le_inf] at hd
    subst hd
    exact absurd (by rw [Float64.lt_iff]; rfl) hn
  | NaN => exact absurd hd Float64.not_zero_le_NaN

theorem updateBalanceTx_invariant (f : Faults) (req : UpdateBalanceRequest) (tx : DBState)
    (vars : Float64 × String) (ha : req.Amount.IsFinite) (h : NonNegative tx ∧ tx.InRange) :
    NonNegative (updateBalanceTx f req tx vars).2.2 ∧
      (updateBalanceTx f req tx vars).2.2.InRange := by
  have hs := GetWalletByNumberForUpdate_state f tx req.WalletNumber
  have hmem := GetWalletByNumberForUpdate_mem f tx req.WalletNumber
  obtain ⟨ka, hka, hkb⟩ := Float64.isFinite_cases _ ha
  unfold updateBalanceTx
  rcases hg : GetWalletByNumberForUpdate f tx req.WalletNumber with ⟨res, tx1⟩
  rw [hg] at hs hmem
  simp only at hs hmem
  subst hs
  have h1 : NonNegative (tx.record (.GetWalletByNumberForUpdate req.WalletNumber)) ∧
      (tx.record (.GetWalletByNumberForUpdate req.WalletNumber)).InRange := h
  cases res with
  | error err =>
    simp only []
    split
    · split
      · exact h1
      · rename_i hpos
        rw [hka] at hpos ⊢
        have hk0 : 0 ≤ ka := by
          rw [Float64.zero_eq, Float64.finite_le_finite] at hpos
          omega
        have hc := CreateWallet_invariant f _ req.WalletNumber ka hk0 h1
        rcases hcw : CreateWallet f (tx.record (.GetWalletByNumberForUpdate req.WalletNumber))
          ⟨req.WalletNumber, .finite ka⟩ with ⟨ce, tx2⟩
        rw [hcw] at hc
        cases ce with
        | some e => simp only []; split <;> exact hc
        | none => exact hc
    · exact h1
  | ok wallet =>
    have hw := hmem wallet rfl
    obtain ⟨kb, hkb1, hkb2⟩ := Float64.inRangeREAL_cases _ (h.2.1 wallet hw)
    have hb0 : 0 ≤ kb := by
      have := h.1 wallet hw
      rw [hkb1, Float64.zero_le_finite] at this
      exact this
    simp only []
    split
    · exact h1
    · rename_i hnn
      rw [hkb1, hka] at hnn ⊢
      obtain ⟨m, hm, hm0⟩ := Float64.add_inRange_isFinite kb ka hb0 hkb2 hkb hnn
      rw [hm]
      have hu := UpdateWalletBalance_invariant f _ req.WalletNumber m hm0 h1
      rcases huw : UpdateWalletBalance f (tx.record (.GetWalletByNumberForUpdate req.WalletNumber))
        req.WalletNumber (.finite m) with ⟨ue, tx2⟩
      rw [huw] at hu
      cases ue <;> exact hu

theorem convertAndDeductTx_invariant (f : Faults) (req : ConvertRequest) (d : Float64)
    (tx : DBState) (resp : ConvertResponse) (hd : 0 ≤ d) (h : NonNegative tx ∧ tx.InRange) :
    NonNegative (convertAndDeductTx f req d tx resp).2.2 ∧
      (convertAndDeductTx f req d tx resp).2.2.InRange := by
  have hs := GetWalletByNumberForUpdate_state f tx req.SourceWalletNumber
  have hmem := GetWalletByNumberForUpdate_mem f tx req.SourceWalletNumber
  unfold convertAndDeductTx
  rcases hg : GetWalletByNumberForUpdate f tx req.SourceWalletNumber with ⟨res, tx1⟩
  rw [hg] at hs hmem
  simp only at hs hmem
  subst hs
  have h1 : NonNegative (tx.record (.GetWalletByNumberForUpdate req.SourceWalletNumber)) ∧
      (tx.record (.GetWalletByNumberForUpdate req.SourceWalletNumber)).InRange := h
  cases res with
  | error err =>
    simp only []
    split <;> exact h1
  | ok wallet =>
    have hw := hmem wallet rfl
    obtain ⟨kb, hkb1, hkb2⟩ := Float64.inRangeREAL_cases _ (h.2.1 wallet hw)
    have hb0 : 0 ≤ kb := by
      have := h.1 wallet hw
      rw [hkb1, Float64.zero_le_finite] at this
      exact this
    simp only []
    split
    · exact h1
    · rename_i hnn
      rw [hkb1] at hnn ⊢
      obtain ⟨m, hm, hm0⟩ := Float64.sub_inRange_isFinite kb d hb0 hkb2 hd hnn
      rw [hm]
      have hu := UpdateWalletBalance_invariant f _ req.SourceWalletNumber m hm0 h1
      rcases huw : UpdateWalletBalance f
        (tx.record (.GetWalletByNumberForUpdate req.SourceWalletNumber))
        req.SourceWalletNumber (.finite m) with ⟨ue, tx2⟩
      rw [huw] at hu
      cases ue <;> exact hu

theorem UpdateBalance_invariant (f : Faults) (db : DBState) (req : UpdateBalanceRequest)
    (ha : req.Amount.IsFinite) (h : NonNegative db ∧ db.InRange) :
    NonNegative (UpdateBalance f db req).2 ∧ (UpdateBalance f db req).2.InRange := by
  have he := executeTx_invariant f db ((0 : Float64), "") (updateBalanceTx f req)
    (fun tx v => updateBalanceTx_invariant f req tx v ha) h
  unfold UpdateBalance
  split
  · exact h
  · rcases hx : executeTx f db ((0 : Float64), "") (updateBalanceTx f req)
      with ⟨err, ⟨fb, msg⟩, db1⟩
    rw [hx] at he
    cases err <;> exact he

theorem GetLatestRate_state (f : Faults) (db : DBState) :
    (GetLatestRate f db).2 = db.record .GetLatestRate := by
  unfold GetLatestRate
  simp only []
  split
  · rfl
  · split <;> rfl

theorem GetLatestRate_mem (f : Faults) (db : DBState) (rate : Rate)
    (h : (GetLatestRate f db).1 = .ok rate) : rate ∈ db.rates := by
  unfold GetLatestRate at h
  simp only [] at h
  split at h
  · cases h
  · split at h
    · cases h
    · rename_i hw
      injection h with h
      subst h
      exact List.mem_of_getLast?_eq_some hw

/-- The deduction of a quantity that is finite and not `≤ 0` at a rate that is
not negative is not negative. -/
theorem Float64.mul_nonneg_of_pos (q r : Float64) (hq : q.IsFinite) (hpos : ¬ q ≤ 0)
    (hr : 0 ≤ r) : 0 ≤ q * r := by
  obtain ⟨kq, rfl, _⟩ := Float64.isFinite_cases q hq
  rw [Float64.zero_eq, Float64.finite_le_finite] at hpos
  cases r with
  | finite kr =>
    rw [Float64.zero_le_finite] at hr
    have hsign : (decide (kq < 0) != decide (kr < 0)) = false := by
      have h1 : ¬ kq < 0 := by omega
      have h2 : ¬ kr < 0 := by omega
      simp [h1, h2]
    have hmul : Float64.finite kq * Float64.finite kr =
        Float64.nearest (decide (kq < 0) != decide (kr < 0)) (kq.natAbs * kr.natAbs)
          Float64.unit := rfl
    rw [hmul, hsign]
    rcases Float64.nearest_cases false (kq.natAbs * kr.natAbs) Float64.unit with h | h
    · rw [h, Float64.zero_le_inf]
    · rw [h, Float64.zero_le_finite]
      simp
  | inf s =>
    rw [Float64.zero_le_inf] at hr
    subst hr
    have hmul : Float64.finite kq * Float64.inf false =
        if kq = 0 then Float64.NaN else Float64.inf (decide (kq < 0) != false) := rfl
    rw [hmul, if_neg (by omega)]
    have h1 : ¬ kq < 0 := by omega
    simp only [h1, decide_False, bne_self_eq_false]
    rw [Float64.zero_le_inf]
  | NaN => exact absurd hr Float64.not_zero_le_NaN

theorem ConvertAndDeduct_invariant (f : Faults) (db : DBState) (req : ConvertRequest)
    (hq : req.AmountToConvert.IsFinite) (h : NonNegative db ∧ db.InRange) :
    NonNegative (ConvertAndDeduct f db req).2 ∧ (ConvertAndDeduct f db req).2.InRange := by
  have hs := GetLatestRate_state f db
  have hmem := GetLatestRate_mem f db
  unfold ConvertAndDeduct
  split
  · exact h
  · split
    · exact h
    · rename_i hpos
      rcases hg : GetLatestRate f db with ⟨res, db1⟩
      rw [hg] at hs hmem
      simp only at hs hmem
      subst hs
      have h1 : NonNegative (db.record .GetLatestRate) ∧ (db.record .GetLatestRate).InRange := h
      cases res with
      | error e => exact h1
      | ok latestRate =>
        have hd := Float64.mul_nonneg_of_pos req.AmountToConvert latestRate.Value hq hpos
          (h.2.2 latestRate (hmem latestRate rfl))
        simp only []
        have he := executeTx_invariant f (db.record .GetLatestRate)
          (⟨req.SourceWalletNumber, 0, req.AmountToConvert * latestRate.Value,
            latestRate.Value, ""⟩ : ConvertResponse)
          (convertAndDeductTx f req (req.AmountToConvert * latestRate.Value))
          (fun tx v => convertAndDeductTx_invariant f req _ tx v hd) h1
        rcases hx : executeTx f (db.record .GetLatestRate)
          (⟨req.SourceWalletNumber, 0, req.AmountToConvert * latestRate.Value,
            latestRate.Value, ""⟩ : ConvertResponse)
          (convertAndDeductTx f req (req.AmountToConvert * latestRate.Value))
          with ⟨err, resp, db2⟩
        rw [hx] at he
        cases err <;> exact he

theorem Step.apply_invariant (db : DBState) (s : Step) (hs : s.Decoded)
    (h : NonNegative db ∧ db.InRange) :
    NonNegative (Step.apply db s) ∧ (Step.apply db s).InRange := by
  cases s with
  | UpdateBalance f req => exact UpdateBalance_invariant f db req hs h
  | ConvertAndDeduct f req => exact ConvertAndDeduct_invariant f db req hs h
  | ratesChanged rates => exact ⟨h.1, h.2.1, hs⟩

theorem run_invariant (steps : List Step) (db : DBState) (hs : ∀ s ∈ steps, s.Decoded)
    (h : NonNegative db ∧ db.InRange) :
    NonNegative (run db steps) ∧ (run db steps).InRange := by
  induction steps generalizing db with
  | nil => exact h
  | cons s ss ih =>
    exact ih (Step.apply db s) (fun t ht => hs t (List.mem_cons_of_mem s ht))
      (Step.apply_invariant db s (hs s (List.mem_cons_self s ss)) h)

/-- C1: starting from a store whose balances are all non-negative (and, as the
schema has it, finite values within the range of `REAL`, with rates that are
not negative), after each call of any finite sequence of `UpdateBalance` and
`ConvertAndDeduct` calls on decoded requests (any wallet numbers, any finite
amounts, any storage faults, any log of rates that are not negative) every
balance in the committed store is still non-negative, and finite and within
the range of `REAL`. -/
theorem balance_nonneg_after_each_call (db : DBState) (steps : List Step) (k : Nat)
    (h : NonNegative db) (hr : db.InRange) (hs : ∀ s ∈ steps, s.Decoded) :
    NonNegative (run db (steps.take k)) ∧ (run db (steps.take k)).InRange :=
  run_invariant (steps.take k) db (fun s hmem => hs s (List.mem_of_mem_take hmem)) ⟨h, hr⟩

/-! ## The repository calls on a store that does not fail -/

theorem balanceOf_eq_some (db : DBState) (n : String) (B : Float64)
    (h : db.balanceOf n = some B) : ∃ w, db.findWallet n = some w ∧ w.Balance = B := by
  unfold DBState.balanceOf at h
  cases hw : db.findWallet n with
  | none => rw [hw] at h; cases h
  | some w =>
    rw [hw] at h
    exact ⟨w, rfl, by simpa using h⟩

theorem balanceOf_eq_none (db : DBState) (n : String) (h : db.balanceOf n = none) :
    db.findWallet n = none := by
  unfold DBState.balanceOf at h
  cases hw : db.findWallet n with
  | none => rfl
  | some w => rw [hw] at h; cases h

theorem filter_ne_nil_of_find (rows : List Wallet) (n : String) (w : Wallet)
    (h : rows.find? (fun v => v.Number == n) = some w) :
    ¬ (rows.filter (fun v => v.Number == n)).length = 0 := by
  intro h0
  have hnil : rows.filter (fun v => v.Number == n) = [] := List.length_eq_zero.mp h0
  have hmem : w ∈ rows.filter (fun v => v.Number == n) :=
    List.mem_filter.mpr
      ⟨List.mem_of_find?_eq_some h, @List.find?_some _ (fun v => v.Number == n) w rows h⟩
  rw [hnil] at hmem
  cases hmem

theorem GetWalletByNumberForUpdate_found (f : Faults) (tx : DBState) (n : String) (w : Wallet)
    (hf : f.GetWalletByNumberForUpdate = none) (hw : tx.findWallet n = some w) :
    GetWalletByNumberForUpdate f tx n = (.ok w, tx.record (.GetWalletByNumberForUpdate n)) := by
  simp [GetWalletByNumberForUpdate, hf, hw]

theorem GetWalletByNumberForUpdate_missing (f : Faults) (tx : DBState) (n : String)
    (hf : f.GetWalletByNumberForUpdate = none) (hw : tx.findWallet n = none) :
    GetWalletByNumberForUpdate f tx n =
      (.error .sqlErrNoRows, tx.record (.GetWalletByNumberForUpdate n)) := by
  simp [GetWalletByNumberForUpdate, hf, hw]

theorem UpdateWalletBalance_found (f : Faults) (db : DBState) (n : String) (b y : Float64)
    (w : Wallet) (hu : f.UpdateWalletBalance = none) (hr : f.RowsAffected = none)
    (hy : toREAL b = .ok y) (hw : db.findWallet n = some w) :
    UpdateWalletBalance f db n b =
      (none, ⟨setBalance db.wallets n y, db.rates, db.calls ++ [.UpdateWalletBalance n b]⟩) := by
  have hfil := filter_ne_nil_of_find db.wallets n w hw
  simp [UpdateWalletBalance, hu, hr, hy, hfil, DBState.record]

theorem UpdateWalletBalance_refused (f : Faults) (db : DBState) (n : String) (b : Float64)
    (e : DriverError) (hu : f.UpdateWalletBalance = none) (hy : toREAL b = .error e) :
    UpdateWalletBalance f db n b =
      (some (.errorf "ошибка выполнения запроса UPDATE (wallet balance): " (.driver e)),
        db.record (.UpdateWalletBalance n b)) := by
  simp [UpdateWalletBalance, hu, hy]

theorem CreateWallet_fresh (f : Faults) (db : DBState) (w : Wallet) (y : Float64)
    (hc : f.CreateWallet = none) (hy : toREAL w.Balance = .ok y)
    (hw : db.findWallet w.Number = none) :
    CreateWallet f db w =
      (none, ⟨db.wallets ++ [⟨w.Number, y⟩], db.rates, db.calls ++ [.CreateWallet w]⟩) := by
  simp [CreateWallet, hc, hy, hw, DBState.record]

theorem CreateWallet_refused (f : Faults) (db : DBState) (w : Wallet) (e : DriverError)
    (hc : f.CreateWallet = none) (hy : toREAL w.Balance = .error e) :
    CreateWallet f db w =
      (some (.errorf "ошибка выполнения запроса INSERT (wallet): " (.driver e)),
        db.record (.CreateWallet w)) := by
  simp [CreateWallet, hc, hy]

theorem balanceOf_setBalance (rows : List Wallet) (rates : List Rate) (calls : List Call)
    (n : String) (b : Float64) (w : Wallet)
    (hw : rows.find? (fun v => v.Number == n) = some w) :
    (⟨setBalance rows n b, rates, calls⟩ : DBState).balanceOf n = some b := by
  simp [DBState.balanceOf, DBState.findWallet, find_setBalance_same, hw]

theorem balanceOf_append_fresh (rows : List Wallet) (rates : List Rate) (calls : List Call)
    (n : String) (b : Float64) (hw : rows.find? (fun v => v.Number == n) = none) :
    (⟨rows ++ [⟨n, b⟩], rates, calls⟩ : DBState).balanceOf n = some b := by
  simp [DBState.balanceOf, DBState.findWallet, List.find?_append, hw]

theorem balanceOf_of_findWallet (db : DBState) (n : String) (w : Wallet)
    (hw : db.findWallet n = some w) : db.balanceOf n = some w.Balance := by
  simp [DBState.balanceOf, hw]

/-! ## UpdateBalance -/

theorem UpdateBalance_existing_eq (f : Faults) (db : DBState) (n : String) (A y : Float64)
    (w : Wallet) (hb : f.BeginTx = none) (hg : f.GetWalletByNumberForUpdate = none)
    (hu : f.UpdateWalletBalance = none) (hr : f.RowsAffected = none) (hc : f.Commit = none)
    (hn : walletNumberRegex n = true) (hw : db.findWallet n = some w)
    (hsum : ¬ w.Balance + A < 0) (hy : toREAL (w.Balance + A) = .ok y) :
    UpdateBalance f db ⟨n, A⟩ =
      ((⟨n, w.Balance + A,
          if 0 ≤ A then "Баланс успешно пополнен" else "Списание успешно выполнено"⟩, none),
        ⟨setBalance db.wallets n y, db.rates,
          db.calls ++ [.BeginTx, .GetWalletByNumberForUpdate n,
            .UpdateWalletBalance n (w.Balance + A), .Commit]⟩) := by
  have hgl := GetWalletByNumberForUpdate_found f (db.record .BeginTx) n w hg hw
  have hul := UpdateWalletBalance_found f
    ((db.record .BeginTx).record (.GetWalletByNumberForUpdate n)) n (w.Balance + A) y w hu hr
    hy hw
  simp only [UpdateBalance, hn, executeTx, hb, hc, updateBalanceTx, hgl, hul, hsum]
  simp [DBState.record]

theorem UpdateBalance_existing_refused_eq (f : Faults) (db : DBState) (n : String) (A : Float64)
    (e : DriverError) (w : Wallet) (hb : f.BeginTx = none)
    (hg : f.GetWalletByNumberForUpdate = none) (hu : f.UpdateWalletBalance = none)
    (hn : walletNumberRegex n = true) (hw : db.findWallet n = some w)
    (hsum : ¬ w.Balance + A < 0) (hy : toREAL (w.Balance + A) = .error e) :
    UpdateBalance f db ⟨n, A⟩ =
      ((⟨n, 0, "Не удалось обновить баланс"⟩,
          some (match f.Rollback with
            | some _ => .errorf "внутренняя ошибка сервера (tx rollback after error): "
                (.errorf "не удалось обновить баланс: "
                  (.errorf "ошибка выполнения запроса UPDATE (wallet balance): " (.driver e)))
            | none => .errorf "не удалось обновить баланс: "
                (.errorf "ошибка выполнения запроса UPDATE (wallet balance): " (.driver e)))),
        ⟨db.wallets, db.rates,
          db.calls ++ [.BeginTx, .GetWalletByNumberForUpdate n,
            .UpdateWalletBalance n (w.Balance + A), .Rollback]⟩) := by
  have hgl := GetWalletByNumberForUpdate_found f (db.record .BeginTx) n w hg hw
  have hul := UpdateWalletBalance_refused f
    ((db.record .BeginTx).record (.GetWalletByNumberForUpdate n)) n (w.Balance + A) e hu hy
  simp only [UpdateBalance, hn, executeTx, hb, updateBalanceTx, hgl, hul, hsum]
  cases f.Rollback <;> simp [DBState.record, errorsIs, GoError.Error]

theorem UpdateBalance_insufficient_eq (f : Faults) (db : DBState) (n : String) (A : Float64)
    (w : Wallet) (hb : f.BeginTx = none) (hg : f.GetWalletByNumberForUpdate = none)
    (hn : walletNumberRegex n = true) (hw : db.findWallet n = some w)
    (hsum : w.Balance + A < 0) :
    UpdateBalance f db ⟨n, A⟩ =
      ((⟨n, w.Balance, "недостаточно средств на счете"⟩,
          some (match f.Rollback with
            | some _ => .errorf "внутренняя ошибка сервера (tx rollback after error): "
                .ErrInsufficientFunds
            | none => .ErrInsufficientFunds)),
        ⟨db.wallets, db.rates,
          db.calls ++ [.BeginTx, .GetWalletByNumberForUpdate n, .Rollback]⟩) := by
  have hgl := GetWalletByNumberForUpdate_found f (db.record .BeginTx) n w hg hw
  simp only [UpdateBalance, hn, executeTx, hb, updateBalanceTx, hgl, hsum]
  cases f.Rollback <;> simp [DBState.record, errorsIs, GoError.Error]

/-- C3: for an existing wallet with balance `B` and an amount `A` with
`B + A < 0` (the transaction begins and the locked read succeeds),
`UpdateBalance` returns an error matching `ErrInsufficientFunds` (that very
error when the rollback succeeds), the response carries the wallet number, the
unchanged balance `B` and the insufficient funds text, the transaction is
rolled back without any write, and the stored balance is still `B`.  The sum
is the float64 sum, which is negative exactly when the sum of two finite
values is negative before rounding. -/
theorem UpdateBalance_insufficient_funds (f : Faults) (db : DBState) (n : String)
    (A B : Float64) (hb : f.BeginTx = none) (hg : f.GetWalletByNumberForUpdate = none)
    (hn : walletNumberRegex n = true) (hB : db.balanceOf n = some B) (hsum : B + A < 0) :
    (∃ e, (UpdateBalance f db ⟨n, A⟩).1.2 = some e ∧ errorsIs e .ErrInsufficientFunds = true) ∧
    (f.Rollback = none → (UpdateBalance f db ⟨n, A⟩).1.2 = some .ErrInsufficientFunds) ∧
    (UpdateBalance f db ⟨n, A⟩).1.1 = ⟨n, B, "недостаточно средств на счете"⟩ ∧
    (UpdateBalance f db ⟨n, A⟩).2.calls =
      db.calls ++ [.BeginTx, .GetWalletByNumberForUpdate n, .Rollback] ∧
    (UpdateBalance f db ⟨n, A⟩).2.wallets = db.wallets ∧
    (UpdateBalance f db ⟨n, A⟩).2.balanceOf n = some B ∧
    (∀ a b : Int, Float64.finite b + Float64.finite a < 0 ↔ b + a < 0) := by
  obtain ⟨w, hw, rfl⟩ := balanceOf_eq_some db n B hB
  rw [UpdateBalance_insufficient_eq f db n A w hb hg hn hw hsum]
  refine ⟨?_, ?_, rfl, rfl, rfl, ?_, fun a b => Float64.finite_add_lt_zero b a⟩
  · cases f.Rollback <;> simp [errorsIs]
  · intro hr; simp [hr]
  · simp [DBState.balanceOf, DBState.findWallet] at hw ⊢
    simp [hw]

theorem UpdateBalance_create_eq (f : Faults) (db : DBState) (n : String) (A y : Float64)
    (hb : f.BeginTx = none) (hg : f.GetWalletByNumberForUpdate = none)
    (hcw : f.CreateWallet = none) (hc : f.Commit = none)
    (hn : walletNumberRegex n = true) (hw : db.findWallet n = none) (hA : ¬ A ≤ 0)
    (hy : toREAL A = .ok y) :
    UpdateBalance f db ⟨n, A⟩ =
      ((⟨n, A, "Кошелек успешно создан"⟩, none),
        ⟨db.wallets ++ [⟨n, y⟩], db.rates,
          db.calls ++ [.BeginTx, .GetWalletByNumberForUpdate n, .CreateWallet ⟨n, A⟩,
            .Commit]⟩) := by
  have hgl := GetWalletByNumberForUpdate_missing f (db.record .BeginTx) n hg hw
  have hcl := CreateWallet_fresh f ((db.record .BeginTx).record (.GetWalletByNumberForUpdate n))
    ⟨n, A⟩ y hcw hy hw
  simp only [UpdateBalance, hn, executeTx, hb, hc, updateBalanceTx, hgl, hcl, hA]
  simp [DBState.record, errorsIs]

theorem insert_text_ne_exists_text (n : String) (e : GoError) :
    (GoError.errorf "ошибка выполнения запроса INSERT (wallet): " e).Error ≠
      "кошелек с номером " ++ n ++ " уже существует" := by
  intro h
  have h2 := congrArg (fun s => s.data.head?) h
  simp [GoError.Error, String.data_append] at h2

theorem UpdateBalance_create_refused_eq (f : Faults) (db : DBState) (n : String) (A : Float64)
    (e : DriverError) (hb : f.BeginTx = none) (hg : f.GetWalletByNumberForUpdate = none)
    (hcw : f.CreateWallet = none) (hn : walletNumberRegex n = true)
    (hw : db.findWallet n = none) (hA : ¬ A ≤ 0) (hy : toREAL A = .error e) :
    UpdateBalance f db ⟨n, A⟩ =
      ((⟨n, 0, "Не удалось обновить баланс"⟩,
          some (match f.Rollback with
            | some _ => .errorf "внутренняя ошибка сервера (tx rollback after error): "
                (.errorf "не удалось создать кошелек: "
                  (.errorf "ошибка выполнения запроса INSERT (wallet): " (.driver e)))
            | none => .errorf "не удалось создать кошелек: "
                (.errorf "ошибка выполнения запроса INSERT (wallet): " (.driver e)))),
        ⟨db.wallets, db.rates,
          db.calls ++ [.BeginTx, .GetWalletByNumberForUpdate n, .CreateWallet ⟨n, A⟩,
            .Rollback]⟩) := by
  have hgl := GetWalletByNumberForUpdate_missing f (db.record .BeginTx) n hg hw
  have hcl := CreateWallet_refused f ((db.record .BeginTx).record (.GetWalletByNumberForUpdate n))
    ⟨n, A⟩ e hcw hy
  have hne := insert_text_ne_exists_text n (.driver e)
  simp only [UpdateBalance, hn, executeTx, hb, updateBalanceTx, hgl, hcl, hA, hne]
  cases f.Rollback <;> simp [DBState.record, errorsIs, GoError.Error]

theorem UpdateBalance_missing_nonpositive_eq (f : Faults) (db : DBState) (n : String)
    (A : Float64) (hb : f.BeginTx = none) (hg : f.GetWalletByNumberForUpdate = none)
    (hn : walletNumberRegex n = true) (hw : db.findWallet n = none) (hA : A ≤ 0) :
    UpdateBalance f db ⟨n, A⟩ =
      ((⟨n, 0, "нельзя списать средства с несуществующего кошелька"⟩,
          some (match f.Rollback with
            | some _ => .errorf "внутренняя ошибка сервера (tx rollback after error): "
                .ErrWithdrawNonExistent
            | none => .ErrWithdrawNonExistent)),
        ⟨db.wallets, db.rates,
          db.calls ++ [.BeginTx, .GetWalletByNumberForUpdate n, .Rollback]⟩) := by
  have hgl := GetWalletByNumberForUpdate_missing f (db.record .BeginTx) n hg hw
  simp only [UpdateBalance, hn, executeTx, hb, updateBalanceTx, hgl, hA]
  cases f.Rollback <;> simp [DBState.record, errorsIs, GoError.Error]

/-- C5: for a valid wallet number without a row and an amount `A ≤ 0` (the
transaction begins and the locked read succeeds), `UpdateBalance` returns an
error matching `ErrWithdrawNonExistent` (that very error when the rollback
succeeds), the calls it makes are the begin, the locked read and the rollback
only, `CreateWallet` is not among them, the table is unchanged and no row
exists for the number afterwards. -/
theorem UpdateBalance_withdraw_nonexistent (f : Faults) (db : DBState) (n : String)
    (A : Float64) (hb : f.BeginTx = none) (hg : f.GetWalletByNumberForUpdate = none)
    (hn : walletNumberRegex n = true) (hno : db.balanceOf n = none) (hA : A ≤ 0) :
    (∃ e, (UpdateBalance f db ⟨n, A⟩).1.2 = some e ∧
      errorsIs e .ErrWithdrawNonExistent = true) ∧
    (f.Rollback = none → (UpdateBalance f db ⟨n, A⟩).1.2 = some .ErrWithdrawNonExistent) ∧
    (UpdateBalance f db ⟨n, A⟩).2.calls =
      db.calls ++ [.BeginTx, .GetWalletByNumberForUpdate n, .Rollback] ∧
    (∀ w, Call.CreateWallet w ∉ (UpdateBalance f db ⟨n, A⟩).2.calls.drop db.calls.length) ∧
    (UpdateBalance f db ⟨n, A⟩).2.wallets = db.wallets ∧
    (UpdateBalance f db ⟨n, A⟩).2.balanceOf n = none := by
  have hw := balanceOf_eq_none db n hno
  rw [UpdateBalance_missing_nonpositive_eq f db n A hb hg hn hw hA]
  refine ⟨?_, ?_, rfl, ?_, rfl, ?_⟩
  · cases f.Rollback <;> simp [errorsIs]
  · intro hr; simp [hr]
  · intro w; simp
  · simpa [DBState.balanceOf, DBState.findWallet] using hw

/-! ## Identifier validation -/

theorem CreateWallet_error_not_sentinel (f : Faults) (db : DBState) (w : Wallet) (e t : GoError)
    (h : (CreateWallet f db w).1 = some e) (ht : ∀ m, t ≠ .errorsNew m)
    (ht2 : ∀ p i, t ≠ .errorf p i) (ht3 : ∀ d, t ≠ .driver d) : errorsIs e t = false := by
  unfold CreateWallet at h
  simp only [] at h
  split at h
  · split at h
    · simp only [Option.some.injEq] at h
      subst h
      simpa [errorsIs] using fun hh => ht _ hh.symm
    · simp only [Option.some.injEq] at h
      subst h
      simp only [errorsIs, Bool.or_eq_false_iff, decide_eq_false_iff_not]
      exact ⟨fun hh => ht2 _ _ hh.symm, fun hh => ht3 _ hh.symm⟩
  · simp only [Option.some.injEq] at h
    subst h
    simp only [errorsIs, Bool.or_eq_false_iff, decide_eq_false_iff_not]
    exact ⟨fun hh => ht2 _ _ hh.symm, fun hh => ht3 _ hh.symm⟩
  · split at h
    · simp only [Option.some.injEq] at h
      subst h
      simp only [errorsIs, Bool.or_eq_false_iff, decide_eq_false_iff_not]
      exact ⟨fun hh => ht2 _ _ hh.symm, fun hh => ht3 _ hh.symm⟩
    · split at h
      · simp only [Option.some.injEq] at h
        subst h
        simpa [errorsIs] using fun hh => ht _ hh.symm
      · cases h

theorem UpdateWalletBalance_error_not_invalid (f : Faults) (db : DBState) (n : String) (b : Float64)
    (e : GoError) (h : (UpdateWalletBalance f db n b).1 = some e) :
    errorsIs e .ErrInvalidWalletNumber = false := by
  unfold UpdateWalletBalance at h
  simp only [] at h
  split at h
  · simp only [Option.some.injEq] at h
    subst h
    simp [errorsIs]
  · split at h
    · simp only [Option.some.injEq] at h
      subst h
      simp [errorsIs]
    · split at h
      · simp only [Option.some.injEq] at h
        subst h
        simp [errorsIs]
      · split at h
        · simp only [Option.some.injEq] at h
          subst h
          simp [errorsIs]
        · cases h

theorem GetWalletByNumberForUpdate_error (f : Faults) (tx : DBState) (n : String) (e : GoError)
    (tx1 : DBState) (h : GetWalletByNumberForUpdate f tx n = (.error e, tx1)) :
    e = .sqlErrNoRows ∨ ∃ d, e = .driver d := by
  unfold GetWalletByNumberForUpdate at h
  simp only [] at h
  split at h
  · simp only [Prod.mk.injEq, Except.error.injEq] at h
    exact Or.inr ⟨_, h.1.symm⟩
  · split at h
    · simp only [Prod.mk.injEq, Except.error.injEq] at h
      exact Or.inl h.1.symm
    · simp at h

theorem updateBalanceTx_error_not_invalid (f : Faults) (req : UpdateBalanceRequest)
    (tx : DBState) (vars : Float64 × String) (e : GoError)
    (h : (updateBalanceTx f req tx vars).1 = some e) :
    errorsIs e .ErrInvalidWalletNumber = false := by
  unfold updateBalanceTx at h
  rcases hg : GetWalletByNumberForUpdate f tx req.WalletNumber with ⟨res, tx1⟩
  rw [hg] at h
  cases res with
  | error err =>
    have hshape := GetWalletByNumberForUpdate_error f tx req.WalletNumber err tx1 hg
    simp only [] at h
    split at h
    · split at h
      · simp only [Option.some.injEq] at h
        subst h
        simp [errorsIs]
      · rcases hcw : CreateWallet f tx1 ⟨req.WalletNumber, req.Amount⟩ with ⟨ce, tx2⟩
        rw [hcw] at h
        cases ce with
        | none => cases h
        | some createErr =>
          have hce := CreateWallet_error_not_sentinel f tx1 ⟨req.WalletNumber, req.Amount⟩
            createErr .ErrInvalidWalletNumber (by rw [hcw]) (by intro m hh; cases hh)
            (by intro p i hh; cases hh) (by intro d hh; cases hh)
          simp only [] at h
          split at h
          · simp only [Option.some.injEq] at h
            subst h
            simp [errorsIs]
          · simp only [Option.some.injEq] at h
            subst h
            simp [errorsIs, hce]
    · simp only [Option.some.injEq] at h
      subst h
      rcases hshape with rfl | ⟨d, rfl⟩ <;> simp [errorsIs]
  | ok wallet =>
    simp only [] at h
    split at h
    · simp only [Option.some.injEq] at h
      subst h
      simp [errorsIs]
    · rcases huw : UpdateWalletBalance f tx1 req.WalletNumber (wallet.Balance + req.Amount)
        with ⟨ue, tx2⟩
      rw [huw] at h
      cases ue with
      | none => cases h
      | some updateErr =>
        have hue := UpdateWalletBalance_error_not_invalid f tx1 req.WalletNumber
          (wallet.Balance + req.Amount) updateErr (by rw [huw])
        simp only [Option.some.injEq] at h
        subst h
        simp [errorsIs, hue]

theorem executeTx_error_not {σ : Type} (f : Faults) (db : DBState) (vars : σ)
    (fn : DBState → σ → Option GoError × σ × DBState) (t e : GoError)
    (ht2 : ∀ p i, t ≠ .errorf p i) (ht3 : ∀ d, t ≠ .driver d)
    (hfn : ∀ tx v e1, (fn tx v).1 = some e1 → errorsIs e1 t = false)
    (h : (executeTx f db vars fn).1 = some e) : errorsIs e t = false := by
  unfold executeTx at h
  simp only [] at h
  split at h
  · simp only [Option.some.injEq] at h
    subst h
    simp only [errorsIs, Bool.or_eq_false_iff, decide_eq_false_iff_not]
    exact ⟨fun hh => ht2 _ _ hh.symm, fun hh => ht3 _ hh.symm⟩
  · rcases hr : fn (db.record .BeginTx) vars with ⟨err, v1, tx⟩
    rw [hr] at h
    have hfn1 := hfn (db.record .BeginTx) vars
    rw [hr] at hfn1
    cases err with
    | some e1 =>
      have he1 := hfn1 e1 rfl
      simp only [] at h
      split at h
      · simp only [Option.some.injEq] at h
        subst h
        simp only [errorsIs, Bool.or_eq_false_iff, decide_eq_false_iff_not]
        exact ⟨fun hh => ht2 _ _ hh.symm, he1⟩
      · simp only [Option.some.injEq] at h
        subst h
        exact he1
    | none =>
      simp only [] at h
      split at h
      · simp only [Option.some.injEq] at h
        subst h
        simp only [errorsIs, Bool.or_eq_false_iff, decide_eq_false_iff_not]
        exact ⟨fun hh => ht2 _ _ hh.symm, fun hh => ht3 _ hh.symm⟩
      · cases h

theorem UpdateBalance_valid_error_not_invalid (f : Faults) (db : DBState)
    (req : UpdateBalanceRequest) (e : GoError) (hn : walletNumberRegex req.WalletNumber = true)
    (h : (UpdateBalance f db req).1.2 = some e) :
    errorsIs e .ErrInvalidWalletNumber = false := by
  unfold UpdateBalance at h
  simp only [hn, Bool.not_true, Bool.false_eq_true, ↓reduceIte] at h
  rcases hx : executeTx f db ((0 : Float64), "") (updateBalanceTx f req) with ⟨err, ⟨fb, msg⟩, db1⟩
  rw [hx] at h
  cases err with
  | none => cases h
  | some e1 =>
    simp only [Option.some.injEq] at h
    subst h
    exact executeTx_error_not f db ((0 : Float64), "") (updateBalanceTx f req) .ErrInvalidWalletNumber
      e1 (by intro p i hh; cases hh) (by intro d hh; cases hh)
      (fun tx v e2 he2 => updateBalanceTx_error_not_invalid f req tx v e2 he2) (by rw [hx])

/-- C6: `UpdateBalance` returns an error matching `ErrInvalidWalletNumber`
exactly when the wallet number is not a string of exactly 7 ASCII digits; on
such a rejection the error is `ErrInvalidWalletNumber` itself, the response is
the empty record and the store, call log included, is untouched: no
transaction is begun and no repository method is called. -/
theorem UpdateBalance_invalid_number_iff (f : Faults) (db : DBState)
    (req : UpdateBalanceRequest) :
    ((∃ e, (UpdateBalance f db req).1.2 = some e ∧
        errorsIs e .ErrInvalidWalletNumber = true) ↔ ¬ IsSevenAsciiDigits req.WalletNumber) ∧
    ((UpdateBalance f db req).1.2 = some .ErrInvalidWalletNumber ↔
      ¬ IsSevenAsciiDigits req.WalletNumber) ∧
    (¬ IsSevenAsciiDigits req.WalletNumber →
      UpdateBalance f db req = ((⟨"", 0, ""⟩, some .ErrInvalidWalletNumber), db)) := by
  have hrej : ¬ IsSevenAsciiDigits req.WalletNumber →
      UpdateBalance f db req = ((⟨"", 0, ""⟩, some .ErrInvalidWalletNumber), db) := by
    intro hbad
    have hf : walletNumberRegex req.WalletNumber = false := by
      cases hm : walletNumberRegex req.WalletNumber with
      | false => rfl
      | true => exact absurd ((walletNumberRegex_iff _).mp hm) hbad
    simp [UpdateBalance, hf]
  have hacc : IsSevenAsciiDigits req.WalletNumber → ∀ e,
      (UpdateBalance f db req).1.2 = some e → errorsIs e .ErrInvalidWalletNumber = false :=
    fun hok e he => UpdateBalance_valid_error_not_invalid f db req e
      ((walletNumberRegex_iff _).mpr hok) he
  refine ⟨⟨?_, ?_⟩, ⟨?_, ?_⟩, hrej⟩
  · rintro ⟨e, he, hise⟩ hok
    rw [hacc hok e he] at hise
    cases hise
  · intro hbad
    exact ⟨.ErrInvalidWalletNumber, by rw [hrej hbad], by simp [errorsIs]⟩
  · intro he hok
    have := hacc hok _ he
    simp [errorsIs] at this
  · intro hbad
    rw [hrej hbad]

/-! ## ConvertAndDeduct -/

/-! ## ConvertAndDeduct -/

theorem GetLatestRate_found (f : Faults) (db : DBState) (rate : Rate)
    (hl : f.GetLatestRate = none) (hrate : db.rates.getLast? = some rate) :
    GetLatestRate f db = (.ok rate, db.record .GetLatestRate) := by
  simp [GetLatestRate, hl, hrate]

theorem ConvertAndDeduct_commit_eq (f : Faults) (db : DBState) (req : ConvertRequest)
    (w : Wallet) (rate : Rate) (y : Float64)
    (hl : f.GetLatestRate = none) (hb : f.BeginTx = none)
    (hg : f.GetWalletByNumberForUpdate = none) (hu : f.UpdateWalletBalance = none)
    (hr : f.RowsAffected = none) (hc : f.Commit = none)
    (hn : walletNumberRegex req.SourceWalletNumber = true) (hq : ¬ req.AmountToConvert ≤ 0)
    (hrate : db.rates.getLast? = some rate)
    (hw : db.findWallet req.SourceWalletNumber = some w)
    (hlt : ¬ w.Balance < req.AmountToConvert * rate.Value)
    (hy : toREAL (w.Balance - req.AmountToConvert * rate.Value) = .ok y) :
    ConvertAndDeduct f db req =
      ((⟨req.SourceWalletNumber, w.Balance - req.AmountToConvert * rate.Value,
          req.AmountToConvert * rate.Value, rate.Value,
          "Конвертация и списание прошли успешно"⟩, none),
        ⟨setBalance db.wallets req.SourceWalletNumber y, db.rates,
          db.calls ++ [.GetLatestRate, .BeginTx,
            .GetWalletByNumberForUpdate req.SourceWalletNumber,
            .UpdateWalletBalance req.SourceWalletNumber
              (w.Balance - req.AmountToConvert * rate.Value), .Commit]⟩) := by
  have hrl := GetLatestRate_found f db rate hl hrate
  have hgl := GetWalletByNumberForUpdate_found f ((db.record .GetLatestRate).record .BeginTx)
    req.SourceWalletNumber w hg hw
  have hul := UpdateWalletBalance_found f
    (((db.record .GetLatestRate).record .BeginTx).record
      (.GetWalletByNumberForUpdate req.SourceWalletNumber))
    req.SourceWalletNumber (w.Balance - req.AmountToConvert * rate.Value) y w hu hr hy hw
  simp only [ConvertAndDeduct, hn, hq, hrl, executeTx, hb, hc, convertAndDeductTx, hgl, hul, hlt]
  simp [DBState.record]

theorem ConvertAndDeduct_refused_eq (f : Faults) (db : DBState) (req : ConvertRequest)
    (w : Wallet) (rate : Rate) (e : DriverError)
    (hl : f.GetLatestRate = none) (hb : f.BeginTx = none)
    (hg : f.GetWalletByNumberForUpdate = none) (hu : f.UpdateWalletBalance = none)
    (hn : walletNumberRegex req.SourceWalletNumber = true) (hq : ¬ req.AmountToConvert ≤ 0)
    (hrate : db.rates.getLast? = some rate)
    (hw : db.findWallet req.SourceWalletNumber = some w)
    (hlt : ¬ w.Balance < req.AmountToConvert * rate.Value)
    (hy : toREAL (w.Balance - req.AmountToConvert * rate.Value) = .error e) :
    ConvertAndDeduct f db req =
      ((⟨req.SourceWalletNumber, 0, req.AmountToConvert * rate.Value, rate.Value,
          "Ошибка при выполнении конвертации"⟩,
          some (match f.Rollback with
            | some _ => .errorf "внутренняя ошибка сервера (tx rollback after error): "
                (.errorf "не удалось списать средства для конвертации: "
                  (.errorf "ошибка выполнения запроса UPDATE (wallet balance): " (.driver e)))
            | none => .errorf "не удалось списать средства для конвертации: "
                (.errorf "ошибка выполнения запроса UPDATE (wallet balance): " (.driver e)))),
        ⟨db.wallets, db.rates,
          db.calls ++ [.GetLatestRate, .BeginTx,
            .GetWalletByNumberForUpdate req.SourceWalletNumber,
            .UpdateWalletBalance req.SourceWalletNumber
              (w.Balance - req.AmountToConvert * rate.Value), .Rollback]⟩) := by
  have hrl := GetLatestRate_found f db rate hl hrate
  have hgl := GetWalletByNumberForUpdate_found f ((db.record .GetLatestRate).record .BeginTx)
    req.SourceWalletNumber w hg hw
  have hul := UpdateWalletBalance_refused f
    (((db.record .GetLatestRate).record .BeginTx).record
      (.GetWalletByNumberForUpdate req.SourceWalletNumber))
    req.SourceWalletNumber (w.Balance - req.AmountToConvert * rate.Value) e hu hy
  simp only [ConvertAndDeduct, hn, hq, hrl, executeTx, hb, convertAndDeductTx, hgl, hul, hlt]
  cases f.Rollback <;> simp [DBState.record, errorsIs, GoError.Error]

theorem ConvertAndDeduct_insufficient_eq (f : Faults) (db : DBState) (req : ConvertRequest)
    (w : Wallet) (rate : Rate)
    (hl : f.GetLatestRate = none) (hb : f.BeginTx = none)
    (hg : f.GetWalletByNumberForUpdate = none)
    (hn : walletNumberRegex req.SourceWalletNumber = true) (hq : ¬ req.AmountToConvert ≤ 0)
    (hrate : db.rates.getLast? = some rate)
    (hw : db.findWallet req.SourceWalletNumber = some w)
    (hlt : w.Balance < req.AmountToConvert * rate.Value) :
    ConvertAndDeduct f db req =
      ((⟨req.SourceWalletNumber, w.Balance, req.AmountToConvert * rate.Value, rate.Value,
          "недостаточно средств на счете"⟩,
          some (match f.Rollback with
            | some _ => .errorf "внутренняя ошибка сервера (tx rollback after error): "
                .ErrInsufficientFunds
            | none => .ErrInsufficientFunds)),
        ⟨db.wallets, db.rates,
          db.calls ++ [.GetLatestRate, .BeginTx,
            .GetWalletByNumberForUpdate req.SourceWalletNumber, .Rollback]⟩) := by
  have hrl := GetLatestRate_found f db rate hl hrate
  have hgl := GetWalletByNumberForUpdate_found f ((db.record .GetLatestRate).record .BeginTx)
    req.SourceWalletNumber w hg hw
  simp only [ConvertAndDeduct, hn, hq, hrl, executeTx, hb, convertAndDeductTx, hgl, hlt]
  cases f.Rollback <;> simp [DBState.record, errorsIs, GoError.Error]

/-- C9: for an existing source wallet with balance `B`, a valid request with
quantity `q > 0` and latest rate `r` such that the computed deduction, the
float64 product `q * r`, exceeds `B` (the rate read, the begin and the locked
read succeed), `ConvertAndDeduct` returns an error matching
`ErrInsufficientFunds` (that very error when the rollback succeeds), the
response carries the source wallet number, the unchanged balance `B` and the
insufficient funds text, no update is written and the stored balance is still
`B`. -/
theorem ConvertAndDeduct_insufficient_funds (f : Faults) (db : DBState) (req : ConvertRequest)
    (B : Float64) (rate : Rate)
    (hl : f.GetLatestRate = none) (hb : f.BeginTx = none)
    (hg : f.GetWalletByNumberForUpdate = none)
    (hn : walletNumberRegex req.SourceWalletNumber = true) (hq : 0 < req.AmountToConvert)
    (hrate : db.rates.getLast? = some rate)
    (hB : db.balanceOf req.SourceWalletNumber = some B)
    (hlt : B < req.AmountToConvert * rate.Value) :
    (∃ e, (ConvertAndDeduct f db req).1.2 = some e ∧
      errorsIs e .ErrInsufficientFunds = true) ∧
    (f.Rollback = none → (ConvertAndDeduct f db req).1.2 = some .ErrInsufficientFunds) ∧
    (ConvertAndDeduct f db req).1.1.SourceWalletNumber = req.SourceWalletNumber ∧
    (ConvertAndDeduct f db req).1.1.RemainingBalance = B ∧
    (ConvertAndDeduct f db req).1.1.Message = "недостаточно средств на счете" ∧
    (ConvertAndDeduct f db req).2.calls =
      db.calls ++ [.GetLatestRate, .BeginTx,
        .GetWalletByNumberForUpdate req.SourceWalletNumber, .Rollback] ∧
    (ConvertAndDeduct f db req).2.wallets = db.wallets ∧
    (ConvertAndDeduct f db req).2.balanceOf req.SourceWalletNumber = some B := by
  obtain ⟨w, hw, rfl⟩ := balanceOf_eq_some db _ B hB
  rw [ConvertAndDeduct_insufficient_eq f db req w rate hl hb hg hn
    (Float64.not_le_of_lt _ _ hq) hrate hw hlt]
  refine ⟨?_, ?_, rfl, rfl, rfl, rfl, rfl, ?_⟩
  · cases f.Rollback <;> simp [errorsIs]
  · intro hr; simp [hr]
  · simp [DBState.balanceOf, DBState.findWallet] at hw ⊢
    simp [hw]

theorem ConvertAndDeduct_not_found_eq (f : Faults) (db : DBState) (req : ConvertRequest)
    (rate : Rate)
    (hl : f.GetLatestRate = none) (hb : f.BeginTx = none)
    (hg : f.GetWalletByNumberForUpdate = none)
    (hn : walletNumberRegex req.SourceWalletNumber = true) (hq : ¬ req.AmountToConvert ≤ 0)
    (hrate : db.rates.getLast? = some rate)
    (hw : db.findWallet req.SourceWalletNumber = none) :
    ConvertAndDeduct f db req =
      ((⟨req.SourceWalletNumber, 0, req.AmountToConvert * rate.Value, rate.Value,
          "кошелек не найден"⟩,
          some (match f.Rollback with
            | some _ => .errorf "внутренняя ошибка сервера (tx rollback after error): "
                .ErrWalletNotFound
            | none => .ErrWalletNotFound)),
        ⟨db.wallets, db.rates,
          db.calls ++ [.GetLatestRate, .BeginTx,
            .GetWalletByNumberForUpdate req.SourceWalletNumber, .Rollback]⟩) := by
  have hrl := GetLatestRate_found f db rate hl hrate
  have hgl := GetWalletByNumberForUpdate_missing f ((db.record .GetLatestRate).record .BeginTx)
    req.SourceWalletNumber hg hw
  simp only [ConvertAndDeduct, hn, hq, hrl, executeTx, hb, convertAndDeductTx, hgl]
  cases f.Rollback <;> simp [DBState.record, errorsIs, GoError.Error]

/-- C10: for a valid source wallet number without a row, a quantity `q > 0`
and an available rate (the rate read, the begin and the locked read succeed),
`ConvertAndDeduct` returns an error matching `ErrWalletNotFound` (that very
error when the rollback succeeds); the calls it makes are the rate read, the
begin, the locked read and the rollback, so no wallet is created and nothing
is written, and both tables are unchanged. -/
theorem ConvertAndDeduct_wallet_not_found (f : Faults) (db : DBState) (req : ConvertRequest)
    (rate : Rate)
    (hl : f.GetLatestRate = none) (hb : f.BeginTx = none)
    (hg : f.GetWalletByNumberForUpdate = none)
    (hn : walletNumberRegex req.SourceWalletNumber = true) (hq : 0 < req.AmountToConvert)
    (hrate : db.rates.getLast? = some rate)
    (hno : db.balanceOf req.SourceWalletNumber = none) :
    (∃ e, (ConvertAndDeduct f db req).1.2 = some e ∧ errorsIs e .ErrWalletNotFound = true) ∧
    (f.Rollback = none → (ConvertAndDeduct f db req).1.2 = some .ErrWalletNotFound) ∧
    (ConvertAndDeduct f db req).2.calls =
      db.calls ++ [.GetLatestRate, .BeginTx,
        .GetWalletByNumberForUpdate req.SourceWalletNumber, .Rollback] ∧
    (ConvertAndDeduct f db req).2.wallets = db.wallets ∧
    (ConvertAndDeduct f db req).2.rates = db.rates ∧
    (ConvertAndDeduct f db req).2.balanceOf req.SourceWalletNumber = none := by
  have hw := balanceOf_eq_none db _ hno
  rw [ConvertAndDeduct_not_found_eq f db req rate hl hb hg hn (Float64.not_le_of_lt _ _ hq)
    hrate hw]
  refine ⟨?_, ?_, rfl, rfl, rfl, ?_⟩
  · cases f.Rollback <;> simp [errorsIs]
  · intro hr; simp [hr]
  · simpa [DBState.balanceOf, DBState.findWallet] using hw

theorem ConvertAndDeduct_of_nil_eq (f : Faults) (db : DBState) (req : ConvertRequest)
    (w : Wallet) (rate : Rate) (hrate : db.rates.getLast? = some rate)
    (hw : db.findWallet req.SourceWalletNumber = some w)
    (hok : (ConvertAndDeduct f db req).1.2 = none) :
    ∃ y, toREAL (w.Balance - req.AmountToConvert * rate.Value) = .ok y ∧
    ConvertAndDeduct f db req =
      ((⟨req.SourceWalletNumber, w.Balance - req.AmountToConvert * rate.Value,
          req.AmountToConvert * rate.Value, rate.Value,
          "Конвертация и списание прошли успешно"⟩, none),
        ⟨setBalance db.wallets req.SourceWalletNumber y, db.rates,
          db.calls ++ [.GetLatestRate, .BeginTx,
            .GetWalletByNumberForUpdate req.SourceWalletNumber,
            .UpdateWalletBalance req.SourceWalletNumber
              (w.Balance - req.AmountToConvert * rate.Value), .Commit]⟩) := by
  by_cases hn : walletNumberRegex req.SourceWalletNumber = true
  swap
  · simp [ConvertAndDeduct, hn] at hok
  by_cases hq0 : req.AmountToConvert ≤ 0
  · simp [ConvertAndDeduct, hn, hq0] at hok
  cases hl : f.GetLatestRate with
  | some e => simp [ConvertAndDeduct, hn, hq0, GetLatestRate, hl] at hok
  | none =>
    have hrl := GetLatestRate_found f db rate hl hrate
    cases hb : f.BeginTx with
    | some e => simp [ConvertAndDeduct, hn, hq0, hrl, executeTx, hb] at hok
    | none =>
      cases hg : f.GetWalletByNumberForUpdate with
      | some e =>
        simp only [ConvertAndDeduct, hn, hq0, hrl, executeTx, hb, convertAndDeductTx,
          GetWalletByNumberForUpdate, hg] at hok
        cases hrb : f.Rollback <;> simp [hrb, errorsIs] at hok
      | none =>
        have hgl := GetWalletByNumberForUpdate_found f
          ((db.record .GetLatestRate).record .BeginTx) req.SourceWalletNumber w hg hw
        by_cases hlt : w.Balance < req.AmountToConvert * rate.Value
        · simp only [ConvertAndDeduct, hn, hq0, hrl, executeTx, hb, convertAndDeductTx, hgl,
            hlt] at hok
          cases hrb : f.Rollback <;> simp [hrb] at hok
        · cases hu : f.UpdateWalletBalance with
          | some e =>
            simp only [ConvertAndDeduct, hn, hq0, hrl, executeTx, hb, convertAndDeductTx, hgl,
              hlt, UpdateWalletBalance, hu] at hok
            cases hrb : f.Rollback <;> simp [hrb] at hok
          | none =>
            cases hy : toREAL (w.Balance - req.AmountToConvert * rate.Value) with
            | error e =>
              rw [ConvertAndDeduct_refused_eq f db req w rate e hl hb hg hu hn hq0 hrate hw hlt
                hy] at hok
              cases hrb : f.Rollback <;> simp [hrb] at hok
            | ok y =>
              refine ⟨y, rfl, ?_⟩
              cases hr : f.RowsAffected with
              | some e =>
                simp only [ConvertAndDeduct, hn, hq0, hrl, executeTx, hb, convertAndDeductTx,
                  hgl, hlt, UpdateWalletBalance, hu, hy, hr] at hok
                cases hrb : f.Rollback <;> simp [hrb] at hok
              | none =>
                have hul := UpdateWalletBalance_found f
                  (((db.record .GetLatestRate).record .BeginTx).record
                    (.GetWalletByNumberForUpdate req.SourceWalletNumber))
                  req.SourceWalletNumber (w.Balance - req.AmountToConvert * rate.Value) y w hu
                  hr hy hw
                cases hc : f.Commit with
                | some e =>
                  simp only [ConvertAndDeduct, hn, hq0, hrl, executeTx, hb, convertAndDeductTx,
                    hgl, hlt, hul, hc] at hok
                  simp at hok
                | none =>
                  exact ConvertAndDeduct_commit_eq f db req w rate y hl hb hg hu hr hc hn hq0
                    hrate hw hlt hy

/-! ## The successful paths: what is reported and what the column keeps -/

/-- C2 (as amended): on a store without faults, for an existing wallet with
balance `B` and an amount `A` whose float64 sum `B + A` is `≥ 0`: when the
`REAL` column accepts the sum and keeps `y` of it, `UpdateBalance` returns no
error, the stored balance becomes `y`, and the response carries the wallet
number, the new balance `B + A` and the deposit text when `A ≥ 0`, the
withdrawal text when `A < 0`; when the column refuses the sum, `UpdateBalance`
returns an error and the table is unchanged. -/
theorem UpdateBalance_existing_success (db : DBState) (n : String) (A B : Float64)
    (hn : walletNumberRegex n = true) (hB : db.balanceOf n = some B) (hsum : 0 ≤ B + A) :
    (∀ y, toREAL (B + A) = .ok y →
      (UpdateBalance Faults.none db ⟨n, A⟩).1.2 = none ∧
      (UpdateBalance Faults.none db ⟨n, A⟩).2.balanceOf n = some y ∧
      (UpdateBalance Faults.none db ⟨n, A⟩).1.1 =
        ⟨n, B + A, if 0 ≤ A then "Баланс успешно пополнен" else "Списание успешно выполнено"⟩ ∧
      (0 ≤ A → (UpdateBalance Faults.none db ⟨n, A⟩).1.1.Message = "Баланс успешно пополнен") ∧
      (A < 0 →
        (UpdateBalance Faults.none db ⟨n, A⟩).1.1.Message = "Списание успешно выполнено")) ∧
    (∀ e, toREAL (B + A) = .error e →
      (∃ err, (UpdateBalance Faults.none db ⟨n, A⟩).1.2 = some err) ∧
      (UpdateBalance Faults.none db ⟨n, A⟩).2.wallets = db.wallets ∧
      (UpdateBalance Faults.none db ⟨n, A⟩).2.balanceOf n = some B) := by
  obtain ⟨w, hw, rfl⟩ := balanceOf_eq_some db n B hB
  have hnl : ¬ w.Balance + A < 0 := Float64.not_lt_of_le _ _ hsum
  constructor
  · intro y hy
    rw [UpdateBalance_existing_eq Faults.none db n A y w rfl rfl rfl rfl rfl hn hw hnl hy]
    refine ⟨rfl, balanceOf_setBalance _ _ _ n _ w hw, rfl, ?_, ?_⟩
    · intro h; simp [h]
    · intro h; simp [Float64.not_le_of_lt _ _ h]
  · intro e he
    rw [UpdateBalance_existing_refused_eq Faults.none db n A e w rfl rfl rfl hn hw hnl he]
    exact ⟨⟨_, rfl⟩, rfl, balanceOf_of_findWallet db n w hw⟩

/-- C4 (as amended): on a store without faults, for a valid wallet number
without a row and an amount `A > 0`: when the `REAL` column accepts `A` and
keeps `y` of it, `UpdateBalance` inserts a row with balance `y`, returns no
error, and the response carries the wallet number, the new balance `A` and the
text of a creation; when the column refuses `A`, `UpdateBalance` returns an
error and no row is inserted. -/
theorem UpdateBalance_creates_wallet (db : DBState) (n : String) (A : Float64)
    (hn : walletNumberRegex n = true) (hno : db.balanceOf n = none) (hA : 0 < A) :
    (∀ y, toREAL A = .ok y →
      (UpdateBalance Faults.none db ⟨n, A⟩).1.2 = none ∧
      (UpdateBalance Faults.none db ⟨n, A⟩).2.wallets = db.wallets ++ [⟨n, y⟩] ∧
      (UpdateBalance Faults.none db ⟨n, A⟩).2.balanceOf n = some y ∧
      (UpdateBalance Faults.none db ⟨n, A⟩).1.1 = ⟨n, A, "Кошелек успешно создан"⟩) ∧
    (∀ e, toREAL A = .error e →
      (∃ err, (UpdateBalance Faults.none db ⟨n, A⟩).1.2 = some err) ∧
      (UpdateBalance Faults.none db ⟨n, A⟩).2.wallets = db.wallets ∧
      (UpdateBalance Faults.none db ⟨n, A⟩).2.balanceOf n = none) := by
  have hw := balanceOf_eq_none db n hno
  have hnl : ¬ A ≤ 0 := Float64.not_le_of_lt _ _ hA
  constructor
  · intro y hy
    rw [UpdateBalance_create_eq Faults.none db n A y rfl rfl rfl rfl hn hw hnl hy]
    exact ⟨rfl, rfl, balanceOf_append_fresh _ _ _ n y hw, rfl⟩
  · intro e he
    rw [UpdateBalance_create_refused_eq Faults.none db n A e rfl rfl rfl hn hw hnl he]
    exact ⟨⟨_, rfl⟩, rfl, hno⟩

/-- C7 (as amended): on a store without faults, for an existing source wallet
with balance `B`, latest rate value `r` and requested quantity `q > 0` whose
float64 product `q * r` is `≤ B`: when the `REAL` column accepts the float64
difference `B - q * r` and keeps `y` of it, `ConvertAndDeduct` succeeds, the
stored balance becomes `y`, and the response reports the remaining balance
`B - q * r`, the converted amount `q * r` and the rate used `r`; when the column
refuses the difference, `ConvertAndDeduct` returns an error and the table is
unchanged. -/
theorem ConvertAndDeduct_deducts_quantity_times_rate (db : DBState) (req : ConvertRequest)
    (B : Float64) (rate : Rate)
    (hn : walletNumberRegex req.SourceWalletNumber = true) (hq : 0 < req.AmountToConvert)
    (hrate : db.rates.getLast? = some rate)
    (hB : db.balanceOf req.SourceWalletNumber = some B)
    (hle : req.AmountToConvert * rate.Value ≤ B) :
    (∀ y, toREAL (B - req.AmountToConvert * rate.Value) = .ok y →
      (ConvertAndDeduct Faults.none db req).1.2 = none ∧
      (ConvertAndDeduct Faults.none db req).2.balanceOf req.SourceWalletNumber = some y ∧
      (ConvertAndDeduct Faults.none db req).1.1 =
        ⟨req.SourceWalletNumber, B - req.AmountToConvert * rate.Value,
          req.AmountToConvert * rate.Value, rate.Value,
          "Конвертация и списание прошли успешно"⟩) ∧
    (∀ e, toREAL (B - req.AmountToConvert * rate.Value) = .error e →
      (∃ err, (ConvertAndDeduct Faults.none db req).1.2 = some err) ∧
      (ConvertAndDeduct Faults.none db req).2.wallets = db.wallets ∧
      (ConvertAndDeduct Faults.none db req).2.balanceOf req.SourceWalletNumber = some B) := by
  obtain ⟨w, hw, rfl⟩ := balanceOf_eq_some db _ B hB
  have hq0 : ¬ req.AmountToConvert ≤ 0 := Float64.not_le_of_lt _ _ hq
  have hnl : ¬ w.Balance < req.AmountToConvert * rate.Value := Float64.not_lt_of_le _ _ hle
  constructor
  · intro y hy
    rw [ConvertAndDeduct_commit_eq Faults.none db req w rate y rfl rfl rfl rfl rfl rfl hn hq0
      hrate hw hnl hy]
    exact ⟨rfl, balanceOf_setBalance _ _ _ _ _ w hw, rfl⟩
  · intro e he
    rw [ConvertAndDeduct_refused_eq Faults.none db req w rate e rfl rfl rfl rfl hn hq0 hrate hw
      hnl he]
    exact ⟨⟨_, rfl⟩, rfl, balanceOf_of_findWallet db _ w hw⟩

/-- C8 (as amended): whenever `ConvertAndDeduct` returns no error for a wallet
with initial balance `B`, requested quantity `q` and latest rate `r`, the
remaining balance reported in the response is the float64 value `B - q * r`,
the wallet row holds what the `REAL` column keeps of that value, the reported
converted amount is the float64 product `q * r` and the rate used is `r`. -/
theorem ConvertAndDeduct_nil_error_deducts_product (f : Faults) (db : DBState)
    (req : ConvertRequest) (B : Float64) (rate : Rate)
    (hrate : db.rates.getLast? = some rate)
    (hB : db.balanceOf req.SourceWalletNumber = some B)
    (hok : (ConvertAndDeduct f db req).1.2 = none) :
    (ConvertAndDeduct f db req).1.1.RemainingBalance = B - req.AmountToConvert * rate.Value ∧
    (∃ y, toREAL (B - req.AmountToConvert * rate.Value) = .ok y ∧
      (ConvertAndDeduct f db req).2.balanceOf req.SourceWalletNumber = some y) ∧
    (ConvertAndDeduct f db req).1.1.ConvertedAmount = req.AmountToConvert * rate.Value ∧
    (ConvertAndDeduct f db req).1.1.RateUsed = rate.Value := by
  obtain ⟨w, hw, rfl⟩ := balanceOf_eq_some db _ B hB
  obtain ⟨y, hy, heq⟩ := ConvertAndDeduct_of_nil_eq f db req w rate hrate hw hok
  rw [heq]
  exact ⟨rfl, ⟨y, hy, balanceOf_setBalance _ _ _ _ _ w hw⟩, rfl, rfl⟩

/-! ## The theorems at the data of the handler tests -/

/-- C1 on the store of the conversion test: an overdraw, a conversion and a creation. -/
theorem balance_nonneg_after_each_call_witness :
    NonNegative convertSuccessStore ∧ convertSuccessStore.InRange ∧
    NonNegative (run convertSuccessStore
      (List.take 2 [Step.UpdateBalance Faults.none ⟨"2223344", -250⟩,
        Step.ConvertAndDeduct Faults.none convertSuccessRequest,
        Step.UpdateBalance Faults.none ⟨"1234567", 5⟩])) :=
  have h : NonNegative convertSuccessStore := by decide!
  have hr : convertSuccessStore.InRange := by decide!
  ⟨h, hr, (balance_nonneg_after_each_call convertSuccessStore _ 2 h hr (by
    intro s hs
    simp only [List.mem_cons, List.mem_singleton, List.not_mem_nil, or_false] at hs
    rcases hs with rfl | rfl | rfl
    · show Float64.IsFinite (-250)
      decide!
    · show Float64.IsFinite convertSuccessRequest.AmountToConvert
      decide!
    · show Float64.IsFinite 5
      decide!)).1⟩

/-- C2 (as stated) fails: a deposit of 0.01 to a wallet holding 1000000.0
succeeds and the response reports the new balance 1000000.01, but the `REAL`
column keeps 1000000.0 of it: the stored balance is not the reported one, and
it is not the balance plus the amount. -/
theorem UpdateBalance_stored_differs_from_reported :
    (UpdateBalance Faults.none millionStore ⟨"1112233", 0.01⟩).1.2 = none ∧
    (UpdateBalance Faults.none millionStore ⟨"1112233", 0.01⟩).1.1.NewBalance = 1000000.01 ∧
    (UpdateBalance Faults.none millionStore ⟨"1112233", 0.01⟩).2.balanceOf "1112233" =
      some 1000000 ∧
    (1000000 : Float64) + 0.01 = 1000000.01 ∧ (1000000 : Float64) ≠ 1000000.01 := by
  decide!

/-- C2 (as amended) at the data of
`TestWalletHandler_UpdateBalance_WithdrawExisting_Success`. -/
theorem UpdateBalance_existing_success_witness :
    walletNumberRegex "1112233" = true ∧ withdrawStore.balanceOf "1112233" = some 100 ∧
    (0 : Float64) ≤ 100 + -30 ∧ toREAL (100 + -30) = .ok 70 ∧
    (UpdateBalance Faults.none withdrawStore ⟨"1112233", -30⟩).1.2 = none ∧
    (UpdateBalance Faults.none withdrawStore ⟨"1112233", -30⟩).2.balanceOf "1112233" =
      some 70 ∧
    (UpdateBalance Faults.none withdrawStore ⟨"1112233", -30⟩).1.1.Message =
      "Списание успешно выполнено" :=
  have h1 : withdrawStore.balanceOf "1112233" = some 100 := by decide!
  have h2 : (0 : Float64) ≤ 100 + -30 := by decide!
  have h3 : toREAL (100 + -30) = .ok 70 := by decide!
  have h := (UpdateBalance_existing_success withdrawStore "1112233" (-30) 100 (by decide)
    h1 h2).1 70 h3
  ⟨by decide, h1, h2, h3, h.1, h.2.1, h.2.2.2.2 (by decide!)⟩

/-- C3 at the data of `TestWalletHandler_UpdateBalance_WithdrawExisting_InsufficientFunds`. -/
theorem UpdateBalance_insufficient_funds_witness :
    walletNumberRegex "4445566" = true ∧ insufficientStore.balanceOf "4445566" = some 20 ∧
    (20 : Float64) + -50 < 0 ∧
    (UpdateBalance Faults.none insufficientStore ⟨"4445566", -50⟩).1.2 =
      some .ErrInsufficientFunds ∧
    (UpdateBalance Faults.none insufficientStore ⟨"4445566", -50⟩).1.1 =
      ⟨"4445566", 20, "недостаточно средств на счете"⟩ ∧
    (UpdateBalance Faults.none insufficientStore ⟨"4445566", -50⟩).2.balanceOf "4445566" =
      some 20 :=
  have h1 : insufficientStore.balanceOf "4445566" = some 20 := by decide!
  have h2 : (20 : Float64) + -50 < 0 := by decide!
  have h := UpdateBalance_insufficient_funds Faults.none insufficientStore "4445566" (-50) 20
    rfl rfl (by decide) h1 h2
  ⟨by decide, h1, h2, h.2.1 rfl, h.2.2.1, h.2.2.2.2.2.1⟩

/-- C4 (as stated) fails: the creation of a wallet with the amount 1000000.01
succeeds and the response reports that balance, but the row inserted holds
1000000.0, not exactly the amount. -/
theorem UpdateBalance_created_row_differs_from_amount :
    (UpdateBalance Faults.none emptyStore ⟨"1234567", 1000000.01⟩).1.2 = none ∧
    (UpdateBalance Faults.none emptyStore ⟨"1234567", 1000000.01⟩).1.1.NewBalance =
      1000000.01 ∧
    (UpdateBalance Faults.none emptyStore ⟨"1234567", 1000000.01⟩).2.wallets =
      [⟨"1234567", 1000000⟩] ∧
    (1000000 : Float64) ≠ 1000000.01 := by
  decide!

/-- C4 (as amended) at the data of `TestWalletHandler_UpdateBalance_CreateWallet`. -/
theorem UpdateBalance_creates_wallet_witness :
    walletNumberRegex "1234567" = true ∧ emptyStore.balanceOf "1234567" = none ∧
    (0 : Float64) < 100.5 ∧ toREAL 100.5 = .ok 100.5 ∧
    (UpdateBalance Faults.none emptyStore ⟨"1234567", 100.5⟩).1.2 = none ∧
    (UpdateBalance Faults.none emptyStore ⟨"1234567", 100.5⟩).2.wallets =
      emptyStore.wallets ++ [⟨"1234567", 100.5⟩] ∧
    (UpdateBalance Faults.none emptyStore ⟨"1234567", 100.5⟩).1.1 =
      ⟨"1234567", 100.5, "Кошелек успешно создан"⟩ :=
  have h2 : (0 : Float64) < 100.5 := by decide!
  have h3 : toREAL 100.5 = .ok 100.5 := by decide!
  have h := (UpdateBalance_creates_wallet emptyStore "1234567" 100.5 (by decide) rfl h2).1
    100.5 h3
  ⟨by decide, rfl, h2, h3, h.1, h.2.1, h.2.2.2⟩

/-- C5 for the amount 0 on an empty store. -/
theorem UpdateBalance_withdraw_nonexistent_witness :
    walletNumberRegex "1234567" = true ∧ emptyStore.balanceOf "1234567" = none ∧
    (0 : Float64) ≤ 0 ∧
    (UpdateBalance Faults.none emptyStore ⟨"1234567", 0⟩).1.2 =
      some .ErrWithdrawNonExistent ∧
    (UpdateBalance Faults.none emptyStore ⟨"1234567", 0⟩).2.wallets = emptyStore.wallets ∧
    (UpdateBalance Faults.none emptyStore ⟨"1234567", 0⟩).2.balanceOf "1234567" = none :=
  have h0 : (0 : Float64) ≤ 0 := by decide!
  have h := UpdateBalance_withdraw_nonexistent Faults.none emptyStore "1234567" 0 rfl rfl
    (by decide) rfl h0
  ⟨by decide, rfl, h0, h.2.1 rfl, h.2.2.2.2.1, h.2.2.2.2.2⟩

/-- C6 at the data of `TestWalletHandler_UpdateBalance_InvalidWalletNumber`. -/
theorem UpdateBalance_invalid_number_iff_witness :
    ¬ IsSevenAsciiDigits "invalid" ∧
    UpdateBalance Faults.none emptyStore ⟨"invalid", 100⟩ =
      ((⟨"", 0, ""⟩, some .ErrInvalidWalletNumber), emptyStore) :=
  have hbad : ¬ IsSevenAsciiDigits "invalid" := by
    intro h
    have := (walletNumberRegex_iff "invalid").mpr h
    revert this
    decide
  ⟨hbad, (UpdateBalance_invalid_number_iff Faults.none emptyStore ⟨"invalid", 100⟩).2.2 hbad⟩

/-- C7 (as stated) fails: the conversion of 0.01 at the rate 1.0 from a wallet
holding 1000000.0 succeeds and reports the remaining balance 999999.99, but the
`REAL` column keeps 1000000.0 of it: the stored balance has not become the
balance minus the deduction. -/
theorem ConvertAndDeduct_stored_differs_from_reported :
    (ConvertAndDeduct Faults.none millionStore ⟨"", "", "", 0.01, "1112233"⟩).1.2 = none ∧
    (ConvertAndDeduct Faults.none millionStore
      ⟨"", "", "", 0.01, "1112233"⟩).1.1.RemainingBalance = 999999.99 ∧
    (ConvertAndDeduct Faults.none millionStore
      ⟨"", "", "", 0.01, "1112233"⟩).1.1.ConvertedAmount = 0.01 ∧
    (ConvertAndDeduct Faults.none millionStore ⟨"", "", "", 0.01, "1112233"⟩).2.balanceOf
      "1112233" = some 1000000 ∧
    (1000000 : Float64) ≠ 999999.99 := by
  decide!

/-- C7 (as amended) at balance 200.0, rate 90.5 and quantity 1.5: deduction
135.75, remaining 64.25. -/
theorem ConvertAndDeduct_deducts_quantity_times_rate_witness :
    walletNumberRegex convertSuccessRequest.SourceWalletNumber = true ∧
    0 < convertSuccessRequest.AmountToConvert ∧
    convertSuccessStore.rates.getLast? = some ⟨1, 90.5⟩ ∧
    convertSuccessStore.balanceOf convertSuccessRequest.SourceWalletNumber = some 200 ∧
    convertSuccessRequest.AmountToConvert * 90.5 ≤ 200 ∧
    toREAL (200 - convertSuccessRequest.AmountToConvert * 90.5) = .ok 64.25 ∧
    (ConvertAndDeduct Faults.none convertSuccessStore convertSuccessRequest).1.2 = none ∧
    (ConvertAndDeduct Faults.none convertSuccessStore convertSuccessRequest).2.balanceOf
      "2223344" = some 64.25 ∧
    (ConvertAndDeduct Faults.none convertSuccessStore convertSuccessRequest).1.1 =
      ⟨"2223344", 64.25, 135.75, 90.5, "Конвертация и списание прошли успешно"⟩ :=
  have h1 : walletNumberRegex convertSuccessRequest.SourceWalletNumber = true := by decide
  have h2 : 0 < convertSuccessRequest.AmountToConvert := by decide!
  have h3 : convertSuccessStore.rates.getLast? = some ⟨1, 90.5⟩ := rfl
  have h4 : convertSuccessStore.balanceOf convertSuccessRequest.SourceWalletNumber =
      some 200 := by decide!
  have h5 : convertSuccessRequest.AmountToConvert * 90.5 ≤ 200 := by decide!
  have h6 : toREAL (200 - convertSuccessRequest.AmountToConvert * 90.5) = .ok 64.25 := by
    decide!
  have h := (ConvertAndDeduct_deducts_quantity_times_rate convertSuccessStore
    convertSuccessRequest 200 ⟨1, 90.5⟩ h1 h2 h3 h4 h5).1 64.25 h6
  ⟨h1, h2, h3, h4, h5, h6, h.1, h.2.1, by rw [h.2.2]; decide!⟩

/-- C8 (as stated) fails on the data of its own test: with balance 200.0, rate
90.5 and quantity 1.5 the conversion succeeds and the remaining balance,
reported and stored, is 64.25 and not 200.0 - 1.5 = 198.5. -/
theorem ConvertAndDeduct_remaining_not_balance_minus_quantity :
    (ConvertAndDeduct Faults.none convertSuccessStore convertSuccessRequest).1.2 = none ∧
    (ConvertAndDeduct Faults.none convertSuccessStore
      convertSuccessRequest).1.1.RemainingBalance = 64.25 ∧
    (ConvertAndDeduct Faults.none convertSuccessStore
      convertSuccessRequest).1.1.RemainingBalance ≠ 200 - convertSuccessRequest.AmountToConvert ∧
    (200 : Float64) - convertSuccessRequest.AmountToConvert = 198.5 ∧
    (ConvertAndDeduct Faults.none convertSuccessStore convertSuccessRequest).2.balanceOf
      "2223344" = some 64.25 ∧
    (ConvertAndDeduct Faults.none convertSuccessStore convertSuccessRequest).2.balanceOf
      "2223344" ≠ some (200 - convertSuccessRequest.AmountToConvert) := by
  decide!

/-- C8 (as amended) at balance 200.0, rate 90.5 and quantity 1.5. -/
theorem ConvertAndDeduct_nil_error_deducts_product_witness :
    convertSuccessStore.rates.getLast? = some ⟨1, 90.5⟩ ∧
    convertSuccessStore.balanceOf convertSuccessRequest.SourceWalletNumber = some 200 ∧
    (ConvertAndDeduct Faults.none convertSuccessStore convertSuccessRequest).1.2 = none ∧
    (ConvertAndDeduct Faults.none convertSuccessStore
      convertSuccessRequest).1.1.RemainingBalance =
        200 - convertSuccessRequest.AmountToConvert * 90.5 :=
  have h4 : convertSuccessStore.balanceOf convertSuccessRequest.SourceWalletNumber =
      some 200 := by decide!
  have hok : (ConvertAndDeduct Faults.none convertSuccessStore convertSuccessRequest).1.2 =
      none := by decide!
  ⟨rfl, h4, hok,
    (ConvertAndDeduct_nil_error_deducts_product Faults.none convertSuccessStore
      convertSuccessRequest 200 ⟨1, 90.5⟩ rfl h4 hok).1⟩

/-- C9 at the data of `TestWalletHandler_ConvertAndDeduct_InsufficientFunds`. -/
theorem ConvertAndDeduct_insufficient_funds_witness :
    walletNumberRegex convertInsufficientRequest.SourceWalletNumber = true ∧
    0 < convertInsufficientRequest.AmountToConvert ∧
    convertInsufficientStore.rates.getLast? = some ⟨1, 90⟩ ∧
    convertInsufficientStore.balanceOf convertInsufficientRequest.SourceWalletNumber =
      some 10 ∧
    10 < convertInsufficientRequest.AmountToConvert * 90 ∧
    (ConvertAndDeduct Faults.none convertInsufficientStore convertInsufficientRequest).1.2 =
      some .ErrInsufficientFunds ∧
    (ConvertAndDeduct Faults.none convertInsufficientStore
      convertInsufficientRequest).1.1.RemainingBalance = 10 ∧
    (ConvertAndDeduct Faults.none convertInsufficientStore
      convertInsufficientRequest).2.wallets = convertInsufficientStore.wallets :=
  have h1 : walletNumberRegex convertInsufficientRequest.SourceWalletNumber = true := by decide
  have h2 : 0 < convertInsufficientRequest.AmountToConvert := by decide!
  have h4 : convertInsufficientStore.balanceOf convertInsufficientRequest.SourceWalletNumber =
      some 10 := by decide!
  have h5 : 10 < convertInsufficientRequest.AmountToConvert * 90 := by decide!
  have h := ConvertAndDeduct_insufficient_funds Faults.none convertInsufficientStore
    convertInsufficientRequest 10 ⟨1, 90⟩ rfl rfl rfl h1 h2 rfl h4 h5
  ⟨h1, h2, rfl, h4, h5, h.2.1 rfl, h.2.2.2.1, h.2.2.2.2.2.2.1⟩

/-- C10 for a store that holds a rate and no wallet. -/
theorem ConvertAndDeduct_wallet_not_found_witness :
    walletNumberRegex convertInsufficientRequest.SourceWalletNumber = true ∧
    0 < convertInsufficientRequest.AmountToConvert ∧
    rateOnlyStore.rates.getLast? = some ⟨1, 90⟩ ∧
    rateOnlyStore.balanceOf convertInsufficientRequest.SourceWalletNumber = none ∧
    (ConvertAndDeduct Faults.none rateOnlyStore convertInsufficientRequest).1.2 =
      some .ErrWalletNotFound ∧
    (ConvertAndDeduct Faults.none rateOnlyStore convertInsufficientRequest).2.wallets =
      rateOnlyStore.wallets :=
  have h1 : walletNumberRegex convertInsufficientRequest.SourceWalletNumber = true := by decide
  have h2 : 0 < convertInsufficientRequest.AmountToConvert := by decide!
  have h := ConvertAndDeduct_wallet_not_found Faults.none rateOnlyStore
    convertInsufficientRequest ⟨1, 90⟩ rfl rfl rfl h1 h2 rfl rfl
  ⟨h1, h2, rfl, rfl, h.2.1 rfl, h.2.2.2.1⟩

/-! ## ConvertAndDeduct: the checks made before the transaction -/

/-- C11: for a valid source wallet number and a quantity `q ≤ 0`,
`ConvertAndDeduct` fails with the error of text "сумма для конвертации должна
быть положительной"; the store and its call log are returned untouched, so no
rate was read and no transaction was begun. -/
theorem ConvertAndDeduct_nonpositive_amount (f : Faults) (db : DBState) (req : ConvertRequest)
    (hn : walletNumberRegex req.SourceWalletNumber = true) (hq : req.AmountToConvert ≤ 0) :
    ConvertAndDeduct f db req =
      ((⟨"", 0, 0, 0, "сумма для конвертации должна быть положительной"⟩,
        some (.errorsNew "сумма для конвертации должна быть положительной")), db) ∧
    (ConvertAndDeduct f db req).2.calls = db.calls ∧
    (ConvertAndDeduct f db req).2.wallets = db.wallets ∧
    (ConvertAndDeduct f db req).2.rates = db.rates := by
  have he : ConvertAndDeduct f db req =
      ((⟨"", 0, 0, 0, "сумма для конвертации должна быть положительной"⟩,
        some (.errorsNew "сумма для конвертации должна быть положительной")), db) := by
    simp [ConvertAndDeduct, hn, hq, GoError.Error]
  rw [he]
  exact ⟨rfl, rfl, rfl, rfl⟩

/-- C12: for a valid conversion request (valid wallet number, quantity `q > 0`)
on a store without any rate, `ConvertAndDeduct` returns `ErrRateNotAvailable`;
the only call made is the rate read on the database handle: no transaction is
begun, no wallet row is read or locked, and both tables are unchanged. -/
theorem ConvertAndDeduct_no_rate (f : Faults) (db : DBState) (req : ConvertRequest)
    (hn : walletNumberRegex req.SourceWalletNumber = true) (hq : 0 < req.AmountToConvert)
    (hr : db.rates = []) :
    (ConvertAndDeduct f db req).1.2 = some .ErrRateNotAvailable ∧
    (ConvertAndDeduct f db req).1.1 =
      ⟨req.SourceWalletNumber, 0, 0, 0, "не удалось получить актуальный курс валют"⟩ ∧
    (ConvertAndDeduct f db req).2.calls = db.calls ++ [.GetLatestRate] ∧
    (ConvertAndDeduct f db req).2.wallets = db.wallets ∧
    (ConvertAndDeduct f db req).2.rates = db.rates := by
  have hq0 : ¬ req.AmountToConvert ≤ 0 := Float64.not_le_of_lt _ _ hq
  cases hl : f.GetLatestRate <;>
    simp [ConvertAndDeduct, hn, hq0, GetLatestRate, hl, hr, GoError.Error, DBState.record]

/-! ## The transaction executor -/

/-- C13: once `BeginTx` has succeeded, `executeTx` runs the unit of work on the
transaction and then makes exactly one more call: `Commit` if and only if the
unit of work returned no error, `Rollback` if and only if it returned an
error; and when the unit of work returned `e` and the rollback succeeds,
`executeTx` returns `e` itself. -/
theorem executeTx_commit_xor_rollback {σ : Type} (f : Faults) (db : DBState) (vars : σ)
    (fn : DBState → σ → Option GoError × σ × DBState) (hb : f.BeginTx = none) :
    ∃ c, (executeTx f db vars fn).2.2.calls = (fn (db.record .BeginTx) vars).2.2.calls ++ [c] ∧
      (c = Call.Commit ↔ (fn (db.record .BeginTx) vars).1 = none) ∧
      (c = Call.Rollback ↔ (fn (db.record .BeginTx) vars).1 ≠ none) ∧
      ¬ (c = Call.Commit ∧ c = Call.Rollback) ∧
      (∀ e, (fn (db.record .BeginTx) vars).1 = some e → f.Rollback = none →
        (executeTx f db vars fn).1 = some e) := by
  unfold executeTx
  simp only [hb]
  rcases hr : fn (db.record .BeginTx) vars with ⟨err, v1, tx⟩
  cases err with
  | some e1 =>
    refine ⟨.Rollback, ?_, by simp, by simp, by simp, ?_⟩
    · cases f.Rollback <;> rfl
    · intro e he hrb
      simp only [Option.some.injEq] at he
      subst he
      simp [hrb]
  | none =>
    refine ⟨.Commit, ?_, by simp, by simp, by simp, ?_⟩
    · cases f.Commit <;> rfl
    · intro e he
      cases he

theorem executeTx_nil_inv {σ : Type} (f : Faults) (db : DBState) (vars : σ)
    (fn : DBState → σ → Option GoError × σ × DBState)
    (h : (executeTx f db vars fn).1 = none) :
    f.BeginTx = none ∧ f.Commit = none ∧ (fn (db.record .BeginTx) vars).1 = none ∧
    executeTx f db vars fn =
      (none, (fn (db.record .BeginTx) vars).2.1,
        ⟨(fn (db.record .BeginTx) vars).2.2.wallets, (fn (db.record .BeginTx) vars).2.2.rates,
          (fn (db.record .BeginTx) vars).2.2.calls ++ [.Commit]⟩) := by
  unfold executeTx at h ⊢
  cases hb : f.BeginTx with
  | some d => simp [hb] at h
  | none =>
    simp only [hb] at h ⊢
    rcases hr : fn (db.record .BeginTx) vars with ⟨err, v1, tx⟩
    rw [hr] at h
    cases err with
    | some e1 => cases hrb : f.Rollback <;> simp [hrb] at h
    | none =>
      cases hc : f.Commit with
      | some d => simp [hc] at h
      | none => simp

theorem executeTx_error_tables {σ : Type} (f : Faults) (db : DBState) (vars : σ)
    (fn : DBState → σ → Option GoError × σ × DBState) (e : GoError)
    (h : (executeTx f db vars fn).1 = some e) :
    (executeTx f db vars fn).2.2.wallets = db.wallets ∧
    (executeTx f db vars fn).2.2.rates = db.rates := by
  unfold executeTx at h ⊢
  cases hb : f.BeginTx with
  | some d => simp [DBState.record]
  | none =>
    simp only [hb] at h ⊢
    rcases hr : fn (db.record .BeginTx) vars with ⟨err, v1, tx⟩
    rw [hr] at h
    cases err with
    | some e1 => cases hrb : f.Rollback <;> simp [DBState.record]
    | none =>
      cases hc : f.Commit with
      | some d => simp [DBState.record]
      | none => simp [hc] at h

theorem UpdateWalletBalance_nil_inv (f : Faults) (db : DBState) (n : String) (b : Float64)
    (h : (UpdateWalletBalance f db n b).1 = none) :
    ∃ y, toREAL b = .ok y ∧
    UpdateWalletBalance f db n b =
      (none, ⟨setBalance db.wallets n y, db.rates, db.calls ++ [.UpdateWalletBalance n b]⟩) := by
  unfold UpdateWalletBalance at h ⊢
  cases hu : f.UpdateWalletBalance with
  | some d => simp [hu] at h
  | none =>
    cases hy : toREAL b with
    | error e => simp [hu, hy] at h
    | ok y =>
      refine ⟨y, rfl, ?_⟩
      cases hr : f.RowsAffected with
      | some d => simp [hu, hy, hr] at h
      | none =>
        simp only [hu, hy, hr] at h ⊢
        split at h
        · cases h
        · rename_i hlen
          simp [hlen, DBState.record]

theorem CreateWallet_nil_inv (f : Faults) (db : DBState) (w : Wallet)
    (h : (CreateWallet f db w).1 = none) :
    db.findWallet w.Number = none ∧ ∃ y, toREAL w.Balance = .ok y ∧
    CreateWallet f db w =
      (none, ⟨db.wallets ++ [⟨w.Number, y⟩], db.rates, db.calls ++ [.CreateWallet w]⟩) := by
  unfold CreateWallet at h ⊢
  cases hc : f.CreateWallet with
  | some d =>
    cases d with
    | pq code m =>
      simp only [hc] at h
      split at h <;> cases h
    | other m => simp [hc] at h
  | none =>
    cases hy : toREAL w.Balance with
    | error e => simp [hc, hy] at h
    | ok y =>
      cases hw : db.findWallet w.Number with
      | some v => simp [hc, hy, hw] at h
      | none => exact ⟨rfl, y, rfl, by simp [hc, hy, hw, DBState.record]⟩

theorem GetWalletByNumberForUpdate_ok_inv (f : Faults) (tx : DBState) (n : String) (w : Wallet)
    (tx1 : DBState) (h : GetWalletByNumberForUpdate f tx n = (.ok w, tx1)) :
    tx.findWallet n = some w ∧ tx1 = tx.record (.GetWalletByNumberForUpdate n) := by
  unfold GetWalletByNumberForUpdate at h
  cases hg : f.GetWalletByNumberForUpdate with
  | some d => simp [hg] at h
  | none =>
    cases hw : tx.findWallet n with
    | none => simp [hg, hw] at h
    | some v =>
      simp only [hg, hw, Prod.mk.injEq, Except.ok.injEq] at h
      exact ⟨by rw [h.1], h.2.symm⟩

theorem GetWalletByNumberForUpdate_no_rows_inv (f : Faults) (tx : DBState) (n : String)
    (e : GoError) (tx1 : DBState) (h : GetWalletByNumberForUpdate f tx n = (.error e, tx1))
    (he : errorsIs e .sqlErrNoRows = true) :
    tx.findWallet n = none ∧ tx1 = tx.record (.GetWalletByNumberForUpdate n) := by
  unfold GetWalletByNumberForUpdate at h
  cases hg : f.GetWalletByNumberForUpdate with
  | some d =>
    simp only [hg, Prod.mk.injEq, Except.error.injEq] at h
    rw [← h.1] at he
    simp [errorsIs] at he
  | none =>
    cases hw : tx.findWallet n with
    | none =>
      simp only [hg, hw, Prod.mk.injEq] at h
      exact ⟨rfl, h.2.symm⟩
    | some v => simp [hg, hw] at h

theorem updateBalanceTx_nil_inv (f : Faults) (req : UpdateBalanceRequest) (tx : DBState)
    (vars : Float64 × String) (h : (updateBalanceTx f req tx vars).1 = none) :
    (tx.findWallet req.WalletNumber = none ∧ ¬ req.Amount ≤ 0 ∧
      ∃ y, toREAL req.Amount = .ok y ∧
      updateBalanceTx f req tx vars =
        (none, (req.Amount, "Кошелек успешно создан"),
          ⟨tx.wallets ++ [⟨req.WalletNumber, y⟩], tx.rates,
            tx.calls ++ [.GetWalletByNumberForUpdate req.WalletNumber,
              .CreateWallet ⟨req.WalletNumber, req.Amount⟩]⟩)) ∨
    (∃ w y, tx.findWallet req.WalletNumber = some w ∧ ¬ w.Balance + req.Amount < 0 ∧
      toREAL (w.Balance + req.Amount) = .ok y ∧
      updateBalanceTx f req tx vars =
        (none,
          (w.Balance + req.Amount,
            if 0 ≤ req.Amount then "Баланс успешно пополнен" else "Списание успешно выполнено"),
          ⟨setBalance tx.wallets req.WalletNumber y, tx.rates,
            tx.calls ++ [.GetWalletByNumberForUpdate req.WalletNumber,
              .UpdateWalletBalance req.WalletNumber (w.Balance + req.Amount)]⟩)) := by
  unfold updateBalanceTx at h ⊢
  rcases hg : GetWalletByNumberForUpdate f tx req.WalletNumber with ⟨res, tx1⟩
  rw [hg] at h
  cases res with
  | error err =>
    left
    by_cases hno : errorsIs err .sqlErrNoRows = true
    swap
    · simp [hno] at h
    obtain ⟨hw, rfl⟩ := GetWalletByNumberForUpdate_no_rows_inv f tx _ err tx1 hg hno
    by_cases hA : req.Amount ≤ 0
    · simp [hno, hA] at h
    simp only [hno, hA, if_true, if_false] at h ⊢
    rcases hcw : CreateWallet f (tx.record (.GetWalletByNumberForUpdate req.WalletNumber))
      ⟨req.WalletNumber, req.Amount⟩ with ⟨ce, tx2⟩
    rw [hcw] at h
    cases ce with
    | some createErr =>
      simp only [] at h
      split at h <;> cases h
    | none =>
      have hinv := CreateWallet_nil_inv f (tx.record (.GetWalletByNumberForUpdate req.WalletNumber))
        ⟨req.WalletNumber, req.Amount⟩ (by rw [hcw])
      obtain ⟨_, y, hy, heq⟩ := hinv
      rw [hcw] at heq
      simp only [Prod.mk.injEq, true_and] at heq
      refine ⟨hw, not_false, y, hy, ?_⟩
      rw [heq]
      simp [DBState.record]
  | ok wallet =>
    right
    obtain ⟨hw, rfl⟩ := GetWalletByNumberForUpdate_ok_inv f tx _ wallet tx1 hg
    by_cases hlt : wallet.Balance + req.Amount < 0
    · simp [hlt] at h
    simp only [hlt, if_false] at h ⊢
    rcases huw : UpdateWalletBalance f (tx.record (.GetWalletByNumberForUpdate req.WalletNumber))
      req.WalletNumber (wallet.Balance + req.Amount) with ⟨ue, tx2⟩
    rw [huw] at h
    cases ue with
    | some updateErr => cases h
    | none =>
      obtain ⟨y, hy, hinv⟩ := UpdateWalletBalance_nil_inv f
        (tx.record (.GetWalletByNumberForUpdate req.WalletNumber)) req.WalletNumber
        (wallet.Balance + req.Amount) (by rw [huw])
      rw [huw] at hinv
      simp only [Prod.mk.injEq, true_and] at hinv
      refine ⟨wallet, y, hw, hlt, hy, ?_⟩
      rw [hinv]
      simp [DBState.record]

theorem UpdateBalance_nil_inv (f : Faults) (db : DBState) (req : UpdateBalanceRequest)
    (h : (UpdateBalance f db req).1.2 = none) :
    walletNumberRegex req.WalletNumber = true ∧ f.Commit = none ∧
    ((db.findWallet req.WalletNumber = none ∧ ¬ req.Amount ≤ 0 ∧
      ∃ y, toREAL req.Amount = .ok y ∧
      UpdateBalance f db req =
        ((⟨req.WalletNumber, req.Amount, "Кошелек успешно создан"⟩, none),
          ⟨db.wallets ++ [⟨req.WalletNumber, y⟩], db.rates,
            db.calls ++ [.BeginTx, .GetWalletByNumberForUpdate req.WalletNumber,
              .CreateWallet ⟨req.WalletNumber, req.Amount⟩, .Commit]⟩)) ∨
    (∃ w y, db.findWallet req.WalletNumber = some w ∧ ¬ w.Balance + req.Amount < 0 ∧
      toREAL (w.Balance + req.Amount) = .ok y ∧
      UpdateBalance f db req =
        ((⟨req.WalletNumber, w.Balance + req.Amount,
            if 0 ≤ req.Amount then "Баланс успешно пополнен"
            else "Списание успешно выполнено"⟩, none),
          ⟨setBalance db.wallets req.WalletNumber y, db.rates,
            db.calls ++ [.BeginTx, .GetWalletByNumberForUpdate req.WalletNumber,
              .UpdateWalletBalance req.WalletNumber (w.Balance + req.Amount), .Commit]⟩))) := by
  by_cases hn : walletNumberRegex req.WalletNumber = true
  swap
  · simp [UpdateBalance, hn] at h
  have hx : (executeTx f db ((0 : Float64), "") (updateBalanceTx f req)).1 = none := by
    unfold UpdateBalance at h
    simp only [hn, Bool.not_true, Bool.false_eq_true, if_false] at h
    rcases hx : executeTx f db ((0 : Float64), "") (updateBalanceTx f req)
      with ⟨err, ⟨fb, msg⟩, db1⟩
    rw [hx] at h
    cases err with
    | some e => cases h
    | none => rfl
  obtain ⟨_, hc, hfn, heq⟩ :=
    executeTx_nil_inv f db ((0 : Float64), "") (updateBalanceTx f req) hx
  refine ⟨hn, hc, ?_⟩
  rcases updateBalanceTx_nil_inv f req (db.record .BeginTx) ((0 : Float64), "") hfn with
    ⟨hw, hA, y, hy, htx⟩ | ⟨w, y, hw, hsum, hy, htx⟩
  · left
    refine ⟨hw, hA, y, hy, ?_⟩
    rw [htx] at heq
    unfold UpdateBalance
    simp only [hn, Bool.not_true, Bool.false_eq_true, if_false, heq]
    simp [DBState.record]
  · right
    refine ⟨w, y, hw, hsum, hy, ?_⟩
    rw [htx] at heq
    unfold UpdateBalance
    simp only [hn, Bool.not_true, Bool.false_eq_true, if_false, heq]
    simp [DBState.record]

theorem UpdateBalance_error_tables (f : Faults) (db : DBState) (req : UpdateBalanceRequest)
    (e : GoError) (h : (UpdateBalance f db req).1.2 = some e) :
    (UpdateBalance f db req).2.wallets = db.wallets ∧
    (UpdateBalance f db req).2.rates = db.rates := by
  by_cases hn : walletNumberRegex req.WalletNumber = true
  swap
  · simp [UpdateBalance, hn]
  unfold UpdateBalance at h ⊢
  simp only [hn, Bool.not_true, Bool.false_eq_true, if_false] at h ⊢
  rcases hx : executeTx f db ((0 : Float64), "") (updateBalanceTx f req)
    with ⟨err, ⟨fb, msg⟩, db1⟩
  rw [hx] at h
  cases err with
  | none => cases h
  | some e1 =>
    have ht := executeTx_error_tables f db ((0 : Float64), "") (updateBalanceTx f req) e1
      (by rw [hx])
    rw [hx] at ht
    exact ht

theorem filter_other_setBalance (rows : List Wallet) (n : String) (b : Float64) :
    (setBalance rows n b).filter (fun w => w.Number != n) =
      rows.filter (fun w => w.Number != n) := by
  induction rows with
  | nil => rfl
  | cons w ws ih =>
    unfold setBalance at ih ⊢
    rw [List.map_cons]
    by_cases h : w.Number = n
    · simp only [List.filter_cons, h, beq_self_eq_true, if_true, bne_self_eq_false,
        Bool.false_eq_true, if_false]
      exact ih
    · have hne : (w.Number == n) = false := by simpa using h
      have hb : (w.Number != n) = true := by simp [bne, hne]
      simp only [List.filter_cons, hne, Bool.false_eq_true, if_false, hb, if_true]
      rw [ih]

theorem filter_other_append (rows : List Wallet) (n : String) (b : Float64) :
    (rows ++ [(⟨n, b⟩ : Wallet)]).filter (fun w => w.Number != n) =
      rows.filter (fun w => w.Number != n) := by
  simp [List.filter_append]

theorem setBalance_length (rows : List Wallet) (n : String) (b : Float64) :
    (setBalance rows n b).length = rows.length := by
  simp [setBalance]

/-- C15: a call of `UpdateBalance` on wallet number `n` that succeeds makes
exactly one write between the begin, the locked read and the commit, either
the insert of a row for `n`, appended to the table, or the update of the
balance in the row of `n`; the rows of all other wallet numbers and the rate
table are unchanged.  A call that fails, on whatever path and under whatever
storage fault, leaves both tables identical to the prior ones. -/
theorem UpdateBalance_frame (f : Faults) (db : DBState) (req : UpdateBalanceRequest) :
    ((UpdateBalance f db req).1.2 = none →
      ((∃ y, (UpdateBalance f db req).2.wallets = db.wallets ++ [⟨req.WalletNumber, y⟩] ∧
          db.findWallet req.WalletNumber = none ∧
          (UpdateBalance f db req).2.calls =
            db.calls ++ [.BeginTx, .GetWalletByNumberForUpdate req.WalletNumber,
              .CreateWallet ⟨req.WalletNumber, req.Amount⟩, .Commit]) ∨
        (∃ w y, db.findWallet req.WalletNumber = some w ∧
          (UpdateBalance f db req).2.wallets = setBalance db.wallets req.WalletNumber y ∧
          (UpdateBalance f db req).2.wallets.length = db.wallets.length ∧
          (UpdateBalance f db req).2.calls =
            db.calls ++ [.BeginTx, .GetWalletByNumberForUpdate req.WalletNumber,
              .UpdateWalletBalance req.WalletNumber (w.Balance + req.Amount), .Commit])) ∧
      (UpdateBalance f db req).2.wallets.filter (fun w => w.Number != req.WalletNumber) =
        db.wallets.filter (fun w => w.Number != req.WalletNumber) ∧
      (UpdateBalance f db req).2.rates = db.rates) ∧
    (∀ e, (UpdateBalance f db req).1.2 = some e →
      (UpdateBalance f db req).2.wallets = db.wallets ∧
      (UpdateBalance f db req).2.rates = db.rates) := by
  refine ⟨?_, fun e he => UpdateBalance_error_tables f db req e he⟩
  intro hok
  obtain ⟨_, _, hcases⟩ := UpdateBalance_nil_inv f db req hok
  rcases hcases with ⟨hw, _, y, hy, heq⟩ | ⟨w, y, hw, _, hy, heq⟩
  · rw [heq]
    exact ⟨Or.inl ⟨y, rfl, hw, rfl⟩, filter_other_append _ _ _, rfl⟩
  · rw [heq]
    exact ⟨Or.inr ⟨w, y, hw, rfl, setBalance_length _ _ _, rfl⟩,
      filter_other_setBalance _ _ _, rfl⟩

theorem GetLatestRate_ok_inv (f : Faults) (db : DBState) (rate : Rate) (db1 : DBState)
    (h : GetLatestRate f db = (.ok rate, db1)) :
    db.rates.getLast? = some rate ∧ db1 = db.record .GetLatestRate := by
  unfold GetLatestRate at h
  cases hl : f.GetLatestRate with
  | some d => simp [hl] at h
  | none =>
    cases hr : db.rates.getLast? with
    | none => simp [hl, hr] at h
    | some r =>
      simp only [hl, hr, Prod.mk.injEq, Except.ok.injEq] at h
      exact ⟨by rw [h.1], h.2.symm⟩

theorem convertAndDeductTx_nil_inv (f : Faults) (req : ConvertRequest) (d : Float64)
    (tx : DBState) (resp : ConvertResponse) (h : (convertAndDeductTx f req d tx resp).1 = none) :
    ∃ w y, tx.findWallet req.SourceWalletNumber = some w ∧ ¬ w.Balance < d ∧
      toREAL (w.Balance - d) = .ok y ∧
      convertAndDeductTx f req d tx resp =
        (none,
          ⟨resp.SourceWalletNumber, w.Balance - d, resp.ConvertedAmount, resp.RateUsed,
            "Конвертация и списание прошли успешно"⟩,
          ⟨setBalance tx.wallets req.SourceWalletNumber y, tx.rates,
            tx.calls ++ [.GetWalletByNumberForUpdate req.SourceWalletNumber,
              .UpdateWalletBalance req.SourceWalletNumber (w.Balance - d)]⟩) := by
  unfold convertAndDeductTx at h ⊢
  rcases hg : GetWalletByNumberForUpdate f tx req.SourceWalletNumber with ⟨res, tx1⟩
  rw [hg] at h
  cases res with
  | error err =>
    simp only [] at h
    split at h <;> cases h
  | ok wallet =>
    obtain ⟨hw, rfl⟩ := GetWalletByNumberForUpdate_ok_inv f tx _ wallet tx1 hg
    by_cases hlt : wallet.Balance < d
    · simp [hlt] at h
    simp only [hlt, if_false] at h ⊢
    rcases huw : UpdateWalletBalance f
      (tx.record (.GetWalletByNumberForUpdate req.SourceWalletNumber))
      req.SourceWalletNumber (wallet.Balance - d) with ⟨ue, tx2⟩
    rw [huw] at h
    cases ue with
    | some updateErr => cases h
    | none =>
      obtain ⟨y, hy, hinv⟩ := UpdateWalletBalance_nil_inv f
        (tx.record (.GetWalletByNumberForUpdate req.SourceWalletNumber)) req.SourceWalletNumber
        (wallet.Balance - d) (by rw [huw])
      rw [huw] at hinv
      simp only [Prod.mk.injEq, true_and] at hinv
      refine ⟨wallet, y, hw, hlt, hy, ?_⟩
      rw [hinv]
      simp [DBState.record]

theorem ConvertAndDeduct_nil_inv (f : Faults) (db : DBState) (req : ConvertRequest)
    (h : (ConvertAndDeduct f db req).1.2 = none) :
    walletNumberRegex req.SourceWalletNumber = true ∧ ¬ req.AmountToConvert ≤ 0 ∧
    f.Commit = none ∧
    ∃ rate w y, db.rates.getLast? = some rate ∧
      db.findWallet req.SourceWalletNumber = some w ∧
      ¬ w.Balance < req.AmountToConvert * rate.Value ∧
      toREAL (w.Balance - req.AmountToConvert * rate.Value) = .ok y ∧
      ConvertAndDeduct f db req =
        ((⟨req.SourceWalletNumber, w.Balance - req.AmountToConvert * rate.Value,
            req.AmountToConvert * rate.Value, rate.Value,
            "Конвертация и списание прошли успешно"⟩, none),
          ⟨setBalance db.wallets req.SourceWalletNumber y, db.rates,
            db.calls ++ [.GetLatestRate, .BeginTx,
              .GetWalletByNumberForUpdate req.SourceWalletNumber,
              .UpdateWalletBalance req.SourceWalletNumber
                (w.Balance - req.AmountToConvert * rate.Value), .Commit]⟩) := by
  by_cases hn : walletNumberRegex req.SourceWalletNumber = true
  swap
  · simp [ConvertAndDeduct, hn] at h
  by_cases hq0 : req.AmountToConvert ≤ 0
  · simp [ConvertAndDeduct, hn, hq0] at h
  rcases hg : GetLatestRate f db with ⟨res, db1⟩
  cases res with
  | error e => simp [ConvertAndDeduct, hn, hq0, hg] at h
  | ok latestRate =>
    obtain ⟨hrate, rfl⟩ := GetLatestRate_ok_inv f db latestRate db1 hg
    unfold ConvertAndDeduct at h
    simp only [hn, hq0, hg, Bool.not_true, Bool.false_eq_true, if_false] at h
    rcases hx : executeTx f (db.record .GetLatestRate)
      (⟨req.SourceWalletNumber, 0, req.AmountToConvert * latestRate.Value,
        latestRate.Value, ""⟩ : ConvertResponse)
      (convertAndDeductTx f req (req.AmountToConvert * latestRate.Value))
      with ⟨err, resp, db2⟩
    rw [hx] at h
    cases err with
    | some e => cases h
    | none =>
      obtain ⟨_, hc, hfn, _⟩ := executeTx_nil_inv f (db.record .GetLatestRate) _ _
        (by rw [hx])
      obtain ⟨w, _, hw, hle, _, _⟩ := convertAndDeductTx_nil_inv f req _ _ _ hfn
      obtain ⟨y, hy, heq⟩ := ConvertAndDeduct_of_nil_eq f db req w latestRate hrate hw
        (by unfold ConvertAndDeduct
            simp only [hn, hq0, hg, Bool.not_true, Bool.false_eq_true, if_false, hx])
      exact ⟨hn, hq0, hc, latestRate, w, y, hrate, hw, hle, hy, heq⟩

/-- C16 (as amended): whenever `UpdateBalance` or `ConvertAndDeduct` returns a
nil error, `Commit` succeeded and is the last call made, and the balance
stored for that wallet in the committed table is what the `REAL` column keeps
of the balance reported in the response (`NewBalance`, `RemainingBalance`);
when `Commit` fails, both return an error. -/
theorem nil_error_means_committed (f : Faults) (db : DBState) (ureq : UpdateBalanceRequest)
    (creq : ConvertRequest) :
    ((UpdateBalance f db ureq).1.2 = none →
      f.Commit = none ∧ (UpdateBalance f db ureq).2.calls.getLast? = some .Commit ∧
      ∃ y, toREAL (UpdateBalance f db ureq).1.1.NewBalance = .ok y ∧
        (UpdateBalance f db ureq).2.balanceOf ureq.WalletNumber = some y) ∧
    ((ConvertAndDeduct f db creq).1.2 = none →
      f.Commit = none ∧ (ConvertAndDeduct f db creq).2.calls.getLast? = some .Commit ∧
      ∃ y, toREAL (ConvertAndDeduct f db creq).1.1.RemainingBalance = .ok y ∧
        (ConvertAndDeduct f db creq).2.balanceOf creq.SourceWalletNumber = some y) ∧
    (f.Commit ≠ none →
      (UpdateBalance f db ureq).1.2 ≠ none ∧ (ConvertAndDeduct f db creq).1.2 ≠ none) := by
  have hu : (UpdateBalance f db ureq).1.2 = none →
      f.Commit = none ∧ (UpdateBalance f db ureq).2.calls.getLast? = some .Commit ∧
      ∃ y, toREAL (UpdateBalance f db ureq).1.1.NewBalance = .ok y ∧
        (UpdateBalance f db ureq).2.balanceOf ureq.WalletNumber = some y := by
    intro hok
    obtain ⟨_, hc, hcases⟩ := UpdateBalance_nil_inv f db ureq hok
    rcases hcases with ⟨hw, _, y, hy, heq⟩ | ⟨w, y, hw, _, hy, heq⟩
    · rw [heq]
      exact ⟨hc, by simp, y, hy, balanceOf_append_fresh _ _ _ _ _ hw⟩
    · rw [heq]
      exact ⟨hc, by simp, y, hy, balanceOf_setBalance _ _ _ _ _ w hw⟩
  have hcv : (ConvertAndDeduct f db creq).1.2 = none →
      f.Commit = none ∧ (ConvertAndDeduct f db creq).2.calls.getLast? = some .Commit ∧
      ∃ y, toREAL (ConvertAndDeduct f db creq).1.1.RemainingBalance = .ok y ∧
        (ConvertAndDeduct f db creq).2.balanceOf creq.SourceWalletNumber = some y := by
    intro hok
    obtain ⟨_, _, hc, rate, w, y, _, hw, _, hy, heq⟩ := ConvertAndDeduct_nil_inv f db creq hok
    rw [heq]
    exact ⟨hc, by simp, y, hy, balanceOf_setBalance _ _ _ _ _ w hw⟩
  exact ⟨hu, hcv, fun hne => ⟨fun hok => hne (hu hok).1, fun hok => hne (hcv hok).1⟩⟩

/-! ## Lemmas on errors.Is -/

theorem errorsIs_errorf_leaf (p : String) (i t : GoError) (ht : ∀ q j, t ≠ .errorf q j) :
    errorsIs (.errorf p i) t = errorsIs i t := by
  have hne : ¬ GoError.errorf p i = t := fun hh => ht p i hh.symm
  simp [errorsIs, hne]

theorem errorsIs_leaf_unique (e t1 t2 : GoError) (h1 : ∀ q j, t1 ≠ .errorf q j)
    (h2 : ∀ q j, t2 ≠ .errorf q j) (he1 : errorsIs e t1 = true) (he2 : errorsIs e t2 = true) :
    t1 = t2 := by
  induction e with
  | errorf p i ih =>
    rw [errorsIs_errorf_leaf p i t1 h1] at he1
    rw [errorsIs_errorf_leaf p i t2 h2] at he2
    exact ih he1 he2
  | _ =>
    simp only [errorsIs, decide_eq_true_eq] at he1 he2
    rw [← he1, ← he2]

theorem errorsIs_leaf_last_char (e t : GoError) (c : Char) (ht : ∀ q j, t ≠ .errorf q j)
    (hc : t.Error.data.getLast? = some c) (he : errorsIs e t = true) :
    e.Error.data.getLast? = some c := by
  induction e with
  | errorf p i ih =>
    rw [errorsIs_errorf_leaf p i t ht] at he
    have hi := ih he
    simp only [GoError.Error, String.data_append, List.getLast?_append, hi]
    rfl
  | _ =>
    simp only [errorsIs, decide_eq_true_eq] at he
    rw [he]
    exact hc

/-! ## The errors of UpdateBalance -/

theorem UpdateWalletBalance_error_not_leaf (f : Faults) (db : DBState) (n : String) (b : Float64)
    (e t : GoError) (h : (UpdateWalletBalance f db n b).1 = some e)
    (ht2 : ∀ p i, t ≠ .errorf p i) (ht3 : ∀ d, t ≠ .driver d) (ht4 : t ≠ .sqlErrNoRows) :
    errorsIs e t = false := by
  unfold UpdateWalletBalance at h
  simp only [] at h
  split at h
  · simp only [Option.some.injEq] at h
    subst h
    simp only [errorsIs, Bool.or_eq_false_iff, decide_eq_false_iff_not]
    exact ⟨fun hh => ht2 _ _ hh.symm, fun hh => ht3 _ hh.symm⟩
  · split at h
    · simp only [Option.some.injEq] at h
      subst h
      simp only [errorsIs, Bool.or_eq_false_iff, decide_eq_false_iff_not]
      exact ⟨fun hh => ht2 _ _ hh.symm, fun hh => ht3 _ hh.symm⟩
    · split at h
      · simp only [Option.some.injEq] at h
        subst h
        simp only [errorsIs, Bool.or_eq_false_iff, decide_eq_false_iff_not]
        exact ⟨fun hh => ht2 _ _ hh.symm, fun hh => ht3 _ hh.symm⟩
      · split at h
        · simp only [Option.some.injEq] at h
          subst h
          simpa [errorsIs] using fun hh => ht4 hh.symm
        · cases h

theorem updateBalanceTx_error_not_leaf (f : Faults) (req : UpdateBalanceRequest)
    (tx : DBState) (vars : Float64 × String) (e t : GoError)
    (h : (updateBalanceTx f req tx vars).1 = some e)
    (ht1 : ∀ m, t ≠ .errorsNew m) (ht2 : ∀ p i, t ≠ .errorf p i) (ht3 : ∀ d, t ≠ .driver d)
    (ht4 : t ≠ .sqlErrNoRows) (ht5 : t ≠ .ErrWithdrawNonExistent)
    (ht6 : t ≠ .ErrInsufficientFunds) : errorsIs e t = false := by
  unfold updateBalanceTx at h
  rcases hg : GetWalletByNumberForUpdate f tx req.WalletNumber with ⟨res, tx1⟩
  rw [hg] at h
  cases res with
  | error err =>
    have hshape := GetWalletByNumberForUpdate_error f tx req.WalletNumber err tx1 hg
    simp only [] at h
    split at h
    · split at h
      · simp only [Option.some.injEq] at h
        subst h
        simpa [errorsIs] using fun hh => ht5 hh.symm
      · rcases hcw : CreateWallet f tx1 ⟨req.WalletNumber, req.Amount⟩ with ⟨ce, tx2⟩
        rw [hcw] at h
        cases ce with
        | none => cases h
        | some createErr =>
          have hce := CreateWallet_error_not_sentinel f tx1 ⟨req.WalletNumber, req.Amount⟩
            createErr t (by rw [hcw]) ht1 ht2 ht3
          simp only [] at h
          split at h
          · simp only [Option.some.injEq] at h
            subst h
            simpa [errorsIs] using fun hh => ht1 _ hh.symm
          · simp only [Option.some.injEq] at h
            subst h
            rw [errorsIs_errorf_leaf _ _ t ht2]
            exact hce
    · simp only [Option.some.injEq] at h
      subst h
      rw [errorsIs_errorf_leaf _ _ t ht2]
      rcases hshape with rfl | ⟨d, rfl⟩
      · simpa [errorsIs] using fun hh => ht4 hh.symm
      · simpa [errorsIs] using fun hh => ht3 _ hh.symm
  | ok wallet =>
    simp only [] at h
    split at h
    · simp only [Option.some.injEq] at h
      subst h
      simpa [errorsIs] using fun hh => ht6 hh.symm
    · rcases huw : UpdateWalletBalance f tx1 req.WalletNumber (wallet.Balance + req.Amount)
        with ⟨ue, tx2⟩
      rw [huw] at h
      cases ue with
      | none => cases h
      | some updateErr =>
        have hue := UpdateWalletBalance_error_not_leaf f tx1 req.WalletNumber
          (wallet.Balance + req.Amount) updateErr t (by rw [huw]) ht2 ht3 ht4
        simp only [Option.some.injEq] at h
        subst h
        rw [errorsIs_errorf_leaf _ _ t ht2]
        exact hue

theorem UpdateBalance_error_not_negative_deposit (f : Faults) (db : DBState)
    (req : UpdateBalanceRequest) (e : GoError) (h : (UpdateBalance f db req).1.2 = some e) :
    errorsIs e .ErrNegativeDeposit = false := by
  unfold UpdateBalance at h
  split at h
  · simp only [Option.some.injEq] at h
    subst h
    simp [errorsIs]
  · rcases hx : executeTx f db ((0 : Float64), "") (updateBalanceTx f req) with ⟨err, ⟨fb, msg⟩, db1⟩
    rw [hx] at h
    cases err with
    | none => cases h
    | some e1 =>
      simp only [Option.some.injEq] at h
      subst h
      exact executeTx_error_not f db ((0 : Float64), "") (updateBalanceTx f req) .ErrNegativeDeposit
        e1 (by intro p i hh; cases hh) (by intro d hh; cases hh)
        (fun tx v e2 he2 => updateBalanceTx_error_not_leaf f req tx v e2 .ErrNegativeDeposit he2
          (by intro m hh; cases hh) (by intro p i hh; cases hh) (by intro d hh; cases hh)
          (by intro hh; cases hh) (by intro hh; cases hh) (by intro hh; cases hh))
        (by rw [hx])

theorem executeTx_error_leaf_inv {σ : Type} (f : Faults) (db : DBState) (vars : σ)
    (fn : DBState → σ → Option GoError × σ × DBState) (t e : GoError)
    (ht2 : ∀ p i, t ≠ .errorf p i) (ht3 : ∀ d, t ≠ .driver d)
    (h : (executeTx f db vars fn).1 = some e) (he : errorsIs e t = true) :
    ∃ e1, (fn (db.record .BeginTx) vars).1 = some e1 ∧ errorsIs e1 t = true ∧
      (executeTx f db vars fn).2.1 = (fn (db.record .BeginTx) vars).2.1 := by
  unfold executeTx at h ⊢
  cases hb : f.BeginTx with
  | some d =>
    simp only [hb, Option.some.injEq] at h
    subst h
    rw [errorsIs_errorf_leaf _ _ t ht2] at he
    simp only [errorsIs, decide_eq_true_eq] at he
    exact absurd he.symm (ht3 d)
  | none =>
    simp only [hb] at h ⊢
    rcases hr : fn (db.record .BeginTx) vars with ⟨err, v1, tx⟩
    rw [hr] at h
    cases err with
    | some e1 =>
      cases hrb : f.Rollback with
      | some d =>
        simp only [hrb, Option.some.injEq] at h
        subst h
        rw [errorsIs_errorf_leaf _ _ t ht2] at he
        exact ⟨e1, rfl, he, rfl⟩
      | none =>
        simp only [hrb, Option.some.injEq] at h
        subst h
        exact ⟨e1, rfl, he, rfl⟩
    | none =>
      cases hc : f.Commit with
      | some d =>
        simp only [hc, Option.some.injEq] at h
        subst h
        rw [errorsIs_errorf_leaf _ _ t ht2] at he
        simp only [errorsIs, decide_eq_true_eq] at he
        exact absurd he.symm (ht3 d)
      | none => simp [hc] at h

theorem updateBalanceTx_insufficient_inv (f : Faults) (req : UpdateBalanceRequest)
    (tx : DBState) (vars : Float64 × String) (e : GoError)
    (h : (updateBalanceTx f req tx vars).1 = some e)
    (he : errorsIs e .ErrInsufficientFunds = true) :
    ∃ w, tx.findWallet req.WalletNumber = some w ∧ w.Balance + req.Amount < 0 ∧
      (updateBalanceTx f req tx vars).2.1.1 = w.Balance := by
  unfold updateBalanceTx at h ⊢
  rcases hg : GetWalletByNumberForUpdate f tx req.WalletNumber with ⟨res, tx1⟩
  rw [hg] at h
  cases res with
  | error err =>
    exfalso
    have hshape := GetWalletByNumberForUpdate_error f tx req.WalletNumber err tx1 hg
    simp only [] at h
    split at h
    · split at h
      · simp only [Option.some.injEq] at h
        subst h
        simp [errorsIs] at he
      · rcases hcw : CreateWallet f tx1 ⟨req.WalletNumber, req.Amount⟩ with ⟨ce, tx2⟩
        rw [hcw] at h
        cases ce with
        | none => cases h
        | some createErr =>
          have hce := CreateWallet_error_not_sentinel f tx1 ⟨req.WalletNumber, req.Amount⟩
            createErr .ErrInsufficientFunds (by rw [hcw]) (by intro m hh; cases hh)
            (by intro p i hh; cases hh) (by intro d hh; cases hh)
          simp only [] at h
          split at h
          · simp only [Option.some.injEq] at h
            subst h
            simp [errorsIs] at he
          · simp only [Option.some.injEq] at h
            subst h
            simp [errorsIs, hce] at he
    · simp only [Option.some.injEq] at h
      subst h
      rcases hshape with rfl | ⟨d, rfl⟩ <;> simp [errorsIs] at he
  | ok wallet =>
    obtain ⟨hw, rfl⟩ := GetWalletByNumberForUpdate_ok_inv f tx _ wallet tx1 hg
    by_cases hlt : wallet.Balance + req.Amount < 0
    · exact ⟨wallet, hw, hlt, by simp [hlt]⟩
    · exfalso
      simp only [hlt, if_false] at h
      rcases huw : UpdateWalletBalance f
        (tx.record (.GetWalletByNumberForUpdate req.WalletNumber)) req.WalletNumber
        (wallet.Balance + req.Amount) with ⟨ue, tx2⟩
      rw [huw] at h
      cases ue with
      | none => cases h
      | some updateErr =>
        have hue := UpdateWalletBalance_error_not_leaf f _ req.WalletNumber
          (wallet.Balance + req.Amount) updateErr .ErrInsufficientFunds (by rw [huw])
          (by intro p i hh; cases hh) (by intro d hh; cases hh) (by intro hh; cases hh)
        simp only [Option.some.injEq] at h
        subst h
        simp [errorsIs, hue] at he

theorem UpdateBalance_insufficient_inv (f : Faults) (db : DBState) (req : UpdateBalanceRequest)
    (e : GoError) (h : (UpdateBalance f db req).1.2 = some e)
    (he : errorsIs e .ErrInsufficientFunds = true) :
    ∃ w, db.findWallet req.WalletNumber = some w ∧ w.Balance + req.Amount < 0 ∧
      (UpdateBalance f db req).1.1 =
        ⟨req.WalletNumber, w.Balance, "недостаточно средств на счете"⟩ := by
  by_cases hn : walletNumberRegex req.WalletNumber = true
  swap
  · simp only [UpdateBalance, hn, Bool.not_false, if_true, Option.some.injEq] at h
    subst h
    simp [errorsIs] at he
  unfold UpdateBalance at h ⊢
  simp only [hn, Bool.not_true, Bool.false_eq_true, if_false] at h ⊢
  rcases hx : executeTx f db ((0 : Float64), "") (updateBalanceTx f req) with ⟨err, ⟨fb, msg⟩, db1⟩
  rw [hx] at h
  cases err with
  | none => cases h
  | some e1 =>
    simp only [Option.some.injEq] at h
    subst h
    obtain ⟨e2, hfn, he2, hv⟩ := executeTx_error_leaf_inv f db ((0 : Float64), "")
      (updateBalanceTx f req) .ErrInsufficientFunds e1 (by intro p i hh; cases hh)
      (by intro d hh; cases hh) (by rw [hx]) he
    obtain ⟨w, hw, hlt, hbal⟩ := updateBalanceTx_insufficient_inv f req (db.record .BeginTx)
      ((0 : Float64), "") e2 hfn he2
    rw [hx] at hv
    simp only [] at hv
    rw [← hv] at hbal
    simp only [] at hbal
    refine ⟨w, hw, hlt, ?_⟩
    simp [he, hbal, GoError.Error]

/-! ## The HTTP boundary of the wallet service -/

theorem leaf_ErrInvalidWalletNumber : ∀ q j, GoError.ErrInvalidWalletNumber ≠ .errorf q j := by
  intro q j h; cases h

theorem leaf_ErrWithdrawNonExistent : ∀ q j, GoError.ErrWithdrawNonExistent ≠ .errorf q j := by
  intro q j h; cases h

theorem leaf_ErrInsufficientFunds : ∀ q j, GoError.ErrInsufficientFunds ≠ .errorf q j := by
  intro q j h; cases h

theorem leaf_ErrWalletNotFound : ∀ q j, GoError.ErrWalletNotFound ≠ .errorf q j := by
  intro q j h; cases h

theorem leaf_ErrRateNotAvailable : ∀ q j, GoError.ErrRateNotAvailable ≠ .errorf q j := by
  intro q j h; cases h

theorem errorsIs_false_of_other (e t1 t2 : GoError) (h1 : ∀ q j, t1 ≠ .errorf q j)
    (h2 : ∀ q j, t2 ≠ .errorf q j) (hne : t1 ≠ t2) (he : errorsIs e t1 = true) :
    errorsIs e t2 = false := by
  cases h : errorsIs e t2 with
  | false => rfl
  | true => exact absurd (errorsIs_leaf_unique e t1 t2 h1 h2 he h) hne

theorem Float64.isInfOrNaN_of_isFinite (x : Float64) (h : x.IsFinite) : x.isInfOrNaN = false := by
  obtain ⟨k, rfl, _⟩ := Float64.isFinite_cases x h
  rfl

theorem Float64.isInfOrNaN_of_inRangeREAL (x : Float64) (h : x.InRangeREAL) :
    x.isInfOrNaN = false := by
  obtain ⟨k, rfl, _⟩ := Float64.inRangeREAL_cases x h
  rfl

/-- The float64 sum of a stored balance and a decoded amount is finite. -/
theorem Float64.add_isInfOrNaN (b a : Float64) (hb : b.InRangeREAL) (ha : a.IsFinite) :
    (b + a).isInfOrNaN = false := by
  obtain ⟨kb, rfl, hkb⟩ := Float64.inRangeREAL_cases b hb
  obtain ⟨ka, rfl, hka⟩ := Float64.isFinite_cases a ha
  rw [Float64.finite_add]
  have hlt := roundMagnitude_sum_lt (kb + ka).natAbs (by omega)
  rw [Float64.ofUnits_finite_of_lt _ hlt]
  rfl

theorem writeJSONResponse_ErrorResponse (status : Nat) (r : ErrorResponse) :
    writeJSONResponse status (.ErrorResponse r) = ⟨status, some (.ErrorResponse r)⟩ := rfl

theorem writeJSONResponse_UpdateBalanceResponse (status : Nat) (r : UpdateBalanceResponse)
    (h : r.NewBalance.isInfOrNaN = false) :
    writeJSONResponse status (.UpdateBalanceResponse r) =
      ⟨status, some (.UpdateBalanceResponse r)⟩ := by
  simp [writeJSONResponse, Payload.encodable, h]

/-- C18: for a decoded request the handler of `POST /wallets/balance` leaves
the store as the service left it and answers according to the service result:
200 with the `UpdateBalanceResponse` when there is no error; 400 with the text
of the error when it matches `ErrInvalidWalletNumber` or
`ErrWithdrawNonExistent`; 409 with the `UpdateBalanceResponse`, which reports
the stored and unchanged balance, when it matches `ErrInsufficientFunds`; 500
with the opaque text for every other error.  The 200 and the 409 are written
by `writeJSONResponse`, and with the balances of the store in the range of
`REAL` and the finite amount of a decoded body, the body is written. -/
theorem WalletHandler_UpdateBalance_status (f : Faults) (db : DBState)
    (req : UpdateBalanceRequest) :
    (WalletHandler.UpdateBalance f db (.ok req)).2 = (UpdateBalance f db req).2 ∧
    ((UpdateBalance f db req).1.2 = none →
      (WalletHandler.UpdateBalance f db (.ok req)).1 =
        writeJSONResponse 200 (.UpdateBalanceResponse (UpdateBalance f db req).1.1) ∧
      (db.InRange → req.Amount.IsFinite →
        (WalletHandler.UpdateBalance f db (.ok req)).1 =
          ⟨200, some (.UpdateBalanceResponse (UpdateBalance f db req).1.1)⟩)) ∧
    (∀ e, (UpdateBalance f db req).1.2 = some e →
      ((errorsIs e .ErrInvalidWalletNumber = true ∨ errorsIs e .ErrWithdrawNonExistent = true) →
        (WalletHandler.UpdateBalance f db (.ok req)).1 =
          ⟨400, some (.ErrorResponse ⟨e.Error⟩)⟩) ∧
      (errorsIs e .ErrInsufficientFunds = true →
        (WalletHandler.UpdateBalance f db (.ok req)).1 =
          writeJSONResponse 409 (.UpdateBalanceResponse (UpdateBalance f db req).1.1) ∧
        (db.InRange →
          (WalletHandler.UpdateBalance f db (.ok req)).1 =
            ⟨409, some (.UpdateBalanceResponse (UpdateBalance f db req).1.1)⟩) ∧
        db.balanceOf req.WalletNumber = some (UpdateBalance f db req).1.1.NewBalance ∧
        (UpdateBalance f db req).2.wallets = db.wallets) ∧
      (errorsIs e .ErrInvalidWalletNumber = false → errorsIs e .ErrWithdrawNonExistent = false →
        errorsIs e .ErrInsufficientFunds = false →
        (WalletHandler.UpdateBalance f db (.ok req)).1 =
          ⟨500, some (.ErrorResponse ⟨"Внутренняя ошибка сервера"⟩)⟩)) := by
  have hneg := UpdateBalance_error_not_negative_deposit f db req
  have hinv := UpdateBalance_insufficient_inv f db req
  have htab := UpdateBalance_error_tables f db req
  have hnil := UpdateBalance_nil_inv f db req
  rcases hout : UpdateBalance f db req with ⟨⟨resp, err⟩, db1⟩
  rw [hout] at hneg hinv htab hnil
  simp only [] at hneg hinv htab hnil
  refine ⟨?_, ?_, ?_⟩
  · unfold WalletHandler.UpdateBalance
    simp only [hout]
    split <;> rfl
  · intro herr
    simp only [] at herr
    subst herr
    have hw : (WalletHandler.UpdateBalance f db (.ok req)).1 =
        writeJSONResponse 200 (.UpdateBalanceResponse resp) := by
      simp [WalletHandler.UpdateBalance, hout, StatusOK]
    refine ⟨hw, fun hr ha => ?_⟩
    rw [hw]
    apply writeJSONResponse_UpdateBalanceResponse
    obtain ⟨_, _, hcases⟩ := hnil rfl
    rcases hcases with ⟨_, _, y, _, heq⟩ | ⟨w, y, hfw, _, _, heq⟩
    · simp only [Prod.mk.injEq] at heq
      rw [heq.1.1]
      exact Float64.isInfOrNaN_of_isFinite _ ha
    · simp only [Prod.mk.injEq] at heq
      rw [heq.1.1]
      exact Float64.add_isInfOrNaN _ _ (hr.1 w (findWallet_mem db _ w hfw)) ha
  · intro e herr
    simp only [] at herr
    subst herr
    refine ⟨?_, ?_, ?_⟩
    · rintro (h1 | h2)
      · simp [WalletHandler.UpdateBalance, hout, writeJSONResponse, Payload.encodable,
          StatusOK, StatusBadRequest, StatusConflict, h1]
      · have h1 := errorsIs_false_of_other e _ _ leaf_ErrWithdrawNonExistent
          leaf_ErrInvalidWalletNumber (by intro hh; cases hh) h2
        simp [WalletHandler.UpdateBalance, hout, writeJSONResponse, Payload.encodable,
          StatusOK, StatusBadRequest, StatusConflict, h1, h2]
    · intro h3
      have h1 := errorsIs_false_of_other e _ _ leaf_ErrInsufficientFunds
        leaf_ErrInvalidWalletNumber (by intro hh; cases hh) h3
      have h2 := errorsIs_false_of_other e _ _ leaf_ErrInsufficientFunds
        leaf_ErrWithdrawNonExistent (by intro hh; cases hh) h3
      obtain ⟨w, hw, _, hresp⟩ := hinv e rfl h3
      have hwr : (WalletHandler.UpdateBalance f db (.ok req)).1 =
          writeJSONResponse 409 (.UpdateBalanceResponse resp) := by
        simp [WalletHandler.UpdateBalance, hout, StatusOK, StatusConflict, h1, h2, h3]
      refine ⟨hwr, fun hr => ?_, ?_, (htab e rfl).1⟩
      · rw [hwr]
        apply writeJSONResponse_UpdateBalanceResponse
        rw [hresp]
        exact Float64.isInfOrNaN_of_inRangeREAL _ (hr.1 w (findWallet_mem db _ w hw))
      · rw [hresp]
        simp [DBState.balanceOf, hw]
    · intro h1 h2 h3
      have h4 := hneg e rfl
      simp [WalletHandler.UpdateBalance, hout, writeJSONResponse, Payload.encodable,
        StatusOK, StatusBadRequest, StatusConflict, StatusInternalServerError, h1, h2, h3, h4]

theorem amount_text_last_char :
    ("сумма для конвертации должна быть положительной" : String).data.getLast? = some 'й' := by
  decide

theorem error_text_ne_amount_text (e t : GoError) (c : Char) (ht : ∀ q j, t ≠ .errorf q j)
    (hc : t.Error.data.getLast? = some c) (hne : c ≠ 'й') (he : errorsIs e t = true) :
    e.Error ≠ "сумма для конвертации должна быть положительной" := by
  intro heq
  have h1 := errorsIs_leaf_last_char e t c ht hc he
  rw [heq, amount_text_last_char] at h1
  simp only [Option.some.injEq] at h1
  exact hne h1.symm

theorem not_found_text_ne_amount_text (e : GoError) (he : errorsIs e .ErrWalletNotFound = true) :
    e.Error ≠ "сумма для конвертации должна быть положительной" :=
  error_text_ne_amount_text e .ErrWalletNotFound 'н' leaf_ErrWalletNotFound (by decide)
    (by decide) he

theorem insufficient_text_ne_amount_text (e : GoError)
    (he : errorsIs e .ErrInsufficientFunds = true) :
    e.Error ≠ "сумма для конвертации должна быть положительной" :=
  error_text_ne_amount_text e .ErrInsufficientFunds 'е' leaf_ErrInsufficientFunds (by decide)
    (by decide) he

theorem rate_text_ne_amount_text (e : GoError) (he : errorsIs e .ErrRateNotAvailable = true) :
    e.Error ≠ "сумма для конвертации должна быть положительной" :=
  error_text_ne_amount_text e .ErrRateNotAvailable 'т' leaf_ErrRateNotAvailable (by decide)
    (by decide) he

/-- The status map of `POST /wallets/convert`: for a decoded request the
handler leaves the store as the service left it and writes, with
`writeJSONResponse`: 200 with the `ConvertResponse` when there is no error;
400 with the text of the error when it matches `ErrInvalidWalletNumber` or is
the error of a non-positive amount, which is the case for every malformed
wallet number and for every non-positive amount with a well-formed one; 404
when it matches `ErrWalletNotFound`; 409 with the `ConvertResponse` when it
matches `ErrInsufficientFunds`; 503 when it matches `ErrRateNotAvailable`; 500
with the opaque text for every other error. -/
theorem WalletHandler_ConvertAndDeduct_written (f : Faults) (db : DBState)
    (req : ConvertRequest) :
    (WalletHandler.ConvertAndDeduct f db (.ok req)).2 = (ConvertAndDeduct f db req).2 ∧
    ((ConvertAndDeduct f db req).1.2 = none →
      (WalletHandler.ConvertAndDeduct f db (.ok req)).1 =
        writeJSONResponse 200 (.ConvertResponse (ConvertAndDeduct f db req).1.1)) ∧
    (∀ e, (ConvertAndDeduct f db req).1.2 = some e →
      ((errorsIs e .ErrInvalidWalletNumber = true ∨
          e.Error = "сумма для конвертации должна быть положительной") →
        (WalletHandler.ConvertAndDeduct f db (.ok req)).1 =
          ⟨400, some (.ErrorResponse ⟨e.Error⟩)⟩) ∧
      (errorsIs e .ErrWalletNotFound = true →
        (WalletHandler.ConvertAndDeduct f db (.ok req)).1 =
          ⟨404, some (.ErrorResponse ⟨e.Error⟩)⟩) ∧
      (errorsIs e .ErrInsufficientFunds = true →
        (WalletHandler.ConvertAndDeduct f db (.ok req)).1 =
          writeJSONResponse 409 (.ConvertResponse (ConvertAndDeduct f db req).1.1)) ∧
      (errorsIs e .ErrRateNotAvailable = true →
        (WalletHandler.ConvertAndDeduct f db (.ok req)).1 =
          ⟨503, some (.ErrorResponse ⟨e.Error⟩)⟩) ∧
      (errorsIs e .ErrInvalidWalletNumber = false →
        e.Error ≠ "сумма для конвертации должна быть положительной" →
        errorsIs e .ErrWalletNotFound = false → errorsIs e .ErrInsufficientFunds = false →
        errorsIs e .ErrRateNotAvailable = false →
        (WalletHandler.ConvertAndDeduct f db (.ok req)).1 =
          ⟨500, some (.ErrorResponse ⟨"Внутренняя ошибка сервера при конвертации"⟩)⟩)) ∧
    (walletNumberRegex req.SourceWalletNumber = false →
      (WalletHandler.ConvertAndDeduct f db (.ok req)).1 =
        ⟨400, some (.ErrorResponse
          ⟨"некорректный формат номера кошелька (требуется 7 цифр)"⟩)⟩) ∧
    (walletNumberRegex req.SourceWalletNumber = true → req.AmountToConvert ≤ 0 →
      (WalletHandler.ConvertAndDeduct f db (.ok req)).1 =
        ⟨400, some (.ErrorResponse ⟨"сумма для конвертации должна быть положительной"⟩)⟩) := by
  refine ⟨?_, ?_, ?_, ?_, ?_⟩
  · rcases hout : ConvertAndDeduct f db req with ⟨⟨resp, err⟩, db1⟩
    unfold WalletHandler.ConvertAndDeduct
    simp only [hout]
    split <;> rfl
  · rcases hout : ConvertAndDeduct f db req with ⟨⟨resp, err⟩, db1⟩
    intro herr
    simp only [] at herr
    subst herr
    simp [WalletHandler.ConvertAndDeduct, hout, StatusOK]
  · rcases hout : ConvertAndDeduct f db req with ⟨⟨resp, err⟩, db1⟩
    intro e herr
    simp only [] at herr
    subst herr
    refine ⟨?_, ?_, ?_, ?_, ?_⟩
    · rintro (h1 | h2)
      · simp [WalletHandler.ConvertAndDeduct, hout, writeJSONResponse, Payload.encodable, StatusOK, StatusBadRequest, StatusConflict,
        StatusNotFound, StatusServiceUnavailable, StatusInternalServerError, h1]
      · cases h1 : errorsIs e .ErrInvalidWalletNumber <;>
          simp [WalletHandler.ConvertAndDeduct, hout, writeJSONResponse, Payload.encodable, StatusOK, StatusBadRequest, StatusConflict,
        StatusNotFound, StatusServiceUnavailable, StatusInternalServerError, h1, h2]
    · intro h3
      have h1 := errorsIs_false_of_other e _ _ leaf_ErrWalletNotFound
        leaf_ErrInvalidWalletNumber (by intro hh; cases hh) h3
      have h2 := not_found_text_ne_amount_text e h3
      simp [WalletHandler.ConvertAndDeduct, hout, writeJSONResponse, Payload.encodable, StatusOK, StatusBadRequest, StatusConflict,
        StatusNotFound, StatusServiceUnavailable, StatusInternalServerError, h1, h2, h3]
    · intro h4
      have h1 := errorsIs_false_of_other e _ _ leaf_ErrInsufficientFunds
        leaf_ErrInvalidWalletNumber (by intro hh; cases hh) h4
      have h2 := insufficient_text_ne_amount_text e h4
      have h3 := errorsIs_false_of_other e _ _ leaf_ErrInsufficientFunds
        leaf_ErrWalletNotFound (by intro hh; cases hh) h4
      simp [WalletHandler.ConvertAndDeduct, hout, StatusOK, StatusConflict, h1, h2, h3, h4]
    · intro h5
      have h1 := errorsIs_false_of_other e _ _ leaf_ErrRateNotAvailable
        leaf_ErrInvalidWalletNumber (by intro hh; cases hh) h5
      have h2 := rate_text_ne_amount_text e h5
      have h3 := errorsIs_false_of_other e _ _ leaf_ErrRateNotAvailable
        leaf_ErrWalletNotFound (by intro hh; cases hh) h5
      have h4 := errorsIs_false_of_other e _ _ leaf_ErrRateNotAvailable
        leaf_ErrInsufficientFunds (by intro hh; cases hh) h5
      simp [WalletHandler.ConvertAndDeduct, hout, writeJSONResponse, Payload.encodable, StatusOK, StatusBadRequest, StatusConflict,
        StatusNotFound, StatusServiceUnavailable, StatusInternalServerError, h1, h2, h3, h4, h5]
    · intro h1 h2 h3 h4 h5
      simp [WalletHandler.ConvertAndDeduct, hout, writeJSONResponse, Payload.encodable, StatusOK, StatusBadRequest, StatusConflict,
        StatusNotFound, StatusServiceUnavailable, StatusInternalServerError, h1, h2, h3, h4, h5]
  · intro hbad
    simp [WalletHandler.ConvertAndDeduct, ConvertAndDeduct, hbad, writeJSONResponse, Payload.encodable, StatusOK, StatusBadRequest, StatusConflict,
        StatusNotFound, StatusServiceUnavailable, StatusInternalServerError, errorsIs,
      GoError.Error]
  · intro hn hq
    simp [WalletHandler.ConvertAndDeduct, ConvertAndDeduct, hn, hq, writeJSONResponse, Payload.encodable, StatusOK, StatusBadRequest, StatusConflict,
        StatusNotFound, StatusServiceUnavailable, StatusInternalServerError, errorsIs,
      GoError.Error]

/-! ## A failing rollback -/

theorem errorsIs_errorf_of_inner (p : String) (e t : GoError) (h : errorsIs e t = true) :
    errorsIs (.errorf p e) t = true := by
  simp [errorsIs, h]

theorem executeTx_rollback_fails_eq {σ : Type} (f : Faults) (d : DriverError) (db : DBState)
    (vars : σ) (fn : DBState → σ → Option GoError × σ × DBState) (e : GoError)
    (hb : f.BeginTx = none) (hr : f.Rollback = some d)
    (hfn : (fn (db.record .BeginTx) vars).1 = some e) :
    (executeTx f db vars fn).1 =
      some (.errorf "внутренняя ошибка сервера (tx rollback after error): " e) := by
  unfold executeTx
  simp only [hb]
  rcases hx : fn (db.record .BeginTx) vars with ⟨err, v1, tx⟩
  rw [hx] at hfn
  simp only [] at hfn
  subst hfn
  simp [hr]

/-- C14 (as amended): when the unit of work fails with an error `e` and the
rollback fails too, `executeTx` returns `e` wrapped under the text
"внутренняя ошибка сервера (tx rollback after error): ", and the returned error
still matches whatever `e` matches.  For `ErrInsufficientFunds` (a float64 sum
`B + A` below zero, a balance `B` below the float64 product of quantity and
rate) the handlers of `UpdateBalance` and `ConvertAndDeduct` therefore still
answer with status 409, writing the response that reports the unchanged
balance. -/
theorem rollback_failure_wraps_original_error (f : Faults) (d : DriverError)
    (hb : f.BeginTx = none) (hr : f.Rollback = some d) :
    (∀ (σ : Type) (db : DBState) (vars : σ)
        (fn : DBState → σ → Option GoError × σ × DBState) (e : GoError),
      (fn (db.record .BeginTx) vars).1 = some e →
      (executeTx f db vars fn).1 =
        some (.errorf "внутренняя ошибка сервера (tx rollback after error): " e) ∧
      ∀ t, errorsIs e t = true →
        errorsIs (.errorf "внутренняя ошибка сервера (tx rollback after error): " e) t = true) ∧
    (∀ (db : DBState) (n : String) (A B : Float64), f.GetWalletByNumberForUpdate = none →
      walletNumberRegex n = true → db.balanceOf n = some B → B + A < 0 →
      (UpdateBalance f db ⟨n, A⟩).1.2 =
        some (.errorf "внутренняя ошибка сервера (tx rollback after error): "
          .ErrInsufficientFunds) ∧
      (WalletHandler.UpdateBalance f db (.ok ⟨n, A⟩)).1 =
        writeJSONResponse 409
          (.UpdateBalanceResponse ⟨n, B, "недостаточно средств на счете"⟩) ∧
      (WalletHandler.UpdateBalance f db (.ok ⟨n, A⟩)).1.statusCode = 409) ∧
    (∀ (db : DBState) (req : ConvertRequest) (B : Float64) (rate : Rate),
      f.GetLatestRate = none → f.GetWalletByNumberForUpdate = none →
      walletNumberRegex req.SourceWalletNumber = true → 0 < req.AmountToConvert →
      db.rates.getLast? = some rate → db.balanceOf req.SourceWalletNumber = some B →
      B < req.AmountToConvert * rate.Value →
      (ConvertAndDeduct f db req).1.2 =
        some (.errorf "внутренняя ошибка сервера (tx rollback after error): "
          .ErrInsufficientFunds) ∧
      (WalletHandler.ConvertAndDeduct f db (.ok req)).1 =
        writeJSONResponse 409
          (.ConvertResponse ⟨req.SourceWalletNumber, B, req.AmountToConvert * rate.Value,
            rate.Value, "недостаточно средств на счете"⟩) ∧
      (WalletHandler.ConvertAndDeduct f db (.ok req)).1.statusCode = 409) := by
  refine ⟨?_, ?_, ?_⟩
  · intro σ db vars fn e hfn
    exact ⟨executeTx_rollback_fails_eq f d db vars fn e hb hr hfn,
      fun t ht => errorsIs_errorf_of_inner _ e t ht⟩
  · intro db n A B hg hn hB hsum
    obtain ⟨w, hw, rfl⟩ := balanceOf_eq_some db n B hB
    have heq := UpdateBalance_insufficient_eq f db n A w hb hg hn hw hsum
    simp only [hr] at heq
    have hwr : (WalletHandler.UpdateBalance f db (.ok ⟨n, A⟩)).1 =
        writeJSONResponse 409
          (.UpdateBalanceResponse ⟨n, w.Balance, "недостаточно средств на счете"⟩) := by
      simp [WalletHandler.UpdateBalance, heq, StatusOK, StatusConflict, errorsIs]
    exact ⟨by rw [heq], hwr, by rw [hwr]; rfl⟩
  · intro db req B rate hl hg hn hq hrate hB hlt
    obtain ⟨w, hw, rfl⟩ := balanceOf_eq_some db _ B hB
    have heq := ConvertAndDeduct_insufficient_eq f db req w rate hl hb hg hn
      (Float64.not_le_of_lt _ _ hq) hrate hw hlt
    simp only [hr] at heq
    have htxt := insufficient_text_ne_amount_text
      (.errorf "внутренняя ошибка сервера (tx rollback after error): " .ErrInsufficientFunds)
      (by simp [errorsIs])
    have hwr : (WalletHandler.ConvertAndDeduct f db (.ok req)).1 =
        writeJSONResponse 409
          (.ConvertResponse ⟨req.SourceWalletNumber, w.Balance,
            req.AmountToConvert * rate.Value, rate.Value,
            "недостаточно средств на счете"⟩) := by
      simp [WalletHandler.ConvertAndDeduct, heq, StatusOK, StatusConflict, errorsIs, htxt]
    exact ⟨by rw [heq], hwr, by rw [hwr]; rfl⟩

/-! ## A race on the creation of a wallet -/

theorem UpdateBalance_create_race_eq (f : Faults) (db : DBState) (n : String) (A : Float64)
    (m : String) (hb : f.BeginTx = none) (hg : f.GetWalletByNumberForUpdate = none)
    (hcw : f.CreateWallet = some (.pq "23505" m))
    (hn : walletNumberRegex n = true) (hw : db.findWallet n = none) (hA : 0 < A) :
    UpdateBalance f db ⟨n, A⟩ =
      ((⟨n, 0, "Не удалось обновить баланс"⟩,
          some (match f.Rollback with
            | some _ => .errorf "внутренняя ошибка сервера (tx rollback after error): "
                (.errorsNew "конфликт при создании кошелька, попробуйте еще раз")
            | none => .errorsNew "конфликт при создании кошелька, попробуйте еще раз")),
        ⟨db.wallets, db.rates,
          db.calls ++ [.BeginTx, .GetWalletByNumberForUpdate n, .CreateWallet ⟨n, A⟩,
            .Rollback]⟩) := by
  have hgl := GetWalletByNumberForUpdate_missing f (db.record .BeginTx) n hg hw
  have hle : ¬ A ≤ 0 := Float64.not_le_of_lt _ _ hA
  have hcl : CreateWallet f ((db.record .BeginTx).record (.GetWalletByNumberForUpdate n))
      ⟨n, A⟩ = (some (.errorsNew ("кошелек с номером " ++ n ++ " уже существует")),
        ((db.record .BeginTx).record (.GetWalletByNumberForUpdate n)).record
          (.CreateWallet ⟨n, A⟩)) := by
    simp [CreateWallet, hcw]
  simp only [UpdateBalance, hn, executeTx, hb, updateBalanceTx, hgl, hcl, hle]
  cases f.Rollback <;> simp [DBState.record, errorsIs, GoError.Error]

theorem UpdateBalance_create_other_eq (f : Faults) (db : DBState) (n : String) (A : Float64)
    (m : String) (hb : f.BeginTx = none) (hg : f.GetWalletByNumberForUpdate = none)
    (hcw : f.CreateWallet = some (.other m))
    (hn : walletNumberRegex n = true) (hw : db.findWallet n = none) (hA : 0 < A) :
    UpdateBalance f db ⟨n, A⟩ =
      ((⟨n, 0, "Не удалось обновить баланс"⟩,
          some (match f.Rollback with
            | some _ => .errorf "внутренняя ошибка сервера (tx rollback after error): "
                (.errorf "не удалось создать кошелек: "
                  (.errorf "ошибка выполнения запроса INSERT (wallet): " (.driver (.other m))))
            | none => .errorf "не удалось создать кошелек: "
                (.errorf "ошибка выполнения запроса INSERT (wallet): " (.driver (.other m))))),
        ⟨db.wallets, db.rates,
          db.calls ++ [.BeginTx, .GetWalletByNumberForUpdate n, .CreateWallet ⟨n, A⟩,
            .Rollback]⟩) := by
  have hgl := GetWalletByNumberForUpdate_missing f (db.record .BeginTx) n hg hw
  have hle : ¬ A ≤ 0 := Float64.not_le_of_lt _ _ hA
  have hcl : CreateWallet f ((db.record .BeginTx).record (.GetWalletByNumberForUpdate n))
      ⟨n, A⟩ = (some (.errorf "ошибка выполнения запроса INSERT (wallet): "
          (.driver (.other m))),
        ((db.record .BeginTx).record (.GetWalletByNumberForUpdate n)).record
          (.CreateWallet ⟨n, A⟩)) := by
    simp [CreateWallet, hcw]
  have htxt := insert_text_ne_exists_text n (.driver (.other m))
  simp only [UpdateBalance, hn, executeTx, hb, updateBalanceTx, hgl, hcl, hle, htxt]
  cases f.Rollback <;> simp [DBState.record, errorsIs, GoError.Error]

theorem WalletHandler_UpdateBalance_create_race (f : Faults) (db : DBState) (n : String)
    (A : Float64) (m : String) (hb : f.BeginTx = none) (hg : f.GetWalletByNumberForUpdate = none)
    (hcw : f.CreateWallet = some (.pq "23505" m))
    (hn : walletNumberRegex n = true) (hw : db.findWallet n = none) (hA : 0 < A) :
    (WalletHandler.UpdateBalance f db (.ok ⟨n, A⟩)).1 =
      ⟨500, some (.ErrorResponse ⟨"Внутренняя ошибка сервера"⟩)⟩ := by
  have heq := UpdateBalance_create_race_eq f db n A m hb hg hcw hn hw hA
  cases hr : f.Rollback <;>
    simp [WalletHandler.UpdateBalance, heq, hr, writeJSONResponse, Payload.encodable, StatusOK,
      StatusConflict, StatusInternalServerError, errorsIs]

theorem WalletHandler_UpdateBalance_create_other (f : Faults) (db : DBState) (n : String)
    (A : Float64) (m : String) (hb : f.BeginTx = none) (hg : f.GetWalletByNumberForUpdate = none)
    (hcw : f.CreateWallet = some (.other m))
    (hn : walletNumberRegex n = true) (hw : db.findWallet n = none) (hA : 0 < A) :
    (WalletHandler.UpdateBalance f db (.ok ⟨n, A⟩)).1 =
      ⟨500, some (.ErrorResponse ⟨"Внутренняя ошибка сервера"⟩)⟩ := by
  have heq := UpdateBalance_create_other_eq f db n A m hb hg hcw hn hw hA
  cases hr : f.Rollback <;>
    simp [WalletHandler.UpdateBalance, heq, hr, writeJSONResponse, Payload.encodable, StatusOK,
      StatusConflict, StatusInternalServerError, errorsIs]

/-- C17 (as amended): when the insert of `CreateWallet` meets a unique
violation, `UpdateBalance` does not fall through to the update logic (the calls
it makes are the begin, the locked read, the insert and the rollback), writes
nothing, reports the wallet number in its response and returns the error of
text "конфликт при создании кошелька, попробуйте еще раз", which differs from
the error returned for any other failure of the insert; the handler answers
both alike, with status 500 and the opaque text. -/
theorem create_race_answered_as_internal_failure (f : Faults) (db : DBState) (n : String)
    (A : Float64) (m : String) (hb : f.BeginTx = none) (hg : f.GetWalletByNumberForUpdate = none)
    (hcw : f.CreateWallet = some (.pq "23505" m))
    (hn : walletNumberRegex n = true) (hno : db.balanceOf n = none) (hA : 0 < A) :
    (UpdateBalance f db ⟨n, A⟩).1.1 = ⟨n, 0, "Не удалось обновить баланс"⟩ ∧
    (UpdateBalance f db ⟨n, A⟩).1.2 =
      some (match f.Rollback with
        | some _ => .errorf "внутренняя ошибка сервера (tx rollback after error): "
            (.errorsNew "конфликт при создании кошелька, попробуйте еще раз")
        | none => .errorsNew "конфликт при создании кошелька, попробуйте еще раз") ∧
    (UpdateBalance f db ⟨n, A⟩).2.calls =
      db.calls ++ [.BeginTx, .GetWalletByNumberForUpdate n, .CreateWallet ⟨n, A⟩, .Rollback] ∧
    (∀ b, Call.UpdateWalletBalance n b ∉ (UpdateBalance f db ⟨n, A⟩).2.calls.drop db.calls.length) ∧
    (UpdateBalance f db ⟨n, A⟩).2.wallets = db.wallets ∧
    (WalletHandler.UpdateBalance f db (.ok ⟨n, A⟩)).1 =
      ⟨500, some (.ErrorResponse ⟨"Внутренняя ошибка сервера"⟩)⟩ ∧
    (∀ (f2 : Faults) (m2 : String), f2.BeginTx = none → f2.GetWalletByNumberForUpdate = none →
      f2.CreateWallet = some (.other m2) →
      (UpdateBalance f2 db ⟨n, A⟩).1.2 ≠ (UpdateBalance f db ⟨n, A⟩).1.2 ∧
      (UpdateBalance f2 db ⟨n, A⟩).1.1 = (UpdateBalance f db ⟨n, A⟩).1.1 ∧
      (WalletHandler.UpdateBalance f2 db (.ok ⟨n, A⟩)).1 =
        (WalletHandler.UpdateBalance f db (.ok ⟨n, A⟩)).1) := by
  have hw := balanceOf_eq_none db n hno
  have hh := WalletHandler_UpdateBalance_create_race f db n A m hb hg hcw hn hw hA
  have heq := UpdateBalance_create_race_eq f db n A m hb hg hcw hn hw hA
  refine ⟨by rw [heq], by rw [heq], by rw [heq], ?_, by rw [heq], hh, ?_⟩
  · intro b
    rw [heq]
    simp
  · intro f2 m2 hb2 hg2 hcw2
    have hh2 := WalletHandler_UpdateBalance_create_other f2 db n A m2 hb2 hg2 hcw2 hn hw hA
    have heq2 := UpdateBalance_create_other_eq f2 db n A m2 hb2 hg2 hcw2 hn hw hA
    refine ⟨?_, by rw [heq, heq2], by rw [hh, hh2]⟩
    rw [heq, heq2]
    cases f.Rollback <;> cases f2.Rollback <;> simp

/-! ## The rate service -/

theorem CreateRate_saved_eq (f : Faults) (db : DBState) (v y : Float64) (hv : ¬ v ≤ 0)
    (hs : f.SaveRate = none) (hy : toREAL v = .ok y) :
    CreateRate f db v =
      (none, ⟨db.wallets, db.rates ++ [⟨(db.rates.length : Int) + 1, y⟩],
        db.calls ++ [.SaveRate ⟨0, v⟩]⟩) := by
  simp [CreateRate, hv, SaveRate, hs, hy, DBState.record]

theorem CreateRate_refused_eq (f : Faults) (db : DBState) (v : Float64) (e : DriverError)
    (hv : ¬ v ≤ 0) (hs : f.SaveRate = none) (hy : toREAL v = .error e) :
    CreateRate f db v =
      (some (.errorf "не удалось сохранить курс: "
          (.errorf "ошибка выполнения запроса INSERT: " (.driver e))),
        ⟨db.wallets, db.rates, db.calls ++ [.SaveRate ⟨0, v⟩]⟩) := by
  simp [CreateRate, hv, SaveRate, hs, hy, DBState.record]

theorem save_text_ne_positive_text (x : String) :
    "не удалось сохранить курс: " ++ x ≠ "курс валюты должен быть положительным числом" := by
  intro h
  have hd := congrArg (fun s => s.data.head?) h
  simp [String.data_append] at hd

/-- C20 (as amended): for every rate value `v ≤ 0` `CreateRate` returns an
error and leaves the store and its call log untouched, so `SaveRate` is not
called and no rate is stored, and `POST /rates` answers 400; for every `v > 0`
on a store whose insert meets no fault, the one call made is `SaveRate` with
value `v`; when the `REAL` column accepts `v`, one rate is appended to the log
and `POST /rates` answers 201; when the column refuses `v`, no rate is stored,
`CreateRate` returns an error and `POST /rates` answers 500. -/
theorem CreateRate_validates_value (f : Faults) (db : DBState) (v : Float64) :
    (v ≤ 0 →
      CreateRate f db v =
        (some (.errorsNew "курс валюты должен быть положительным числом"), db) ∧
      RateHandler.CreateRate f db (.ok v) =
        (⟨400, some (.ErrorResponse ⟨"курс валюты должен быть положительным числом"⟩)⟩, db)) ∧
    (0 < v → f.SaveRate = none →
      (CreateRate f db v).2.calls = db.calls ++ [.SaveRate ⟨0, v⟩] ∧
      (CreateRate f db v).2.wallets = db.wallets ∧
      (RateHandler.CreateRate f db (.ok v)).2 = (CreateRate f db v).2 ∧
      (∀ y, toREAL v = .ok y →
        (CreateRate f db v).1 = none ∧
        (CreateRate f db v).2.rates.length = db.rates.length + 1 ∧
        (CreateRate f db v).2.rates.take db.rates.length = db.rates ∧
        (RateHandler.CreateRate f db (.ok v)).1 =
          ⟨201, some (.SuccessResponse ⟨"Курс успешно добавлен"⟩)⟩) ∧
      (∀ e, toREAL v = .error e →
        (CreateRate f db v).1 ≠ none ∧
        (CreateRate f db v).2.rates = db.rates ∧
        (RateHandler.CreateRate f db (.ok v)).1 =
          ⟨500, some (.ErrorResponse ⟨"Внутренняя ошибка сервера"⟩)⟩)) := by
  refine ⟨?_, ?_⟩
  · intro hv
    have he : CreateRate f db v =
        (some (.errorsNew "курс валюты должен быть положительным числом"), db) := by
      simp [CreateRate, hv]
    refine ⟨he, ?_⟩
    simp [RateHandler.CreateRate, he, writeJSONResponse, Payload.encodable, StatusBadRequest,
      GoError.Error]
  · intro hv hs
    have hle : ¬ v ≤ 0 := Float64.not_le_of_lt _ _ hv
    cases hy : toREAL v with
    | ok y =>
      have he := CreateRate_saved_eq f db v y hle hs hy
      rw [he]
      refine ⟨rfl, rfl, by simp [RateHandler.CreateRate, he], ?_, fun e h => by cases h⟩
      intro y2 h2
      cases h2
      refine ⟨rfl, by simp, by simp, ?_⟩
      simp [RateHandler.CreateRate, he, writeJSONResponse, Payload.encodable, StatusCreated]
    | error e =>
      have he := CreateRate_refused_eq f db v e hle hs hy
      have htxt : (GoError.errorf "не удалось сохранить курс: "
          (GoError.errorf "ошибка выполнения запроса INSERT: " (.driver e))).Error ≠
          "курс валюты должен быть положительным числом" :=
        save_text_ne_positive_text _
      rw [he]
      refine ⟨rfl, rfl, by simp [RateHandler.CreateRate, he, htxt], fun y h => (by cases h), ?_⟩
      intro e2 h2
      cases h2
      refine ⟨by simp, rfl, ?_⟩
      simp [RateHandler.CreateRate, he, htxt, writeJSONResponse, Payload.encodable,
        StatusInternalServerError]

/-! ## The theorems of the transaction executor and of the HTTP boundary at concrete data -/

/-- C11 for the quantity 0 on an empty store. -/
theorem ConvertAndDeduct_nonpositive_amount_witness :
    walletNumberRegex "1234567" = true ∧ (0 : Float64) ≤ 0 ∧
    ConvertAndDeduct Faults.none emptyStore ⟨"", "", "", 0, "1234567"⟩ =
      ((⟨"", 0, 0, 0, "сумма для конвертации должна быть положительной"⟩,
        some (.errorsNew "сумма для конвертации должна быть положительной")), emptyStore) :=
  ⟨by decide, by decide!,
    (ConvertAndDeduct_nonpositive_amount Faults.none emptyStore ⟨"", "", "", 0, "1234567"⟩
      (by decide) (by decide!)).1⟩

/-- C12 for the request of the conversion test on an empty store. -/
theorem ConvertAndDeduct_no_rate_witness :
    walletNumberRegex convertInsufficientRequest.SourceWalletNumber = true ∧
    0 < convertInsufficientRequest.AmountToConvert ∧ emptyStore.rates = [] ∧
    (ConvertAndDeduct Faults.none emptyStore convertInsufficientRequest).1.2 =
      some .ErrRateNotAvailable ∧
    (ConvertAndDeduct Faults.none emptyStore convertInsufficientRequest).2.calls =
      emptyStore.calls ++ [.GetLatestRate] :=
  have h2 : 0 < convertInsufficientRequest.AmountToConvert := by decide!
  have h := ConvertAndDeduct_no_rate Faults.none emptyStore convertInsufficientRequest
    (by decide) h2 rfl
  ⟨by decide, h2, rfl, h.1, h.2.2.1⟩

/-- C13 for the unit of work of an overdraw: the rollback is the one call
made after it and the error returned is `ErrInsufficientFunds` itself. -/
theorem executeTx_commit_xor_rollback_witness :
    Faults.none.BeginTx = none ∧
    (executeTx Faults.none insufficientStore ((0 : Float64), "")
      (updateBalanceTx Faults.none ⟨"4445566", -50⟩)).1 = some .ErrInsufficientFunds := by
  obtain ⟨c, _, _, _, _, hret⟩ := executeTx_commit_xor_rollback Faults.none insufficientStore
    ((0 : Float64), "") (updateBalanceTx Faults.none ⟨"4445566", -50⟩) rfl
  exact ⟨rfl, hret _ (by decide!) rfl⟩

/-- C14 (as stated) fails: with a wallet of balance 20.0, a withdrawal of 50.0
and a failing rollback, the error returned still matches
`ErrInsufficientFunds`, the response still carries the insufficient funds text
and the handler answers 409, not 500. -/
theorem rollback_failure_still_answered_409 :
    (∃ e, (UpdateBalance rollbackFails insufficientStore ⟨"4445566", -50⟩).1.2 = some e ∧
      errorsIs e .ErrInsufficientFunds = true) ∧
    (UpdateBalance rollbackFails insufficientStore ⟨"4445566", -50⟩).1.1.Message =
      "недостаточно средств на счете" ∧
    (WalletHandler.UpdateBalance rollbackFails insufficientStore
      (.ok ⟨"4445566", -50⟩)).1.statusCode = 409 ∧
    (WalletHandler.UpdateBalance rollbackFails insufficientStore
      (.ok ⟨"4445566", -50⟩)).1.statusCode ≠ 500 :=
  ⟨⟨.errorf "внутренняя ошибка сервера (tx rollback after error): " .ErrInsufficientFunds,
      by decide!, by decide⟩, by decide!, by decide!, by decide!⟩

/-- C14 (as amended) for a wallet of balance 20.0, a withdrawal of 50.0 and a
failing rollback. -/
theorem rollback_failure_wraps_original_error_witness :
    rollbackFails.BeginTx = none ∧
    rollbackFails.Rollback = some (.other "driver: bad connection") ∧
    insufficientStore.balanceOf "4445566" = some 20 ∧ (20 : Float64) + -50 < 0 ∧
    (WalletHandler.UpdateBalance rollbackFails insufficientStore (.ok ⟨"4445566", -50⟩)).1 =
      writeJSONResponse 409
        (.UpdateBalanceResponse ⟨"4445566", 20, "недостаточно средств на счете"⟩) ∧
    (WalletHandler.UpdateBalance rollbackFails insufficientStore
      (.ok ⟨"4445566", -50⟩)).1.statusCode = 409 :=
  have h1 : insufficientStore.balanceOf "4445566" = some 20 := by decide!
  have h2 : (20 : Float64) + -50 < 0 := by decide!
  ⟨rfl, rfl, h1, h2,
    ((rollback_failure_wraps_original_error rollbackFails (.other "driver: bad connection") rfl
      rfl).2.1 insufficientStore "4445566" (-50) 20 rfl (by decide) h1 h2).2⟩

/-- C15 for an overdraw: the call fails and both tables are unchanged. -/
theorem UpdateBalance_frame_witness :
    (UpdateBalance Faults.none insufficientStore ⟨"4445566", -50⟩).1.2 =
      some .ErrInsufficientFunds ∧
    (UpdateBalance Faults.none insufficientStore ⟨"4445566", -50⟩).2.wallets =
      insufficientStore.wallets ∧
    (UpdateBalance Faults.none insufficientStore ⟨"4445566", -50⟩).2.rates =
      insufficientStore.rates :=
  have herr : (UpdateBalance Faults.none insufficientStore ⟨"4445566", -50⟩).1.2 =
      some .ErrInsufficientFunds := by decide!
  ⟨herr, (UpdateBalance_frame Faults.none insufficientStore ⟨"4445566", -50⟩).2 _ herr⟩

/-- C16 (as stated) fails: on a wallet holding 1000000.0, a deposit of 0.01
and a conversion of 0.01 at the rate 1.0 both return a nil error after a
commit, the one reporting the balance 1000000.01 and the other 999999.99,
while the balance committed to the `REAL` column is 1000000.0 in both
cases. -/
theorem committed_balance_differs_from_reported :
    (UpdateBalance Faults.none millionStore ⟨"1112233", 0.01⟩).1.2 = none ∧
    (UpdateBalance Faults.none millionStore ⟨"1112233", 0.01⟩).2.calls.getLast? =
      some .Commit ∧
    (UpdateBalance Faults.none millionStore ⟨"1112233", 0.01⟩).2.balanceOf "1112233" ≠
      some (UpdateBalance Faults.none millionStore ⟨"1112233", 0.01⟩).1.1.NewBalance ∧
    (ConvertAndDeduct Faults.none millionStore ⟨"", "", "", 0.01, "1112233"⟩).1.2 = none ∧
    (ConvertAndDeduct Faults.none millionStore ⟨"", "", "", 0.01, "1112233"⟩).2.calls.getLast? =
      some .Commit ∧
    (ConvertAndDeduct Faults.none millionStore ⟨"", "", "", 0.01, "1112233"⟩).2.balanceOf
        "1112233" ≠
      some (ConvertAndDeduct Faults.none millionStore
        ⟨"", "", "", 0.01, "1112233"⟩).1.1.RemainingBalance := by
  decide!

/-- C16 (as amended) at the data of `TestWalletHandler_ConvertAndDeduct_Success`:
the response reports 64.25 and the column keeps 64.25. -/
theorem nil_error_means_committed_witness :
    (ConvertAndDeduct Faults.none convertSuccessStore convertSuccessRequest).1.2 = none ∧
    (ConvertAndDeduct Faults.none convertSuccessStore convertSuccessRequest).2.calls.getLast? =
      some .Commit ∧
    (ConvertAndDeduct Faults.none convertSuccessStore
      convertSuccessRequest).1.1.RemainingBalance = 64.25 ∧
    ∃ y, toREAL (ConvertAndDeduct Faults.none convertSuccessStore
        convertSuccessRequest).1.1.RemainingBalance = .ok y ∧
      (ConvertAndDeduct Faults.none convertSuccessStore convertSuccessRequest).2.balanceOf
        convertSuccessRequest.SourceWalletNumber = some y :=
  have hok : (ConvertAndDeduct Faults.none convertSuccessStore convertSuccessRequest).1.2 =
      none := by decide!
  have h := (nil_error_means_committed Faults.none convertSuccessStore ⟨"1112233", -30⟩
    convertSuccessRequest).2.1 hok
  ⟨hok, h.2.1, by decide!, h.2.2⟩

/-- C17 (as stated) fails: on an empty store, the creation of wallet 1234567
answered by a unique violation and the same creation answered by a broken
connection give the same service response and the same HTTP result, status
500 with the opaque text. -/
theorem create_race_same_http_result_as_storage_error :
    (WalletHandler.UpdateBalance createRace emptyStore (.ok ⟨"1234567", 5⟩)).1 =
      (WalletHandler.UpdateBalance createBroken emptyStore (.ok ⟨"1234567", 5⟩)).1 ∧
    (WalletHandler.UpdateBalance createRace emptyStore (.ok ⟨"1234567", 5⟩)).1 =
      ⟨500, some (.ErrorResponse ⟨"Внутренняя ошибка сервера"⟩)⟩ ∧
    (UpdateBalance createRace emptyStore ⟨"1234567", 5⟩).1.1 =
      (UpdateBalance createBroken emptyStore ⟨"1234567", 5⟩).1.1 := by
  decide!

/-- C17 (as amended) for the creation of wallet 1234567 on an empty store. -/
theorem create_race_answered_as_internal_failure_witness :
    createRace.BeginTx = none ∧ createRace.GetWalletByNumberForUpdate = none ∧
    createRace.CreateWallet =
      some (.pq "23505" "duplicate key value violates unique constraint") ∧
    walletNumberRegex "1234567" = true ∧ emptyStore.balanceOf "1234567" = none ∧
    (0 : Float64) < 5 ∧
    (UpdateBalance createRace emptyStore ⟨"1234567", 5⟩).1.2 =
      some (.errorsNew "конфликт при создании кошелька, попробуйте еще раз") ∧
    (UpdateBalance createRace emptyStore ⟨"1234567", 5⟩).2.wallets = emptyStore.wallets ∧
    (WalletHandler.UpdateBalance createRace emptyStore (.ok ⟨"1234567", 5⟩)).1 =
      ⟨500, some (.ErrorResponse ⟨"Внутренняя ошибка сервера"⟩)⟩ :=
  have h5 : (0 : Float64) < 5 := by decide!
  have h := create_race_answered_as_internal_failure createRace emptyStore "1234567" 5
    "duplicate key value violates unique constraint" rfl rfl rfl (by decide) rfl h5
  ⟨rfl, rfl, rfl, by decide, rfl, h5, h.2.1, h.2.2.2.2.1, h.2.2.2.2.2.1⟩

/-- C18 at the data of
`TestWalletHandler_UpdateBalance_WithdrawExisting_InsufficientFunds`. -/
theorem WalletHandler_UpdateBalance_status_witness :
    (UpdateBalance Faults.none insufficientStore ⟨"4445566", -50⟩).1.2 =
      some .ErrInsufficientFunds ∧
    insufficientStore.InRange ∧
    (WalletHandler.UpdateBalance Faults.none insufficientStore (.ok ⟨"4445566", -50⟩)).1 =
      ⟨409, some (.UpdateBalanceResponse
        (UpdateBalance Faults.none insufficientStore ⟨"4445566", -50⟩).1.1)⟩ ∧
    insufficientStore.balanceOf "4445566" =
      some (UpdateBalance Faults.none insufficientStore ⟨"4445566", -50⟩).1.1.NewBalance :=
  have herr : (UpdateBalance Faults.none insufficientStore ⟨"4445566", -50⟩).1.2 =
      some .ErrInsufficientFunds := by decide!
  have hr : insufficientStore.InRange := by decide!
  have h := ((WalletHandler_UpdateBalance_status Faults.none insufficientStore
    ⟨"4445566", -50⟩).2.2 _ herr).2.1 (by simp [errorsIs])
  ⟨herr, hr, h.2.1 hr, h.2.2.1⟩

/-- C19 at its failing input: a wallet holding 1.0, the rate 10.0 and the
decoded quantity 1e308.  The float64 product of quantity and rate is +Inf, the
balance is below it, the service returns `ErrInsufficientFunds` with a
response whose `ConvertedAmount` is +Inf, the handler writes the status 409
and the encoder refuses the response: the body is empty. -/
theorem convert_overflow_answered_without_body :
    Float64.IsFinite 1e308 ∧ (1e308 : Float64) * 10 = .inf false ∧
    (ConvertAndDeduct Faults.none overflowStore ⟨"", "", "", 1e308, "2223344"⟩).1.2 =
      some .ErrInsufficientFunds ∧
    (ConvertAndDeduct Faults.none overflowStore
      ⟨"", "", "", 1e308, "2223344"⟩).1.1.ConvertedAmount = .inf false ∧
    (WalletHandler.ConvertAndDeduct Faults.none overflowStore
      (.ok ⟨"", "", "", 1e308, "2223344"⟩)).1 = ⟨409, none⟩ := by
  decide!

/-- C20 (as stated) fails: the decoded value 1e39 is positive and the store
works, `SaveRate` is called once with it, but a `REAL` column does not hold
1e39: the insert is refused, no rate is stored and `POST /rates` answers 500,
not 201. -/
theorem positive_rate_out_of_range_answered_500 :
    (0 : Float64) < 1e39 ∧ Float64.IsFinite 1e39 ∧
    (CreateRate Faults.none emptyStore 1e39).2.calls = [.SaveRate ⟨0, 1e39⟩] ∧
    (CreateRate Faults.none emptyStore 1e39).2.rates = [] ∧
    (RateHandler.CreateRate Faults.none emptyStore (.ok 1e39)).1.statusCode = 500 ∧
    (RateHandler.CreateRate Faults.none emptyStore (.ok 1e39)).1.statusCode ≠ 201 := by
  decide!

/-- C20 (as amended) at the data of the rate handler tests: the values -10.0
and 95.5. -/
theorem CreateRate_validates_value_witness :
    (-10 : Float64) ≤ 0 ∧ (0 : Float64) < 95.5 ∧ toREAL 95.5 = .ok 95.5 ∧
    RateHandler.CreateRate Faults.none emptyStore (.ok (-10)) =
      (⟨400, some (.ErrorResponse ⟨"курс валюты должен быть положительным числом"⟩)⟩,
        emptyStore) ∧
    (RateHandler.CreateRate Faults.none emptyStore (.ok 95.5)).1 =
      ⟨201, some (.SuccessResponse ⟨"Курс успешно добавлен"⟩)⟩ ∧
    (CreateRate Faults.none emptyStore 95.5).2.calls =
      emptyStore.calls ++ [.SaveRate ⟨0, 95.5⟩] :=
  have h1 : (-10 : Float64) ≤ 0 := by decide!
  have h2 : (0 : Float64) < 95.5 := by decide!
  have h3 : toREAL 95.5 = .ok 95.5 := by decide!
  have h := (CreateRate_validates_value Faults.none emptyStore 95.5).2 h2 rfl
  ⟨h1, h2, h3, ((CreateRate_validates_value Faults.none emptyStore (-10)).1 h1).2,
    (h.2.2.2.1 95.5 h3).2.2.2, h.1⟩

/-! ## The handler of POST /rates -/

theorem RateHandler_CreateRate_nonpositive_eq (f : Faults) (db : DBState) (v : Float64)
    (hv : v ≤ 0) :
    RateHandler.CreateRate f db (.ok v) =
      (⟨400, some (.ErrorResponse ⟨"курс валюты должен быть положительным числом"⟩)⟩, db) := by
  simp [RateHandler.CreateRate, CreateRate, hv, writeJSONResponse, Payload.encodable,
    StatusBadRequest, GoError.Error]

theorem RateHandler_CreateRate_saved_eq (f : Faults) (db : DBState) (v y : Float64)
    (hv : ¬ v ≤ 0) (hs : f.SaveRate = none) (hy : toREAL v = .ok y) :
    (RateHandler.CreateRate f db (.ok v)).1 =
      ⟨201, some (.SuccessResponse ⟨"Курс успешно добавлен"⟩)⟩ := by
  simp [RateHandler.CreateRate, CreateRate, hv, SaveRate, hs, hy, writeJSONResponse,
    Payload.encodable, StatusCreated]

theorem RateHandler_CreateRate_failed_eq (f : Faults) (db : DBState) (v : Float64)
    (hv : ¬ v ≤ 0) (d : DriverError) (hs : f.SaveRate = some d) :
    (RateHandler.CreateRate f db (.ok v)).1 =
      ⟨500, some (.ErrorResponse ⟨"Внутренняя ошибка сервера"⟩)⟩ := by
  have htxt := save_text_ne_positive_text ("ошибка выполнения запроса INSERT: " ++ d.Error)
  simp [RateHandler.CreateRate, CreateRate, hv, SaveRate, hs, writeJSONResponse,
    Payload.encodable, StatusInternalServerError, GoError.Error, htxt]

theorem RateHandler_CreateRate_refused_eq (f : Faults) (db : DBState) (v : Float64)
    (hv : ¬ v ≤ 0) (e : DriverError) (hs : f.SaveRate = none) (hy : toREAL v = .error e) :
    (RateHandler.CreateRate f db (.ok v)).1 =
      ⟨500, some (.ErrorResponse ⟨"Внутренняя ошибка сервера"⟩)⟩ := by
  have htxt := save_text_ne_positive_text ("ошибка выполнения запроса INSERT: " ++ e.Error)
  simp [RateHandler.CreateRate, CreateRate, hv, SaveRate, hs, hy, writeJSONResponse,
    Payload.encodable, StatusInternalServerError, GoError.Error, htxt]

/-- C21 (as amended): a `POST /rates` request whose value is not positive is
answered with status 400 and the text "курс валюты должен быть положительным
числом"; status 500 is answered exactly when the value is positive (the test
`value <= 0` fails, which for a number is `0 < value`) and the insert of the
rate fails, by a fault of the storage or because the `REAL` column refuses the
value; status 201 exactly when the value is positive and the insert
succeeds. -/
theorem RateHandler_CreateRate_status (f : Faults) (db : DBState) (v : Float64) :
    (v ≤ 0 →
      (RateHandler.CreateRate f db (.ok v)).1 =
        ⟨400, some (.ErrorResponse ⟨"курс валюты должен быть положительным числом"⟩)⟩) ∧
    ((RateHandler.CreateRate f db (.ok v)).1.statusCode = 400 ↔ v ≤ 0) ∧
    ((RateHandler.CreateRate f db (.ok v)).1.statusCode = 500 ↔
      ¬ v ≤ 0 ∧ (f.SaveRate ≠ none ∨ ∃ e, toREAL v = .error e)) ∧
    ((RateHandler.CreateRate f db (.ok v)).1.statusCode = 201 ↔
      ¬ v ≤ 0 ∧ f.SaveRate = none ∧ ∃ y, toREAL v = .ok y) ∧
    (v ≠ .NaN → (¬ v ≤ 0 ↔ 0 < v)) := by
  have hbridge : v ≠ .NaN → (¬ v ≤ 0 ↔ 0 < v) := fun hnan =>
    ⟨fun h => Float64.lt_of_not_le 0 v (by rw [Float64.zero_eq]; intro hh; cases hh) hnan h,
      fun h => Float64.not_le_of_lt 0 v h⟩
  by_cases hv : v ≤ 0
  · have he := RateHandler_CreateRate_nonpositive_eq f db v hv
    rw [he]
    exact ⟨by simp [hv], by simp [hv], by simp [hv], by simp [hv], hbridge⟩
  · cases hs : f.SaveRate with
    | some d =>
      have he := RateHandler_CreateRate_failed_eq f db v hv d hs
      rw [he]
      exact ⟨by simp [hv], by simp [hv], by simp [hv, hs], by simp [hv, hs], hbridge⟩
    | none =>
      cases hy : toREAL v with
      | ok y =>
        have he := RateHandler_CreateRate_saved_eq f db v y hv hs hy
        rw [he]
        exact ⟨by simp [hv], by simp [hv], by simp [hv, hs, hy], by simp [hv, hs, hy], hbridge⟩
      | error e =>
        have he := RateHandler_CreateRate_refused_eq f db v hv e hs hy
        rw [he]
        exact ⟨by simp [hv], by simp [hv], by simp [hv, hs, hy], by simp [hv, hs, hy], hbridge⟩

/-- C21 (as stated) fails on the input of its own test: the value -10.0 is
answered with status 400, not 500. -/
theorem negative_rate_answered_400 :
    (RateHandler.CreateRate Faults.none emptyStore (.ok (-10))).1.statusCode = 400 ∧
    (RateHandler.CreateRate Faults.none emptyStore (.ok (-10))).1.statusCode ≠ 500 := by
  decide!

/-- C21 (as amended) at the value -10.0. -/
theorem RateHandler_CreateRate_status_witness :
    (-10 : Float64) ≤ 0 ∧
    (RateHandler.CreateRate Faults.none emptyStore (.ok (-10))).1 =
      ⟨400, some (.ErrorResponse ⟨"курс валюты должен быть положительным числом"⟩)⟩ :=
  have h : (-10 : Float64) ≤ 0 := by decide!
  ⟨h, (RateHandler_CreateRate_status Faults.none emptyStore (-10)).1 h⟩

/-! ## GetAverageRate -/

theorem scanRows_none {α : Type} (rows : List α) (q s e : String) :
    scanRows none rows q s e = (rows, none) := rfl

theorem take_reverse_eq_mostRecent (k : Nat) (log : List Rate) :
    log.reverse.take k = (mostRecent (min k log.length) log).reverse := by
  unfold mostRecent
  rw [List.take_reverse]
  congr 2
  omega

theorem mostRecent_length (k : Nat) (log : List Rate) :
    (mostRecent (min k log.length) log).length = min k log.length := by
  unfold mostRecent
  rw [List.length_drop]
  omega

theorem GetAverageRate_eq (f : Faults) (db : DBState) (N : Int) (hN : 0 < N)
    (hf : f.GetLatestRates = none) :
    GetAverageRate f db N =
      ((if (db.rates.reverse.take N.toNat).length = 0 then ⟨0, 0⟩
        else ⟨(db.rates.reverse.take N.toNat).foldl (fun acc rate => acc + rate.Value) 0 /
            Float64.ofInt ((db.rates.reverse.take N.toNat).length : Int),
          ((db.rates.reverse.take N.toNat).length : Int)⟩, none),
        db.record (.GetLatestRates N)) := by
  have h1 : ¬ N ≤ 0 := not_le.mpr hN
  have h2 : ¬ N < 0 := fun h => h1 (le_of_lt h)
  simp only [GetAverageRate, h1, if_false, GetLatestRates, h2, hf, scanRows_none]
  split <;> rfl

/-- C22: for a limit `N > 0` and a rate log of `n` observations read without
fault, `GetAverageRate` returns no error, the count `min N n`, and as average
the sum of the `min N n` most recent values divided by that count; for an
empty log it returns the average 0 and the count 0.  The sum is the float64
sum of the values taken in the order of the query, the most recent first, and
the quotient is the float64 quotient by the count converted to float64. -/
theorem GetAverageRate_of_most_recent (f : Faults) (db : DBState) (N : Int) (hN : 0 < N)
    (hf : f.GetLatestRates = none) :
    (GetAverageRate f db N).1.2 = none ∧
    (GetAverageRate f db N).1.1.Count = min N (db.rates.length : Int) ∧
    (db.rates = [] → (GetAverageRate f db N).1.1 = ⟨0, 0⟩) ∧
    (db.rates ≠ [] →
      (GetAverageRate f db N).1.1.Average =
        (mostRecent (min N.toNat db.rates.length) db.rates).reverse.foldl
            (fun acc rate => acc + rate.Value) 0 /
          Float64.ofInt (min N (db.rates.length : Int))) ∧
    (mostRecent (min N.toNat db.rates.length) db.rates).length = min N.toNat db.rates.length ∧
    (GetAverageRate f db N).2.calls = db.calls ++ [.GetLatestRates N] := by
  have hlen : (db.rates.reverse.take N.toNat).length = min N.toNat db.rates.length := by
    simp
  have hNn : ((N.toNat : Nat) : Int) = N := Int.toNat_of_nonneg (le_of_lt hN)
  have hpos : 0 < N.toNat := by omega
  have hmin : ((min N.toNat db.rates.length : Nat) : Int) = min N (db.rates.length : Int) := by
    omega
  rw [GetAverageRate_eq f db N hN hf]
  refine ⟨rfl, ?_, ?_, ?_, mostRecent_length _ _, rfl⟩
  · simp only [hlen]
    split
    · rename_i h0
      have : db.rates.length = 0 := by omega
      simp [this, le_of_lt hN]
    · simp only []
      omega
  · intro hnil
    simp [hnil]
  · intro hne
    have hn0 : db.rates.length ≠ 0 := fun h => hne (List.length_eq_zero.mp h)
    have hm : ¬ min N.toNat db.rates.length = 0 := by omega
    simp only [hlen, hm, if_false]
    rw [take_reverse_eq_mostRecent, hmin]

/-- C22 at the data of `TestRateHandler_GetAverageRate`: the five values 90.0
to 94.0 and the limit 3 give the count 3 and the average 93.  The three values
1.0, 1.0 and 2.0 give the float64 nearest to 4/3. -/
theorem GetAverageRate_of_most_recent_witness :
    (0 : Int) < 3 ∧ Faults.none.GetLatestRates = none ∧
    (GetAverageRate Faults.none fiveRatesStore 3).1.2 = none ∧
    (GetAverageRate Faults.none fiveRatesStore 3).1.1.Count = 3 ∧
    (GetAverageRate Faults.none fiveRatesStore 3).1.1.Average = 93 ∧
    (GetAverageRate Faults.none threeRatesStore 3).1.1.Average = 1.3333333333333333 := by
  have h := GetAverageRate_of_most_recent Faults.none fiveRatesStore 3 (by decide) rfl
  exact ⟨by decide, rfl, h.1, by decide!, by decide!, by decide!⟩

theorem scanRows_error_or {α : Type} (fault : Option QueryFault) (rows : List α)
    (q s e : String) :
    (scanRows fault rows q s e).2 = none ∨
      ∃ p d, (scanRows fault rows q s e).2 = some (.errorf p (.driver d)) := by
  unfold scanRows
  cases fault with
  | none => exact Or.inl rfl
  | some qf =>
    cases qf with
    | Query d => exact Or.inr ⟨_, d, rfl⟩
    | Scan row d =>
      simp only []
      split
      · exact Or.inr ⟨_, d, rfl⟩
      · exact Or.inl rfl
    | Err d => exact Or.inr ⟨_, d, rfl⟩

theorem GetLatestRates_state (f : Faults) (db : DBState) (limit : Int) :
    (GetLatestRates f db limit).2 = db.record (.GetLatestRates limit) := by
  unfold GetLatestRates
  simp only []
  split <;> rfl

theorem GetAverageRate_state (f : Faults) (db : DBState) (limit : Int) :
    (GetAverageRate f db limit).2 =
      db.record (.GetLatestRates (if limit ≤ 0 then 10 else limit)) := by
  have hs := GetLatestRates_state f db (if limit ≤ 0 then 10 else limit)
  unfold GetAverageRate
  simp only []
  rcases hg : GetLatestRates f db (if limit ≤ 0 then 10 else limit) with ⟨⟨rates, err⟩, db1⟩
  rw [hg] at hs
  simp only [] at hs
  subst hs
  cases err with
  | some e => rfl
  | none =>
    simp only []
    split <;> rfl

theorem GetAllWallets_state (f : Faults) (db : DBState) :
    (GetAllWallets f db).2 = db.record .GetAllWallets := rfl

theorem ListWallets_state (f : Faults) (db : DBState) :
    (ListWallets f db).2 = db.record .GetAllWallets := by
  unfold ListWallets
  rcases hg : GetAllWallets f db with ⟨⟨wallets, err⟩, db1⟩
  have hs := GetAllWallets_state f db
  rw [hg] at hs
  simp only [] at hs
  subst hs
  cases err <;> rfl

theorem RateHandler_GetAverageRate_called (f : Faults) (db : DBState) (query : Values)
    (N : Int) (hN : 0 < N)
    (hp : Values.Get query "limit" = "" ∧ N = 10 ∨
      Values.Get query "limit" ≠ "" ∧ Atoi (Values.Get query "limit") = some N) :
    (RateHandler.GetAverageRate f db query).2 = db.record (.GetLatestRates N) ∧
    ((GetAverageRate f db N).1.2 = none →
      (RateHandler.GetAverageRate f db query).1 =
        writeJSONResponse 200 (.AverageResponse (GetAverageRate f db N).1.1)) ∧
    ((GetAverageRate f db N).1.2 ≠ none →
      (RateHandler.GetAverageRate f db query).1 =
        ⟨500, some (.ErrorResponse ⟨"Внутренняя ошибка сервера"⟩)⟩) := by
  have hst := GetAverageRate_state f db N
  have hle : ¬ N ≤ 0 := not_le.mpr hN
  simp only [hle, if_false] at hst
  have hunf : RateHandler.GetAverageRate f db query =
      (match GetAverageRate f db N with
        | ((_, some _), db1) =>
          (writeJSONResponse StatusInternalServerError
            (.ErrorResponse ⟨"Внутренняя ошибка сервера"⟩), db1)
        | ((avgResponse, none), db1) =>
          (writeJSONResponse StatusOK (.AverageResponse avgResponse), db1)) := by
    rcases hp with ⟨h1, h2⟩ | ⟨h1, h2⟩
    · subst h2
      simp [RateHandler.GetAverageRate, h1]
    · simp [RateHandler.GetAverageRate, h1, h2, hle]
  rw [hunf]
  rcases hg : GetAverageRate f db N with ⟨⟨resp, err⟩, db1⟩
  rw [hg] at hst
  simp only [] at hst
  subst hst
  cases err with
  | none => exact ⟨rfl, fun _ => rfl, fun h => absurd rfl h⟩
  | some e => exact ⟨rfl, fun h => (by cases h), fun _ => rfl⟩

theorem Values_Get_absent (query : Values) (key : String) (h : query key = []) :
    Values.Get query key = "" := by
  simp [Values.Get, h]

theorem Values_Get_limitQuery (value : String) :
    Values.Get (limitQuery value) "limit" = value := by
  simp [Values.Get, limitQuery]

/-- C23 (as amended): for `GET /rates/average`, with `v` the first value of the
query parameter `limit`: when `v` is not empty and `strconv.Atoi` refuses it or
reads it as a number `≤ 0`, the answer is 400 with the text "Некорректное
значение параметра 'limit'" and the store and its call log stay untouched (the
service is not called); when the parameter is absent or `v` is empty, the
service is called with the limit 10; when `v` is read as `N > 0`, it is called
with `N`.  A called service that returns no error is answered with 200 and its
`AverageResponse`, written by `writeJSONResponse`, one that returns an error
with 500. -/
theorem RateHandler_GetAverageRate_limit (f : Faults) (db : DBState) (query : Values) :
    (Values.Get query "limit" ≠ "" →
      (Atoi (Values.Get query "limit") = none ∨
        ∃ n, Atoi (Values.Get query "limit") = some n ∧ n ≤ 0) →
      RateHandler.GetAverageRate f db query =
        (⟨400, some (.ErrorResponse ⟨"Некорректное значение параметра 'limit'"⟩)⟩, db)) ∧
    (query "limit" = [] ∨ Values.Get query "limit" = "" →
      (RateHandler.GetAverageRate f db query).2 = (GetAverageRate f db 10).2 ∧
      (RateHandler.GetAverageRate f db query).2.calls = db.calls ++ [.GetLatestRates 10] ∧
      ((GetAverageRate f db 10).1.2 = none →
        (RateHandler.GetAverageRate f db query).1 =
          writeJSONResponse 200 (.AverageResponse (GetAverageRate f db 10).1.1)) ∧
      ((GetAverageRate f db 10).1.2 ≠ none →
        (RateHandler.GetAverageRate f db query).1 =
          ⟨500, some (.ErrorResponse ⟨"Внутренняя ошибка сервера"⟩)⟩)) ∧
    (∀ N : Int, Atoi (Values.Get query "limit") = some N → 0 < N →
      (RateHandler.GetAverageRate f db query).2 = (GetAverageRate f db N).2 ∧
      (RateHandler.GetAverageRate f db query).2.calls = db.calls ++ [.GetLatestRates N] ∧
      ((GetAverageRate f db N).1.2 = none →
        (RateHandler.GetAverageRate f db query).1 =
          writeJSONResponse 200 (.AverageResponse (GetAverageRate f db N).1.1)) ∧
      ((GetAverageRate f db N).1.2 ≠ none →
        (RateHandler.GetAverageRate f db query).1 =
          ⟨500, some (.ErrorResponse ⟨"Внутренняя ошибка сервера"⟩)⟩)) := by
  refine ⟨?_, ?_, ?_⟩
  · intro hne hbad
    rcases hbad with hnone | ⟨n, hn, hle⟩
    · simp [RateHandler.GetAverageRate, hne, hnone, writeJSONResponse, Payload.encodable,
        StatusBadRequest]
    · simp [RateHandler.GetAverageRate, hne, hn, hle, writeJSONResponse, Payload.encodable,
        StatusBadRequest]
  · intro habsent
    have hempty : Values.Get query "limit" = "" := by
      rcases habsent with h | h
      · exact Values_Get_absent query "limit" h
      · exact h
    have h := RateHandler_GetAverageRate_called f db query 10 (by decide)
      (Or.inl ⟨hempty, rfl⟩)
    have hst := GetAverageRate_state f db 10
    simp only [show ¬ (10 : Int) ≤ 0 by decide, if_false] at hst
    exact ⟨by rw [h.1, hst], by rw [h.1]; rfl, h.2.1, h.2.2⟩
  · intro N hN hpos
    have hne : Values.Get query "limit" ≠ "" := by
      intro h
      have hempty : Atoi "" = none := by decide
      rw [h, hempty] at hN
      cases hN
    have h := RateHandler_GetAverageRate_called f db query N hpos (Or.inr ⟨hne, hN⟩)
    have hst := GetAverageRate_state f db N
    simp only [not_le.mpr hpos, if_false] at hst
    exact ⟨by rw [h.1, hst], by rw [h.1]; rfl, h.2.1, h.2.2⟩

/-- C23 (as stated) fails for a parameter that is present with an empty value,
as in `GET /rates/average?limit=`: the value is not an integer, yet the request
is not refused: the service is called with the limit 10 and the answer is 200.
It fails also for the positive integer 9223372036854775808, which does not fit
the type `int`: the request is refused with 400 and the service is not
called. -/
theorem empty_limit_value_gets_default :
    limitQuery "" "limit" ≠ [] ∧
    Atoi (Values.Get (limitQuery "") "limit") = none ∧
    (RateHandler.GetAverageRate Faults.none fiveRatesStore (limitQuery "")).1.statusCode = 200 ∧
    (RateHandler.GetAverageRate Faults.none fiveRatesStore (limitQuery "")).2.calls =
      fiveRatesStore.calls ++ [.GetLatestRates 10] ∧
    RateHandler.GetAverageRate Faults.none fiveRatesStore (limitQuery "9223372036854775808") =
      (⟨400, some (.ErrorResponse ⟨"Некорректное значение параметра 'limit'"⟩)⟩, fiveRatesStore) := by
  decide!

/-- C23 (as amended) at the data of the rate handler tests: the values "abc"
and "0" are refused, the value "3" calls the service with the limit 3 and a
request without parameters calls it with the limit 10. -/
theorem RateHandler_GetAverageRate_limit_witness :
    RateHandler.GetAverageRate Faults.none fiveRatesStore (limitQuery "abc") =
      (⟨400, some (.ErrorResponse ⟨"Некорректное значение параметра 'limit'"⟩)⟩, fiveRatesStore) ∧
    RateHandler.GetAverageRate Faults.none fiveRatesStore (limitQuery "0") =
      (⟨400, some (.ErrorResponse ⟨"Некорректное значение параметра 'limit'"⟩)⟩, fiveRatesStore) ∧
    (RateHandler.GetAverageRate Faults.none fiveRatesStore (limitQuery "3")).2.calls =
      fiveRatesStore.calls ++ [.GetLatestRates 3] ∧
    (RateHandler.GetAverageRate Faults.none fiveRatesStore noQuery).2.calls =
      fiveRatesStore.calls ++ [.GetLatestRates 10] :=
  have habc : Values.Get (limitQuery "abc") "limit" = "abc" := Values_Get_limitQuery "abc"
  have h0 : Values.Get (limitQuery "0") "limit" = "0" := Values_Get_limitQuery "0"
  have h3 : Values.Get (limitQuery "3") "limit" = "3" := Values_Get_limitQuery "3"
  ⟨(RateHandler_GetAverageRate_limit Faults.none fiveRatesStore (limitQuery "abc")).1
      (by rw [habc]; decide) (Or.inl (by rw [habc]; decide)),
    (RateHandler_GetAverageRate_limit Faults.none fiveRatesStore (limitQuery "0")).1
      (by rw [h0]; decide) (Or.inr ⟨0, by rw [h0]; decide, le_refl 0⟩),
    ((RateHandler_GetAverageRate_limit Faults.none fiveRatesStore (limitQuery "3")).2.2 3
      (by rw [h3]; decide) (by decide)).2.1,
    ((RateHandler_GetAverageRate_limit Faults.none fiveRatesStore noQuery).2.1
      (Or.inl rfl)).2.1⟩

/-! ## The read-only methods -/

theorem ListWallets_result_congr (f : Faults) (db1 db2 : DBState)
    (h : db1.wallets = db2.wallets) : (ListWallets f db1).1 = (ListWallets f db2).1 := by
  unfold ListWallets GetAllWallets
  rw [h]
  rcases scanRows f.GetAllWallets db2.wallets "ошибка выполнения запроса SELECT (all wallets): "
    "ошибка сканирования строки wallets: " "ошибка после итерации по результатам wallets: "
    with ⟨wallets, err⟩
  cases err <;> rfl

theorem GetLatestRates_result_congr (f : Faults) (db1 db2 : DBState) (limit : Int)
    (h : db1.rates = db2.rates) :
    (GetLatestRates f db1 limit).1 = (GetLatestRates f db2 limit).1 := by
  unfold GetLatestRates
  rw [h]
  simp only []
  split <;> rfl

theorem GetAverageRate_result_congr (f : Faults) (db1 db2 : DBState) (limit : Int)
    (h : db1.rates = db2.rates) :
    (GetAverageRate f db1 limit).1 = (GetAverageRate f db2 limit).1 := by
  have hc := GetLatestRates_result_congr f db1 db2 (if limit ≤ 0 then 10 else limit) h
  unfold GetAverageRate
  simp only []
  rcases h1 : GetLatestRates f db1 (if limit ≤ 0 then 10 else limit) with ⟨⟨r1, e1⟩, s1⟩
  rcases h2 : GetLatestRates f db2 (if limit ≤ 0 then 10 else limit) with ⟨⟨r2, e2⟩, s2⟩
  rw [h1, h2] at hc
  simp only [Prod.mk.injEq] at hc
  obtain ⟨rfl, rfl⟩ := hc
  cases e1 with
  | some e => rfl
  | none =>
    simp only []
    split <;> rfl

theorem queryApply_tables (db : DBState) (q : Query) :
    (Query.apply db q).wallets = db.wallets ∧ (Query.apply db q).rates = db.rates := by
  cases q with
  | ListWallets f =>
    show (ListWallets f db).2.wallets = db.wallets ∧ (ListWallets f db).2.rates = db.rates
    rw [ListWallets_state]
    exact ⟨rfl, rfl⟩
  | GetAverageRate f limit =>
    show (GetAverageRate f db limit).2.wallets = db.wallets ∧
      (GetAverageRate f db limit).2.rates = db.rates
    rw [GetAverageRate_state]
    exact ⟨rfl, rfl⟩

theorem runQueries_tables (queries : List Query) (db : DBState) :
    (runQueries db queries).wallets = db.wallets ∧ (runQueries db queries).rates = db.rates := by
  induction queries generalizing db with
  | nil => exact ⟨rfl, rfl⟩
  | cons q qs ih =>
    have h1 := ih (Query.apply db q)
    have h2 := queryApply_tables db q
    exact ⟨h1.1.trans h2.1, h1.2.trans h2.2⟩

theorem ListWallets_all (f : Faults) (db : DBState) (hf : f.GetAllWallets = none) :
    (ListWallets f db).1 = (⟨db.wallets⟩, none) := by
  simp [ListWallets, GetAllWallets, hf, scanRows_none]

/-- C25: `ListWallets` and `GetAverageRate` never mutate state: after any
sequence of calls of the two, under any storage faults, the wallet table and
the rate log are the prior ones, and a further call returns what it returns on
the prior store; without a fault `ListWallets` returns exactly the stored
wallets, in creation order, with their balances. -/
theorem queries_do_not_mutate (db : DBState) (queries : List Query) (f : Faults)
    (limit : Int) :
    (runQueries db queries).wallets = db.wallets ∧
    (runQueries db queries).rates = db.rates ∧
    (ListWallets f (runQueries db queries)).1 = (ListWallets f db).1 ∧
    (GetAverageRate f (runQueries db queries) limit).1 = (GetAverageRate f db limit).1 ∧
    (f.GetAllWallets = none → (ListWallets f db).1 = (⟨db.wallets⟩, none)) := by
  have ht := runQueries_tables queries db
  exact ⟨ht.1, ht.2, ListWallets_result_congr f _ _ ht.1,
    GetAverageRate_result_congr f _ _ limit ht.2, ListWallets_all f db⟩

/-- C25 at the data of `TestWalletHandler_ListWallets`: listing twice returns
the three stored wallets both times. -/
theorem queries_do_not_mutate_witness :
    Faults.none.GetAllWallets = none ∧
    (ListWallets Faults.none threeWalletsStore).1 = (⟨threeWalletsStore.wallets⟩, none) ∧
    (ListWallets Faults.none
      (runQueries threeWalletsStore [.ListWallets Faults.none])).1 =
      (ListWallets Faults.none threeWalletsStore).1 ∧
    (runQueries threeWalletsStore
      [.ListWallets Faults.none, .GetAverageRate Faults.none 3]).wallets =
      threeWalletsStore.wallets :=
  ⟨rfl,
    (queries_do_not_mutate threeWalletsStore [] Faults.none 3).2.2.2.2 rfl,
    (queries_do_not_mutate threeWalletsStore [.ListWallets Faults.none] Faults.none 3).2.2.1,
    (queries_do_not_mutate threeWalletsStore
      [.ListWallets Faults.none, .GetAverageRate Faults.none 3] Faults.none 3).1⟩

/-! ## The order of the calls inside a transaction -/

theorem CreateWallet_calls (f : Faults) (db : DBState) (w : Wallet) :
    (CreateWallet f db w).2.calls = db.calls ++ [.CreateWallet w] := by
  unfold CreateWallet
  simp only []
  repeat' split
  all_goals rfl

theorem UpdateWalletBalance_calls (f : Faults) (db : DBState) (n : String) (b : Float64) :
    (UpdateWalletBalance f db n b).2.calls = db.calls ++ [.UpdateWalletBalance n b] := by
  unfold UpdateWalletBalance
  simp only []
  repeat' split
  all_goals rfl

theorem updateBalanceTx_calls (f : Faults) (req : UpdateBalanceRequest) (tx : DBState)
    (vars : Float64 × String) :
    ∃ writes, (updateBalanceTx f req tx vars).2.2.calls =
        tx.calls ++ .GetWalletByNumberForUpdate req.WalletNumber :: writes ∧
      (writes = [] ∨ writes = [.CreateWallet ⟨req.WalletNumber, req.Amount⟩] ∨
        ∃ b, writes = [.UpdateWalletBalance req.WalletNumber b]) := by
  have hs := GetWalletByNumberForUpdate_state f tx req.WalletNumber
  unfold updateBalanceTx
  rcases hg : GetWalletByNumberForUpdate f tx req.WalletNumber with ⟨res, tx1⟩
  rw [hg] at hs
  simp only [] at hs
  subst hs
  cases res with
  | error err =>
    simp only []
    split
    · split
      · exact ⟨[], rfl, Or.inl rfl⟩
      · have hc := CreateWallet_calls f
          (tx.record (.GetWalletByNumberForUpdate req.WalletNumber))
          ⟨req.WalletNumber, req.Amount⟩
        rcases hcw : CreateWallet f (tx.record (.GetWalletByNumberForUpdate req.WalletNumber))
          ⟨req.WalletNumber, req.Amount⟩ with ⟨ce, tx2⟩
        rw [hcw] at hc
        simp only [] at hc
        refine ⟨[.CreateWallet ⟨req.WalletNumber, req.Amount⟩], ?_, Or.inr (Or.inl rfl)⟩
        cases ce with
        | some e =>
          simp only []
          split <;> simp [hc, DBState.record]
        | none => simp [hc, DBState.record]
    · exact ⟨[], rfl, Or.inl rfl⟩
  | ok wallet =>
    simp only []
    split
    · exact ⟨[], rfl, Or.inl rfl⟩
    · have hc := UpdateWalletBalance_calls f
        (tx.record (.GetWalletByNumberForUpdate req.WalletNumber)) req.WalletNumber
        (wallet.Balance + req.Amount)
      rcases huw : UpdateWalletBalance f
        (tx.record (.GetWalletByNumberForUpdate req.WalletNumber)) req.WalletNumber
        (wallet.Balance + req.Amount) with ⟨ue, tx2⟩
      rw [huw] at hc
      simp only [] at hc
      refine ⟨[.UpdateWalletBalance req.WalletNumber (wallet.Balance + req.Amount)], ?_,
        Or.inr (Or.inr ⟨_, rfl⟩)⟩
      cases ue <;> simp [hc, DBState.record]

theorem convertAndDeductTx_calls (f : Faults) (req : ConvertRequest) (d : Float64) (tx : DBState)
    (resp : ConvertResponse) :
    ∃ writes, (convertAndDeductTx f req d tx resp).2.2.calls =
        tx.calls ++ .GetWalletByNumberForUpdate req.SourceWalletNumber :: writes ∧
      (writes = [] ∨ ∃ b, writes = [.UpdateWalletBalance req.SourceWalletNumber b]) := by
  have hs := GetWalletByNumberForUpdate_state f tx req.SourceWalletNumber
  unfold convertAndDeductTx
  rcases hg : GetWalletByNumberForUpdate f tx req.SourceWalletNumber with ⟨res, tx1⟩
  rw [hg] at hs
  simp only [] at hs
  subst hs
  cases res with
  | error err =>
    simp only []
    split <;> exact ⟨[], rfl, Or.inl rfl⟩
  | ok wallet =>
    simp only []
    split
    · exact ⟨[], rfl, Or.inl rfl⟩
    · have hc := UpdateWalletBalance_calls f
        (tx.record (.GetWalletByNumberForUpdate req.SourceWalletNumber))
        req.SourceWalletNumber (wallet.Balance - d)
      rcases huw : UpdateWalletBalance f
        (tx.record (.GetWalletByNumberForUpdate req.SourceWalletNumber))
        req.SourceWalletNumber (wallet.Balance - d) with ⟨ue, tx2⟩
      rw [huw] at hc
      simp only [] at hc
      refine ⟨[.UpdateWalletBalance req.SourceWalletNumber (wallet.Balance - d)], ?_,
        Or.inr ⟨_, rfl⟩⟩
      cases ue <;> simp [hc, DBState.record]

theorem executeTx_calls {σ : Type} (f : Faults) (db : DBState) (vars : σ)
    (fn : DBState → σ → Option GoError × σ × DBState) :
    (f.BeginTx ≠ none ∧ (executeTx f db vars fn).2.2.calls = db.calls ++ [.BeginTx]) ∨
    (f.BeginTx = none ∧ ∃ c, (c = Call.Commit ∨ c = Call.Rollback) ∧
      (executeTx f db vars fn).2.2.calls = (fn (db.record .BeginTx) vars).2.2.calls ++ [c]) := by
  unfold executeTx
  cases hb : f.BeginTx with
  | some d => exact Or.inl ⟨by simp, rfl⟩
  | none =>
    right
    refine ⟨rfl, ?_⟩
    simp only []
    rcases hr : fn (db.record .BeginTx) vars with ⟨err, v1, tx⟩
    cases err with
    | some e => exact ⟨.Rollback, Or.inr rfl, by cases f.Rollback <;> rfl⟩
    | none => exact ⟨.Commit, Or.inl rfl, by cases f.Commit <;> rfl⟩

theorem UpdateBalance_state_of_valid (f : Faults) (db : DBState) (req : UpdateBalanceRequest)
    (hn : walletNumberRegex req.WalletNumber = true) :
    (UpdateBalance f db req).2 =
      (executeTx f db ((0 : Float64), "") (updateBalanceTx f req)).2.2 := by
  unfold UpdateBalance
  simp only [hn, Bool.not_true, Bool.false_eq_true, if_false]
  rcases executeTx f db ((0 : Float64), "") (updateBalanceTx f req) with ⟨err, ⟨fb, msg⟩, db1⟩
  cases err <;> rfl

theorem UpdateBalance_calls (f : Faults) (db : DBState) (req : UpdateBalanceRequest) :
    (UpdateBalance f db req).2.calls = db.calls ∨
    (f.BeginTx ≠ none ∧ (UpdateBalance f db req).2.calls = db.calls ++ [.BeginTx]) ∨
    (f.BeginTx = none ∧ ∃ writes c,
      (UpdateBalance f db req).2.calls =
        db.calls ++ [.BeginTx, .GetWalletByNumberForUpdate req.WalletNumber] ++ writes ++ [c] ∧
      (c = Call.Commit ∨ c = Call.Rollback) ∧
      (writes = [] ∨ writes = [.CreateWallet ⟨req.WalletNumber, req.Amount⟩] ∨
        ∃ b, writes = [.UpdateWalletBalance req.WalletNumber b])) := by
  by_cases hn : walletNumberRegex req.WalletNumber = true
  swap
  · left
    simp [UpdateBalance, hn]
  right
  rw [UpdateBalance_state_of_valid f db req hn]
  rcases executeTx_calls f db ((0 : Float64), "") (updateBalanceTx f req) with
    ⟨hb, hc⟩ | ⟨hb, c, hcc, hc⟩
  · exact Or.inl ⟨hb, hc⟩
  · right
    obtain ⟨writes, hw, hshape⟩ := updateBalanceTx_calls f req (db.record .BeginTx) ((0 : Float64), "")
    refine ⟨hb, writes, c, ?_, hcc, hshape⟩
    rw [hc, hw]
    simp [DBState.record]

theorem ConvertAndDeduct_calls (f : Faults) (db : DBState) (req : ConvertRequest) :
    (ConvertAndDeduct f db req).2.calls = db.calls ∨
    (ConvertAndDeduct f db req).2.calls = db.calls ++ [.GetLatestRate] ∨
    (f.BeginTx ≠ none ∧
      (ConvertAndDeduct f db req).2.calls = db.calls ++ [.GetLatestRate, .BeginTx]) ∨
    (f.BeginTx = none ∧ ∃ writes c,
      (ConvertAndDeduct f db req).2.calls =
        db.calls ++ [.GetLatestRate, .BeginTx,
          .GetWalletByNumberForUpdate req.SourceWalletNumber] ++ writes ++ [c] ∧
      (c = Call.Commit ∨ c = Call.Rollback) ∧
      (writes = [] ∨ ∃ b, writes = [.UpdateWalletBalance req.SourceWalletNumber b])) := by
  by_cases hn : walletNumberRegex req.SourceWalletNumber = true
  swap
  · left
    simp [ConvertAndDeduct, hn]
  by_cases hq : req.AmountToConvert ≤ 0
  · left
    simp [ConvertAndDeduct, hn, hq]
  right
  have hs := GetLatestRate_state f db
  rcases hg : GetLatestRate f db with ⟨res, db1⟩
  rw [hg] at hs
  simp only [] at hs
  subst hs
  cases res with
  | error e =>
    left
    simp [ConvertAndDeduct, hn, hq, hg, DBState.record]
  | ok latestRate =>
    right
    have hst : (ConvertAndDeduct f db req).2 =
        (executeTx f (db.record .GetLatestRate)
          (⟨req.SourceWalletNumber, 0, req.AmountToConvert * latestRate.Value,
            latestRate.Value, ""⟩ : ConvertResponse)
          (convertAndDeductTx f req (req.AmountToConvert * latestRate.Value))).2.2 := by
      unfold ConvertAndDeduct
      simp only [hn, hq, hg, Bool.not_true, Bool.false_eq_true, if_false]
      rcases executeTx f (db.record .GetLatestRate)
        (⟨req.SourceWalletNumber, 0, req.AmountToConvert * latestRate.Value,
          latestRate.Value, ""⟩ : ConvertResponse)
        (convertAndDeductTx f req (req.AmountToConvert * latestRate.Value))
        with ⟨err, resp, db2⟩
      cases err <;> rfl
    rw [hst]
    rcases executeTx_calls f (db.record .GetLatestRate)
      (⟨req.SourceWalletNumber, 0, req.AmountToConvert * latestRate.Value,
        latestRate.Value, ""⟩ : ConvertResponse)
      (convertAndDeductTx f req (req.AmountToConvert * latestRate.Value)) with
      ⟨hb, hc⟩ | ⟨hb, c, hcc, hc⟩
    · left
      refine ⟨hb, ?_⟩
      rw [hc]
      simp [DBState.record]
    · right
      obtain ⟨writes, hw, hshape⟩ := convertAndDeductTx_calls f req
        (req.AmountToConvert * latestRate.Value) ((db.record .GetLatestRate).record .BeginTx)
        (⟨req.SourceWalletNumber, 0, req.AmountToConvert * latestRate.Value,
          latestRate.Value, ""⟩ : ConvertResponse)
      refine ⟨hb, writes, c, ?_, hcc, hshape⟩
      rw [hc, hw]
      simp [DBState.record]

/-- C26: run on any transaction handle, the unit of work of `UpdateBalance`
and that of `ConvertAndDeduct` first make the locked read of the target
wallet on that handle and after it at most one write, `CreateWallet` or
`UpdateWalletBalance`, on the same wallet number and the same handle.  Hence
every call of the two methods that begins a transaction makes, after
`BeginTx`, the locked read first, then at most one such write, then `Commit`
or `Rollback`. -/
theorem locked_read_first_in_transaction (f : Faults) (db : DBState)
    (ureq : UpdateBalanceRequest) (creq : ConvertRequest) :
    (∀ (tx : DBState) (vars : Float64 × String), ∃ writes,
      (updateBalanceTx f ureq tx vars).2.2.calls =
        tx.calls ++ .GetWalletByNumberForUpdate ureq.WalletNumber :: writes ∧
      (writes = [] ∨ writes = [.CreateWallet ⟨ureq.WalletNumber, ureq.Amount⟩] ∨
        ∃ b, writes = [.UpdateWalletBalance ureq.WalletNumber b])) ∧
    (∀ (d : Float64) (tx : DBState) (resp : ConvertResponse), ∃ writes,
      (convertAndDeductTx f creq d tx resp).2.2.calls =
        tx.calls ++ .GetWalletByNumberForUpdate creq.SourceWalletNumber :: writes ∧
      (writes = [] ∨ ∃ b, writes = [.UpdateWalletBalance creq.SourceWalletNumber b])) ∧
    ((UpdateBalance f db ureq).2.calls = db.calls ∨
      (f.BeginTx ≠ none ∧ (UpdateBalance f db ureq).2.calls = db.calls ++ [.BeginTx]) ∨
      (f.BeginTx = none ∧ ∃ writes c,
        (UpdateBalance f db ureq).2.calls =
          db.calls ++ [.BeginTx, .GetWalletByNumberForUpdate ureq.WalletNumber] ++ writes ++
            [c] ∧
        (c = Call.Commit ∨ c = Call.Rollback) ∧
        (writes = [] ∨ writes = [.CreateWallet ⟨ureq.WalletNumber, ureq.Amount⟩] ∨
          ∃ b, writes = [.UpdateWalletBalance ureq.WalletNumber b]))) ∧
    ((ConvertAndDeduct f db creq).2.calls = db.calls ∨
      (ConvertAndDeduct f db creq).2.calls = db.calls ++ [.GetLatestRate] ∨
      (f.BeginTx ≠ none ∧
        (ConvertAndDeduct f db creq).2.calls = db.calls ++ [.GetLatestRate, .BeginTx]) ∨
      (f.BeginTx = none ∧ ∃ writes c,
        (ConvertAndDeduct f db creq).2.calls =
          db.calls ++ [.GetLatestRate, .BeginTx,
            .GetWalletByNumberForUpdate creq.SourceWalletNumber] ++ writes ++ [c] ∧
        (c = Call.Commit ∨ c = Call.Rollback) ∧
        (writes = [] ∨ ∃ b, writes = [.UpdateWalletBalance creq.SourceWalletNumber b]))) :=
  ⟨fun tx vars => updateBalanceTx_calls f ureq tx vars,
    fun d tx resp => convertAndDeductTx_calls f creq d tx resp,
    UpdateBalance_calls f db ureq, ConvertAndDeduct_calls f db creq⟩

/-! ## A storage fault while the latest rate is read -/

theorem ConvertAndDeduct_rate_error_eq (f : Faults) (db : DBState) (req : ConvertRequest)
    (hn : walletNumberRegex req.SourceWalletNumber = true) (hq : 0 < req.AmountToConvert)
    (e : GoError) (db1 : DBState) (hg : GetLatestRate f db = (.error e, db1)) :
    ConvertAndDeduct f db req =
      ((⟨req.SourceWalletNumber, 0, 0, 0, "не удалось получить актуальный курс валют"⟩,
        some .ErrRateNotAvailable), db.record .GetLatestRate) := by
  have hq0 : ¬ req.AmountToConvert ≤ 0 := Float64.not_le_of_lt _ _ hq
  have hs := GetLatestRate_state f db
  rw [hg] at hs
  simp only [] at hs
  subst hs
  simp [ConvertAndDeduct, hn, hq0, hg, GoError.Error]

theorem WalletHandler_ConvertAndDeduct_rate_error (f : Faults) (db : DBState)
    (req : ConvertRequest) (hn : walletNumberRegex req.SourceWalletNumber = true)
    (hq : 0 < req.AmountToConvert) (e : GoError) (db1 : DBState)
    (hg : GetLatestRate f db = (.error e, db1)) :
    WalletHandler.ConvertAndDeduct f db (.ok req) =
      (⟨503, some (.ErrorResponse ⟨"не удалось получить актуальный курс валют"⟩)⟩,
        db.record .GetLatestRate) := by
  have heq := ConvertAndDeduct_rate_error_eq f db req hn hq e db1 hg
  simp only [WalletHandler.ConvertAndDeduct, heq]
  simp [writeJSONResponse, Payload.encodable, StatusOK, StatusConflict, StatusBadRequest,
    StatusNotFound, StatusServiceUnavailable, errorsIs, GoError.Error]

theorem GetLatestRate_fault (f : Faults) (db : DBState) (d : DriverError)
    (hl : f.GetLatestRate = some d) :
    GetLatestRate f db =
      (.error (.errorf "ошибка выполнения запроса SELECT (latest rate): " (.driver d)),
        db.record .GetLatestRate) := by
  simp [GetLatestRate, hl]

theorem GetLatestRate_empty (f : Faults) (db : DBState) (hl : f.GetLatestRate = none)
    (hr : db.rates = []) :
    GetLatestRate f db =
      (.error (.errorf "нет доступных курсов: " .sqlErrNoRows), db.record .GetLatestRate) := by
  simp [GetLatestRate, hl, hr]

/-- C27 (as amended): a storage fault while the latest rate is read in
`ConvertAndDeduct` is surfaced exactly like a missing rate: the service
returns `ErrRateNotAvailable` with the same response, no transaction is begun,
both tables are unchanged, and the handler answers 503 with the text "не
удалось получить актуальный курс валют". -/
theorem rate_read_fault_answered_503 (f : Faults) (db : DBState) (req : ConvertRequest)
    (d : DriverError) (hl : f.GetLatestRate = some d)
    (hn : walletNumberRegex req.SourceWalletNumber = true) (hq : 0 < req.AmountToConvert) :
    (ConvertAndDeduct f db req).1.2 = some .ErrRateNotAvailable ∧
    (ConvertAndDeduct f db req).2.calls = db.calls ++ [.GetLatestRate] ∧
    (ConvertAndDeduct f db req).2.wallets = db.wallets ∧
    (ConvertAndDeduct f db req).2.rates = db.rates ∧
    (WalletHandler.ConvertAndDeduct f db (.ok req)).1 =
      ⟨503, some (.ErrorResponse ⟨"не удалось получить актуальный курс валют"⟩)⟩ ∧
    (∀ (f2 : Faults) (db2 : DBState), f2.GetLatestRate = none → db2.rates = [] →
      (ConvertAndDeduct f2 db2 req).1 = (ConvertAndDeduct f db req).1 ∧
      (WalletHandler.ConvertAndDeduct f2 db2 (.ok req)).1 =
        (WalletHandler.ConvertAndDeduct f db (.ok req)).1) := by
  have hg := GetLatestRate_fault f db d hl
  have heq := ConvertAndDeduct_rate_error_eq f db req hn hq _ _ hg
  have hh := WalletHandler_ConvertAndDeduct_rate_error f db req hn hq _ _ hg
  refine ⟨by rw [heq], by rw [heq]; rfl, by rw [heq]; rfl, by rw [heq]; rfl, by rw [hh], ?_⟩
  intro f2 db2 hl2 hr2
  have hg2 := GetLatestRate_empty f2 db2 hl2 hr2
  have heq2 := ConvertAndDeduct_rate_error_eq f2 db2 req hn hq _ _ hg2
  have hh2 := WalletHandler_ConvertAndDeduct_rate_error f2 db2 req hn hq _ _ hg2
  exact ⟨by rw [heq, heq2], by rw [hh, hh2]⟩

/-- C27 (as stated) fails: with the wallet and the request of the conversion
test and a broken connection during the read of the latest rate, the service
returns `ErrRateNotAvailable` and the handler answers 503, not 500. -/
theorem rate_read_fault_not_answered_500 :
    (ConvertAndDeduct rateReadFails convertSuccessStore convertSuccessRequest).1.2 =
      some .ErrRateNotAvailable ∧
    (WalletHandler.ConvertAndDeduct rateReadFails convertSuccessStore
      (.ok convertSuccessRequest)).1.statusCode = 503 ∧
    (WalletHandler.ConvertAndDeduct rateReadFails convertSuccessStore
      (.ok convertSuccessRequest)).1.statusCode ≠ 500 := by
  decide!

/-- C27 (as amended) for the wallet and the request of the conversion test and
a broken connection during the read of the latest rate. -/
theorem rate_read_fault_answered_503_witness :
    rateReadFails.GetLatestRate = some (.other "driver: bad connection") ∧
    walletNumberRegex convertSuccessRequest.SourceWalletNumber = true ∧
    0 < convertSuccessRequest.AmountToConvert ∧
    (WalletHandler.ConvertAndDeduct rateReadFails convertSuccessStore
      (.ok convertSuccessRequest)).1 =
      ⟨503, some (.ErrorResponse ⟨"не удалось получить актуальный курс валют"⟩)⟩ :=
  have hq : 0 < convertSuccessRequest.AmountToConvert := by decide!
  ⟨rfl, by decide, hq,
    (rate_read_fault_answered_503 rateReadFails convertSuccessStore convertSuccessRequest
      (.other "driver: bad connection") rfl (by decide) hq).2.2.2.2.1⟩

/-! ## The JSON body of a conversion that empties the wallet -/

/-- C28 at its failing input: a wallet holding 135.75, the rate 90.5 and the
quantity 1.5.  The conversion succeeds and is answered with 200, the remaining
balance is 0, and the JSON body has the four members `source_wallet_number`,
`converted_amount`, `rate_used` and `message`: `remaining_balance` is left
out. -/
theorem remaining_balance_zero_left_out :
    (ConvertAndDeduct Faults.none exactStore convertSuccessRequest).1.2 = none ∧
    (ConvertAndDeduct Faults.none exactStore convertSuccessRequest).1.1.RemainingBalance = 0 ∧
    (WalletHandler.ConvertAndDeduct Faults.none exactStore
      (.ok convertSuccessRequest)).1.statusCode = 200 ∧
    (WalletHandler.ConvertAndDeduct Faults.none exactStore
      (.ok convertSuccessRequest)).1.jsonKeys =
      ["source_wallet_number", "converted_amount", "rate_used", "message"] ∧
    "remaining_balance" ∉ (WalletHandler.ConvertAndDeduct Faults.none exactStore
      (.ok convertSuccessRequest)).1.jsonKeys := by
  decide!
/-! ## The boundary of the insufficient funds checks -/

theorem Float64.finite_of_isInfOrNaN (x : Float64) (h : x.isInfOrNaN = false) :
    ∃ k : Int, x = .finite k := by
  cases x with
  | finite k => exact ⟨k, rfl⟩
  | inf s => cases h
  | NaN => cases h

theorem Float64.finite_eq_zero_iff (k : Int) : Float64.finite k = 0 ↔ k = 0 := by
  rw [Float64.zero_eq]
  exact ⟨fun h => Float64.finite.inj h, fun h => by rw [h]⟩

/-- The float64 sum of a finite value and its negation is zero. -/
theorem Float64.finite_add_neg_self (k : Int) :
    Float64.finite k + -Float64.finite k = 0 := by
  rw [Float64.neg_finite, Float64.finite_add, Int.add_right_neg, Float64.ofUnits_zero,
    Float64.zero_eq]

/-- The float64 difference of a finite value and itself is zero. -/
theorem Float64.finite_sub_self (k : Int) : Float64.finite k - Float64.finite k = 0 := by
  rw [Float64.sub_eq_add_neg, Float64.finite_add_neg_self]

theorem Float64.zero_le_neg_finite (k : Int) (h0 : 0 ≤ k) :
    (0 : Float64) ≤ -Float64.finite k ↔ Float64.finite k = 0 := by
  rw [Float64.neg_finite, Float64.zero_le_finite, Float64.finite_eq_zero_iff]
  omega

/-- C29: the insufficient funds checks are strict.  On a store without faults
and for an existing wallet with a balance `B ≥ 0` (a number, as every stored
balance is): `UpdateBalance` with the amount `-B` returns no error, answers
with the withdrawal text (the deposit text when `B = 0`), reports the balance
0 and leaves the balance 0; and `ConvertAndDeduct` whose deduction, the
float64 product `q * r`, equals `B` returns no error, reports the remaining
balance 0 and leaves the balance 0.  Neither statement depends on the
other. -/
theorem exact_balance_is_sufficient (db : DBState) :
    (∀ (n : String) (B : Float64), walletNumberRegex n = true → db.balanceOf n = some B →
      0 ≤ B → B.isInfOrNaN = false →
      (UpdateBalance Faults.none db ⟨n, -B⟩).1.2 = none ∧
      (UpdateBalance Faults.none db ⟨n, -B⟩).1.1 =
        ⟨n, 0, if B = 0 then "Баланс успешно пополнен" else "Списание успешно выполнено"⟩ ∧
      (UpdateBalance Faults.none db ⟨n, -B⟩).2.balanceOf n = some 0) ∧
    (∀ (req : ConvertRequest) (B : Float64) (rate : Rate),
      walletNumberRegex req.SourceWalletNumber = true →
      db.balanceOf req.SourceWalletNumber = some B → 0 ≤ B → B.isInfOrNaN = false →
      0 < req.AmountToConvert → db.rates.getLast? = some rate →
      req.AmountToConvert * rate.Value = B →
      (ConvertAndDeduct Faults.none db req).1.2 = none ∧
      (ConvertAndDeduct Faults.none db req).1.2 ≠ some .ErrInsufficientFunds ∧
      (ConvertAndDeduct Faults.none db req).1.1.RemainingBalance = 0 ∧
      (ConvertAndDeduct Faults.none db req).2.balanceOf req.SourceWalletNumber = some 0) := by
  refine ⟨?_, ?_⟩
  · intro n B hn hB h0 hfin
    obtain ⟨w, hw, rfl⟩ := balanceOf_eq_some db n B hB
    obtain ⟨k, hk⟩ := Float64.finite_of_isInfOrNaN _ hfin
    have hk0 : 0 ≤ k := by
      rw [hk, Float64.zero_le_finite] at h0
      exact h0
    have hz : w.Balance + -w.Balance = 0 := by rw [hk, Float64.finite_add_neg_self]
    have hu := UpdateBalance_existing_eq Faults.none db n (-w.Balance) 0 w
      rfl rfl rfl rfl rfl hn hw
      (by rw [hz, Float64.zero_eq, Float64.finite_lt_finite]; omega)
      (by rw [hz]; exact toREAL_zero)
    rw [hz] at hu
    rw [hu]
    refine ⟨rfl, ?_, balanceOf_setBalance _ _ _ _ _ w hw⟩
    have hmsg := Float64.zero_le_neg_finite k hk0
    rw [← hk] at hmsg
    simp only [hmsg]
  · intro req B rate hn hB h0 hfin hq hrate heq
    obtain ⟨w, hw, rfl⟩ := balanceOf_eq_some db _ B hB
    obtain ⟨k, hk⟩ := Float64.finite_of_isInfOrNaN _ hfin
    have hz : w.Balance - req.AmountToConvert * rate.Value = 0 := by
      rw [heq, hk, Float64.finite_sub_self]
    have hc := ConvertAndDeduct_commit_eq Faults.none db req w rate 0 rfl rfl rfl rfl rfl rfl hn
      (Float64.not_le_of_lt _ _ hq) hrate hw
      (by rw [heq, hk, Float64.finite_lt_finite]; omega)
      (by rw [hz]; exact toREAL_zero)
    rw [hz] at hc
    rw [hc]
    exact ⟨rfl, fun h => (by cases h), rfl, balanceOf_setBalance _ _ _ _ _ w hw⟩

/-- C29 for a wallet holding 135.75, the rate 90.5 and the quantity 1.5, and
for a wallet holding 1.0, the rate 2.5 and the quantity 0.4, whose float64
product is 1.0. -/
theorem exact_balance_is_sufficient_witness :
    exactStore.balanceOf "2223344" = some 135.75 ∧ (0 : Float64) ≤ 135.75 ∧
    (UpdateBalance Faults.none exactStore ⟨"2223344", -135.75⟩).1.2 = none ∧
    (UpdateBalance Faults.none exactStore ⟨"2223344", -135.75⟩).2.balanceOf "2223344" =
      some 0 ∧
    (1.5 : Float64) * 90.5 = 135.75 ∧
    (ConvertAndDeduct Faults.none exactStore convertSuccessRequest).1.2 = none ∧
    (ConvertAndDeduct Faults.none exactStore convertSuccessRequest).2.balanceOf "2223344" =
      some 0 ∧
    unitStore.balanceOf "2223344" = some 1 ∧ (0.4 : Float64) * 2.5 = 1 ∧
    (ConvertAndDeduct Faults.none unitStore ⟨"", "", "", 0.4, "2223344"⟩).1.2 = none ∧
    (ConvertAndDeduct Faults.none unitStore ⟨"", "", "", 0.4, "2223344"⟩).2.balanceOf
      "2223344" = some 0 :=
  have h1 : exactStore.balanceOf "2223344" = some 135.75 := by decide!
  have h2 : (0 : Float64) ≤ 135.75 := by decide!
  have h3 : (1.5 : Float64) * 90.5 = 135.75 := by decide!
  have h4 : unitStore.balanceOf "2223344" = some 1 := by decide!
  have h5 : (0.4 : Float64) * 2.5 = 1 := by decide!
  have hu := (exact_balance_is_sufficient exactStore).1 "2223344" 135.75 (by decide) h1 h2
    (by decide!)
  have hc := (exact_balance_is_sufficient exactStore).2 convertSuccessRequest 135.75 ⟨1, 90.5⟩
    (by decide) h1 h2 (by decide!) (by decide!) (by decide!) h3
  have hc2 := (exact_balance_is_sufficient unitStore).2 ⟨"", "", "", 0.4, "2223344"⟩ 1
    ⟨1, 2.5⟩ (by decide) h4 (by decide!) (by decide!) (by decide!) (by decide!) h5
  ⟨h1, h2, hu.1, hu.2.2, h3, hc.1, hc.2.2.2, h4, h5, hc2.1, hc2.2.2.2⟩

/-! ## ConvertAndDeduct against UpdateBalance with the negated deduction -/

/-- C30 (as amended): on a store without faults, for an existing wallet with
balance `B`, the latest rate `r` and a quantity `q > 0`, with `q * r` the
float64 product: `ConvertAndDeduct` and `UpdateBalance` with the amount
`-(q * r)` leave the same wallet table and classify alike.  Both return
`ErrInsufficientFunds` exactly when `B < q * r`, and then report `B` and leave
the table unchanged.  Otherwise, when the `REAL` column accepts the float64
difference `B - q * r`, both return no error, report `B - q * r` and leave the
stored balance at what the column keeps of it; when the column refuses it,
both return an error and leave the table unchanged. -/
theorem ConvertAndDeduct_refines_UpdateBalance (db : DBState) (req : ConvertRequest)
    (B : Float64) (rate : Rate) (hn : walletNumberRegex req.SourceWalletNumber = true)
    (hq : 0 < req.AmountToConvert) (hrate : db.rates.getLast? = some rate)
    (hB : db.balanceOf req.SourceWalletNumber = some B) :
    (ConvertAndDeduct Faults.none db req).2.wallets =
      (UpdateBalance Faults.none db
        ⟨req.SourceWalletNumber, -(req.AmountToConvert * rate.Value)⟩).2.wallets ∧
    ((ConvertAndDeduct Faults.none db req).1.2 = some .ErrInsufficientFunds ↔
      B < req.AmountToConvert * rate.Value) ∧
    ((UpdateBalance Faults.none db
        ⟨req.SourceWalletNumber, -(req.AmountToConvert * rate.Value)⟩).1.2 =
      some .ErrInsufficientFunds ↔ B < req.AmountToConvert * rate.Value) ∧
    (B < req.AmountToConvert * rate.Value →
      (ConvertAndDeduct Faults.none db req).1.1.RemainingBalance = B ∧
      (UpdateBalance Faults.none db
        ⟨req.SourceWalletNumber, -(req.AmountToConvert * rate.Value)⟩).1.1.NewBalance = B ∧
      (ConvertAndDeduct Faults.none db req).2.wallets = db.wallets) ∧
    (¬ B < req.AmountToConvert * rate.Value →
      ∀ y, toREAL (B - req.AmountToConvert * rate.Value) = .ok y →
      (ConvertAndDeduct Faults.none db req).1.2 = none ∧
      (UpdateBalance Faults.none db
        ⟨req.SourceWalletNumber, -(req.AmountToConvert * rate.Value)⟩).1.2 = none ∧
      (ConvertAndDeduct Faults.none db req).1.1.RemainingBalance =
        B - req.AmountToConvert * rate.Value ∧
      (UpdateBalance Faults.none db
        ⟨req.SourceWalletNumber, -(req.AmountToConvert * rate.Value)⟩).1.1.NewBalance =
        B - req.AmountToConvert * rate.Value ∧
      (ConvertAndDeduct Faults.none db req).2.balanceOf req.SourceWalletNumber = some y ∧
      (UpdateBalance Faults.none db
        ⟨req.SourceWalletNumber, -(req.AmountToConvert * rate.Value)⟩).2.balanceOf
          req.SourceWalletNumber = some y) ∧
    (¬ B < req.AmountToConvert * rate.Value →
      ∀ e, toREAL (B - req.AmountToConvert * rate.Value) = .error e →
      (ConvertAndDeduct Faults.none db req).1.2 ≠ none ∧
      (UpdateBalance Faults.none db
        ⟨req.SourceWalletNumber, -(req.AmountToConvert * rate.Value)⟩).1.2 ≠ none ∧
      (ConvertAndDeduct Faults.none db req).2.wallets = db.wallets) := by
  obtain ⟨w, hw, rfl⟩ := balanceOf_eq_some db _ B hB
  have hq0 : ¬ req.AmountToConvert ≤ 0 := Float64.not_le_of_lt _ _ hq
  have hsub : w.Balance + -(req.AmountToConvert * rate.Value) =
      w.Balance - req.AmountToConvert * rate.Value := (Float64.sub_eq_add_neg _ _).symm
  by_cases hlt : w.Balance < req.AmountToConvert * rate.Value
  · have hc := ConvertAndDeduct_insufficient_eq Faults.none db req w rate rfl rfl rfl hn hq0
      hrate hw hlt
    have hu := UpdateBalance_insufficient_eq Faults.none db req.SourceWalletNumber
      (-(req.AmountToConvert * rate.Value)) w rfl rfl hn hw
      ((Float64.add_neg_lt_zero _ _).mpr hlt)
    rw [hc, hu]
    refine ⟨rfl, ?_, ?_, fun _ => ⟨rfl, rfl, rfl⟩, fun h => absurd hlt h,
      fun h => absurd hlt h⟩
    · exact ⟨fun _ => hlt, fun _ => rfl⟩
    · exact ⟨fun _ => hlt, fun _ => rfl⟩
  · have hsum : ¬ w.Balance + -(req.AmountToConvert * rate.Value) < 0 :=
      fun h => hlt ((Float64.add_neg_lt_zero _ _).mp h)
    cases hy : toREAL (w.Balance - req.AmountToConvert * rate.Value) with
    | ok y =>
      have hc := ConvertAndDeduct_commit_eq Faults.none db req w rate y rfl rfl rfl rfl rfl rfl
        hn hq0 hrate hw hlt hy
      have hu := UpdateBalance_existing_eq Faults.none db req.SourceWalletNumber
        (-(req.AmountToConvert * rate.Value)) y w rfl rfl rfl rfl rfl hn hw hsum
        (by rw [hsub]; exact hy)
      rw [hsub] at hu
      rw [hc, hu]
      refine ⟨rfl, ?_, ?_, fun h => absurd h hlt, ?_, fun _ e h => (by cases h)⟩
      · exact ⟨fun h => (by cases h), fun h => absurd h hlt⟩
      · exact ⟨fun h => (by cases h), fun h => absurd h hlt⟩
      · intro _ y2 h2
        cases h2
        exact ⟨rfl, rfl, rfl, rfl, balanceOf_setBalance _ _ _ _ _ w hw,
          balanceOf_setBalance _ _ _ _ _ w hw⟩
    | error e =>
      have hc := ConvertAndDeduct_refused_eq Faults.none db req w rate e rfl rfl rfl rfl
        hn hq0 hrate hw hlt hy
      have hu := UpdateBalance_existing_refused_eq Faults.none db req.SourceWalletNumber
        (-(req.AmountToConvert * rate.Value)) e w rfl rfl rfl hn hw hsum
        (by rw [hsub]; exact hy)
      rw [hc, hu]
      refine ⟨rfl, ?_, ?_, fun h => absurd h hlt, fun _ y h => (by cases h), ?_⟩
      · exact ⟨fun h => (by cases h), fun h => absurd h hlt⟩
      · exact ⟨fun h => (by cases h), fun h => absurd h hlt⟩
      · intro _ e2 _
        exact ⟨fun h => (by cases h), fun h => (by cases h), rfl⟩

/-- C30 (as stated) fails: on a wallet holding 1000000.0, with the rate 1.0 and
the quantity 0.01, the balance is not below the deduction and both
`ConvertAndDeduct` and `UpdateBalance` with the amount -0.01 report 999999.99,
the float64 difference, but both leave the stored balance at 1000000.0, which
is not the balance minus the deduction and not the balance reported. -/
theorem refinement_stored_balance_not_difference :
    ¬ (1000000 : Float64) < 0.01 * 1 ∧ (1000000 : Float64) - 0.01 * 1 = 999999.99 ∧
    (ConvertAndDeduct Faults.none millionStore
      ⟨"", "", "", 0.01, "1112233"⟩).1.1.RemainingBalance = 999999.99 ∧
    (UpdateBalance Faults.none millionStore ⟨"1112233", -(0.01 * 1)⟩).1.1.NewBalance =
      999999.99 ∧
    (ConvertAndDeduct Faults.none millionStore ⟨"", "", "", 0.01, "1112233"⟩).2.balanceOf
      "1112233" = some 1000000 ∧
    (UpdateBalance Faults.none millionStore ⟨"1112233", -(0.01 * 1)⟩).2.balanceOf "1112233" =
      some 1000000 ∧
    (1000000 : Float64) ≠ 999999.99 := by
  decide!

/-- C30 (as amended) at the data of `TestWalletHandler_ConvertAndDeduct_Success`: both
methods leave the balance 64.25. -/
theorem ConvertAndDeduct_refines_UpdateBalance_witness :
    walletNumberRegex convertSuccessRequest.SourceWalletNumber = true ∧
    0 < convertSuccessRequest.AmountToConvert ∧
    convertSuccessStore.rates.getLast? = some ⟨1, 90.5⟩ ∧
    convertSuccessStore.balanceOf convertSuccessRequest.SourceWalletNumber = some 200 ∧
    (ConvertAndDeduct Faults.none convertSuccessStore convertSuccessRequest).2.wallets =
      (UpdateBalance Faults.none convertSuccessStore
        ⟨convertSuccessRequest.SourceWalletNumber,
          -(convertSuccessRequest.AmountToConvert * 90.5)⟩).2.wallets ∧
    (ConvertAndDeduct Faults.none convertSuccessStore convertSuccessRequest).2.balanceOf
      convertSuccessRequest.SourceWalletNumber = some 64.25 :=
  have h2 : 0 < convertSuccessRequest.AmountToConvert := by decide!
  have h3 : convertSuccessStore.rates.getLast? = some ⟨1, 90.5⟩ := by decide!
  have h4 : convertSuccessStore.balanceOf convertSuccessRequest.SourceWalletNumber =
      some 200 := by decide!
  have h := ConvertAndDeduct_refines_UpdateBalance convertSuccessStore convertSuccessRequest 200
    ⟨1, 90.5⟩ (by decide) h2 h3 h4
  ⟨by decide, h2, h3, h4, h.1, (h.2.2.2.2.1 (by decide!) 64.25 (by decide!)).2.2.2.2.1⟩

/-- C26 for the withdrawal of the handler test: on the handle of the store the
unit of work logs the locked read and then its writes. -/
theorem locked_read_first_in_transaction_witness :
    ∃ writes, (updateBalanceTx Faults.none ⟨"1112233", -30⟩ withdrawStore
        ((0 : Float64), "")).2.2.calls =
        withdrawStore.calls ++ .GetWalletByNumberForUpdate "1112233" :: writes ∧
      (writes = [] ∨ writes = [.CreateWallet ⟨"1112233", -30⟩] ∨
        ∃ b, writes = [.UpdateWalletBalance "1112233" b]) :=
  (locked_read_first_in_transaction Faults.none withdrawStore ⟨"1112233", -30⟩
    convertSuccessRequest).1 withdrawStore ((0 : Float64), "")

/-! ## Deposits made one after the other -/

/-- Deposits to one existing wallet that run one after the other on a store
without faults: the deposits 10.0, 20.5 and 5.0 to a wallet holding 100.0
leave 135.5, in this order and in the reverse one. -/
theorem runUpdates_deposits_at_test_data :
    (runUpdates withdrawStore "1112233" [10, 20.5, 5]).balanceOf "1112233" = some 135.5 ∧
    (runUpdates withdrawStore "1112233" [5, 20.5, 10]).balanceOf "1112233" = some 135.5 := by
  decide!

end CurrencyService
